import Mathlib

/-!
# Management-group subscription reconciliation, read operations and feature flags

A shallow embedding of the identifier parser, the membership differ, the
flattener, the pollers and the read operations of
`internal/services/managementgroup`; of the fetch handling of the subnet and
virtual-network reads, the subnet policy flags, the subnet delegations and the
subnet set of a virtual network of `internal/services/network`; and of
`expandFeatures` of `internal/provider/features.go`.

Conventions of the embedding.

* A Go `string` is a Lean `String`, read through its character list `data`.  The
  two library calls the code makes, `strings.HasPrefix` with an ASCII prefix and
  `strings.Split` with the one-byte separator `"/"`, act on the character
  sequence exactly as they act on the UTF-8 bytes.
* A Go pointer that may be nil is an `Option`.
* A Go result pair `(value, error)` is a Lean pair of two `Option`s, so that the
  shape of every `return` statement stays visible.
* An error built by `fmt.Errorf` is a constructor carrying the format arguments.
* An SDK client is the function from the arguments of its `Get` call to the pair
  the call returns; a function whose source is not among the files is a
  parameter.
* A Go value of type `interface{}` is a `provider.Value`, and a run that panics
  returns the panic in `Except`.
* `strings.EqualFold` is modelled for an ASCII second argument, and
  `unicode.ToLower` is a parameter that the theorems constrain on ASCII
  characters only.
* The hash function of a plugin-SDK set is the parameter `hash` of the
  operations that build the set.  `pluginsdk.HashString`, the IEEE CRC-32
  checksum of the bytes of the string, is the function the code passes for it.
-/

namespace strings

/-- Go `strings.HasPrefix(s, prefix)`: `s` begins with `prefix`. -/
def HasPrefix (s pre : String) : Bool :=
  pre.data.isPrefixOf s.data

/-- The pieces of a character sequence between the occurrences of `sep`.  The
empty sequence has the single piece `[]`. -/
def splitChars (sep : Char) : List Char → List (List Char)
  | [] => [[]]
  | c :: cs =>
    if c = sep then [] :: splitChars sep cs
    else (c :: (splitChars sep cs).headD []) :: (splitChars sep cs).tail

/-- Go `strings.Split(s, sep)` for a separator `sep` of one byte: all substrings
of `s` between the separators, in order. -/
def Split (s : String) (sep : Char) : List String :=
  (splitChars sep s.data).map String.mk

end strings

set_option linter.dupNamespace false

namespace managementgroup

/-- The prefix of the ID of a child that is itself a management group. -/
def managementGroupChildPrefix : String :=
  "/providers/Microsoft.Management/managementGroups/"

/-- Go `type subscriptionId struct { subscriptionId string }`. -/
structure subscriptionId where
  subscriptionId : String
deriving DecidableEq, Repr

/-- The two errors `parseManagementGroupSubscriptionID` builds:
`"subscription Id is empty or not formatted correctly: %s"` with the input, and
`"subscription Id should have 2 segments, got %d: %q"` with the reported count
and the input. -/
inductive ParseError where
  | emptyOrNotFormatted (input : String)
  | wrongSegments (got : Int) (input : String)
deriving DecidableEq, Repr

/-- Go `parseManagementGroupSubscriptionID(input string) (*subscriptionId, error)`.
The index `components[2]` is only reached when `len(components) == 3`. -/
def parseManagementGroupSubscriptionID (input : String) :
    Option subscriptionId × Option ParseError :=
  if strings.HasPrefix input managementGroupChildPrefix then
    (none, none)
  else
    let components := strings.Split input '/'
    if components.length = 0 then
      (none, some (ParseError.emptyOrNotFormatted input))
    else if components.length ≠ 3 then
      (none, some (ParseError.wrongSegments ((components.length : Int) - 1) input))
    else
      (some { subscriptionId := components.getD 2 "" }, none)

/-- The fields of the SDK type `managementgroups.ChildInfo` the provider reads:
the type tag (`Type`, a string type in the SDK), and the nullable `ID`, `Name`
and `DisplayName`. -/
structure ChildInfo where
  Type_ : String
  ID : Option String
  Name : Option String
  DisplayName : Option String
deriving DecidableEq, Repr

/-- The error `determineManagementGroupSubscriptionsIdsToRemove` builds:
`"unable to parse Subscription ID %q: %+v"` with the child ID and the parser's
error. -/
inductive DetermineError where
  | unableToParse (id : String) (err : ParseError)
deriving DecidableEq, Repr

/-- The inner loop over `updated`: `found` becomes true at the first element equal
to the parsed subscription id. -/
def foundIn (sid : String) : List String → Bool
  | [] => false
  | subId :: rest => if sid = subId then true else foundIn sid rest

/-- The `for _, v := range *existing` loop of
`determineManagementGroupSubscriptionsIdsToRemove`, with the slice
`subscriptionIdsToRemove` built so far as the last argument. -/
def determineLoop (updated : List String) :
    List ChildInfo → List String → Option (List String) × Option DetermineError
  | [], subscriptionIdsToRemove => (some subscriptionIdsToRemove, none)
  | v :: rest, subscriptionIdsToRemove =>
    match v.ID with
    | none => determineLoop updated rest subscriptionIdsToRemove
    | some vID =>
      match parseManagementGroupSubscriptionID vID with
      | (_, some err) => (none, some (DetermineError.unableToParse vID err))
      | (none, none) => determineLoop updated rest subscriptionIdsToRemove
      | (some id, none) =>
        if foundIn id.subscriptionId updated then
          determineLoop updated rest subscriptionIdsToRemove
        else
          determineLoop updated rest (subscriptionIdsToRemove ++ [id.subscriptionId])

/-- Go `determineManagementGroupSubscriptionsIdsToRemove(existing
*[]managementgroups.ChildInfo, updated []string) (*[]string, error)`. -/
def determineManagementGroupSubscriptionsIdsToRemove
    (existing : Option (List ChildInfo)) (updated : List String) :
    Option (List String) × Option DetermineError :=
  match existing with
  | none => (some [], none)
  | some children => determineLoop updated children []

/-- A child of subscription type with the given ID, as the API reports it. -/
def subscriptionChild (id name : String) : ChildInfo :=
  { Type_ := "/subscriptions", ID := some id, Name := some name, DisplayName := none }

/-- A child of management-group type with the given ID, as the API reports it. -/
def groupChild (id name : String) : ChildInfo :=
  { Type_ := "Microsoft.Management/managementGroups", ID := some id, Name := some name,
    DisplayName := none }

/-- The children of the scenario of the specification: two subscriptions and one
nested group. -/
def scenarioChildren : List ChildInfo :=
  [subscriptionChild "/subscriptions/00000000-0000-0000-0000-000000000001"
      "00000000-0000-0000-0000-000000000001",
   subscriptionChild "/subscriptions/00000000-0000-0000-0000-000000000002"
      "00000000-0000-0000-0000-000000000002",
   groupChild "/providers/Microsoft.Management/managementGroups/child-group-a" "child-group-a"]

/-- The subscription ids the parser extracts from a list of children, in list
order: one for each child with a non-nil ID in which the parser finds a
subscription id. -/
def parsedSubscriptionIds (children : List ChildInfo) : List String :=
  children.filterMap fun v =>
    v.ID.bind fun vID => (parseManagementGroupSubscriptionID vID).1.map fun id => id.subscriptionId

end managementgroup

/-! ## Feature flags: `internal/features` and `internal/provider/features.go` -/

namespace features

/-- Go `type KeyVaultFeatures struct`. -/
structure KeyVaultFeatures where
  PurgeSoftDeleteOnDestroy : Bool
  PurgeSoftDeletedKeysOnDestroy : Bool
  PurgeSoftDeletedCertsOnDestroy : Bool
  PurgeSoftDeletedSecretsOnDestroy : Bool
  PurgeSoftDeletedHSMsOnDestroy : Bool
  RecoverSoftDeletedKeyVaults : Bool
  RecoverSoftDeletedKeys : Bool
  RecoverSoftDeletedCerts : Bool
  RecoverSoftDeletedSecrets : Bool
deriving DecidableEq, Repr

/-- Go `type ResourceGroupFeatures struct`. -/
structure ResourceGroupFeatures where
  PreventDeletionIfContainsResources : Bool
deriving DecidableEq, Repr

/-- Go `type TemplateDeploymentFeatures struct`. -/
structure TemplateDeploymentFeatures where
  DeleteNestedItemsDuringDeletion : Bool
deriving DecidableEq, Repr

/-- Go `type UserFeatures struct`. -/
structure UserFeatures where
  KeyVault : KeyVaultFeatures
  ResourceGroup : ResourceGroupFeatures
  TemplateDeployment : TemplateDeploymentFeatures
deriving DecidableEq, Repr

/-- Go `features.Default()`.  The composite literal names `KeyVault` only, so the
other two nested structs hold Go zero values, that is `false`. -/
def Default : UserFeatures :=
  { KeyVault :=
      { PurgeSoftDeleteOnDestroy := true
        PurgeSoftDeletedKeysOnDestroy := true
        PurgeSoftDeletedCertsOnDestroy := true
        PurgeSoftDeletedSecretsOnDestroy := true
        PurgeSoftDeletedHSMsOnDestroy := true
        RecoverSoftDeletedKeyVaults := true
        RecoverSoftDeletedKeys := true
        RecoverSoftDeletedCerts := true
        RecoverSoftDeletedSecrets := true }
    ResourceGroup := { PreventDeletionIfContainsResources := false }
    TemplateDeployment := { DeleteNestedItemsDuringDeletion := false } }

end features

namespace provider

open features

/-- The Go values of type `interface{}` a configuration block or a flattened
value is made of: the nil interface, booleans, strings, `[]string`,
`[]interface{}` and `map[string]interface{}`.  A map is the list of its entries;
a key is looked up from the front. -/
inductive Value where
  | nil
  | bool (b : Bool)
  | string (s : String)
  | strings (items : List String)
  | list (items : List Value)
  | map (entries : List (String × Value))

/-- The run-time panics of the Go code: a failed type assertion `x.(T)` and an
index out of range. -/
inductive Panic where
  | interfaceConversion
  | indexOutOfRange
deriving DecidableEq, Repr

/-- Go `x.([]interface{})`. -/
def Value.assertList : Value → Except Panic (List Value)
  | Value.list items => Except.ok items
  | _ => Except.error Panic.interfaceConversion

/-- Go `x.(map[string]interface{})`. -/
def Value.assertMap : Value → Except Panic (List (String × Value))
  | Value.map entries => Except.ok entries
  | _ => Except.error Panic.interfaceConversion

/-- Go `x.(bool)`. -/
def Value.assertBool : Value → Except Panic Bool
  | Value.bool b => Except.ok b
  | _ => Except.error Panic.interfaceConversion

/-- Go `x == nil` for a value of type `interface{}`. -/
def Value.isNil : Value → Bool
  | Value.nil => true
  | _ => false

/-- The statement `if v, ok := raw[key]; ok { field = v.(bool) }`: the state after
it is `assign current b` when `raw` holds the boolean `b` under `key`, and
`current` when `raw` has no such key. -/
def assignBoolIfPresent {α : Type} (raw : List (String × Value)) (key : String)
    (assign : α → Bool → α) (current : α) : Except Panic α :=
  match raw.lookup key with
  | none => Except.ok current
  | some v => do
    let b ← v.assertBool
    Except.ok (assign current b)

/-- The `key_vault` block of `expandFeatures`, lines 152 to 184. -/
def expandFeaturesKeyVault (val : List (String × Value)) (featuresMap : UserFeatures) :
    Except Panic UserFeatures :=
  match val.lookup "key_vault" with
  | none => Except.ok featuresMap
  | some raw => do
    let items ← raw.assertList
    match items with
    | [] => Except.ok featuresMap
    | item :: _ =>
      if item.isNil then Except.ok featuresMap
      else do
        let keyVaultRaw ← item.assertMap
        let featuresMap ← assignBoolIfPresent keyVaultRaw "purge_soft_delete_on_destroy"
          (fun f b => { f with KeyVault := { f.KeyVault with PurgeSoftDeleteOnDestroy := b } })
          featuresMap
        let featuresMap ← assignBoolIfPresent keyVaultRaw
          "purge_soft_deleted_certificates_on_destroy"
          (fun f b => { f with KeyVault := { f.KeyVault with PurgeSoftDeletedCertsOnDestroy := b } })
          featuresMap
        let featuresMap ← assignBoolIfPresent keyVaultRaw "purge_soft_deleted_keys_on_destroy"
          (fun f b => { f with KeyVault := { f.KeyVault with PurgeSoftDeletedKeysOnDestroy := b } })
          featuresMap
        let featuresMap ← assignBoolIfPresent keyVaultRaw "purge_soft_deleted_secrets_on_destroy"
          (fun f b =>
            { f with KeyVault := { f.KeyVault with PurgeSoftDeletedSecretsOnDestroy := b } })
          featuresMap
        let featuresMap ← assignBoolIfPresent keyVaultRaw
          "purge_soft_deleted_hardware_security_modules_on_destroy"
          (fun f b => { f with KeyVault := { f.KeyVault with PurgeSoftDeletedHSMsOnDestroy := b } })
          featuresMap
        let featuresMap ← assignBoolIfPresent keyVaultRaw "recover_soft_deleted_certificates"
          (fun f b => { f with KeyVault := { f.KeyVault with RecoverSoftDeletedCerts := b } })
          featuresMap
        let featuresMap ← assignBoolIfPresent keyVaultRaw "recover_soft_deleted_key_vaults"
          (fun f b => { f with KeyVault := { f.KeyVault with RecoverSoftDeletedKeyVaults := b } })
          featuresMap
        let featuresMap ← assignBoolIfPresent keyVaultRaw "recover_soft_deleted_keys"
          (fun f b => { f with KeyVault := { f.KeyVault with RecoverSoftDeletedKeys := b } })
          featuresMap
        assignBoolIfPresent keyVaultRaw "recover_soft_deleted_secrets"
          (fun f b => { f with KeyVault := { f.KeyVault with RecoverSoftDeletedSecrets := b } })
          featuresMap

/-- The `template_deployment` block of `expandFeatures`, lines 186 to 194.  The
first item is asserted to be a map without a nil check. -/
def expandFeaturesTemplateDeployment (val : List (String × Value)) (featuresMap : UserFeatures) :
    Except Panic UserFeatures :=
  match val.lookup "template_deployment" with
  | none => Except.ok featuresMap
  | some raw => do
    let items ← raw.assertList
    match items with
    | [] => Except.ok featuresMap
    | item :: _ => do
      let templateRaw ← item.assertMap
      assignBoolIfPresent templateRaw "delete_nested_items_during_deletion"
        (fun f b => { f with TemplateDeployment := { DeleteNestedItemsDuringDeletion := b } })
        featuresMap

/-- The `resource_group` block of `expandFeatures`, lines 196 to 204.  The first
item is asserted to be a map without a nil check. -/
def expandFeaturesResourceGroup (val : List (String × Value)) (featuresMap : UserFeatures) :
    Except Panic UserFeatures :=
  match val.lookup "resource_group" with
  | none => Except.ok featuresMap
  | some raw => do
    let items ← raw.assertList
    match items with
    | [] => Except.ok featuresMap
    | item :: _ => do
      let resourceGroupRaw ← item.assertMap
      assignBoolIfPresent resourceGroupRaw "prevent_deletion_if_contains_resources"
        (fun f b => { f with ResourceGroup := { PreventDeletionIfContainsResources := b } })
        featuresMap

/-- Go `expandFeatures(input []interface{}) features.UserFeatures`.  A run that
panics returns the panic. -/
def expandFeatures (input : List Value) : Except Panic UserFeatures :=
  let featuresMap := features.Default
  match input with
  | [] => Except.ok featuresMap
  | first :: _ =>
    if first.isNil then Except.ok featuresMap
    else do
      let val ← first.assertMap
      let featuresMap ← expandFeaturesKeyVault val featuresMap
      let featuresMap ← expandFeaturesTemplateDeployment val featuresMap
      expandFeaturesResourceGroup val featuresMap

/-- The features block of the test cases `Complete Enabled` (all `true`) and
`Complete Disabled` (all `false`), with one boolean for each key, in the key
order of the test file. -/
def completeBlock (certs keys secrets hsms vault rCerts rKeys rVaults rSecrets rg td : Bool) :
    List Value :=
  [Value.map
    [("key_vault", Value.list [Value.map
        [("purge_soft_deleted_certificates_on_destroy", Value.bool certs),
         ("purge_soft_deleted_keys_on_destroy", Value.bool keys),
         ("purge_soft_deleted_secrets_on_destroy", Value.bool secrets),
         ("purge_soft_deleted_hardware_security_modules_on_destroy", Value.bool hsms),
         ("purge_soft_delete_on_destroy", Value.bool vault),
         ("recover_soft_deleted_certificates", Value.bool rCerts),
         ("recover_soft_deleted_keys", Value.bool rKeys),
         ("recover_soft_deleted_key_vaults", Value.bool rVaults),
         ("recover_soft_deleted_secrets", Value.bool rSecrets)]]),
     ("resource_group", Value.list [Value.map
        [("prevent_deletion_if_contains_resources", Value.bool rg)]]),
     ("template_deployment", Value.list [Value.map
        [("delete_nested_items_during_deletion", Value.bool td)]])]]

end provider

namespace provider

open features

/-- The boolean a map holds under a key, or `d` when the key is absent or holds
something else. -/
def lookupBoolD (raw : List (String × Value)) (key : String) (d : Bool) : Bool :=
  match raw.lookup key with
  | some (Value.bool b) => b
  | _ => d

/-- The key-vault flags after the `key_vault` block of `expandFeatures`, as a
function of the value under `key_vault` and of the flags before the block, for
a run without panic. -/
def keyVaultFlags (raw : Option Value) (k : KeyVaultFeatures) : KeyVaultFeatures :=
  match raw with
  | some (Value.list (Value.map kv :: _)) =>
    { PurgeSoftDeleteOnDestroy :=
        lookupBoolD kv "purge_soft_delete_on_destroy" k.PurgeSoftDeleteOnDestroy
      PurgeSoftDeletedKeysOnDestroy :=
        lookupBoolD kv "purge_soft_deleted_keys_on_destroy" k.PurgeSoftDeletedKeysOnDestroy
      PurgeSoftDeletedCertsOnDestroy :=
        lookupBoolD kv "purge_soft_deleted_certificates_on_destroy"
          k.PurgeSoftDeletedCertsOnDestroy
      PurgeSoftDeletedSecretsOnDestroy :=
        lookupBoolD kv "purge_soft_deleted_secrets_on_destroy" k.PurgeSoftDeletedSecretsOnDestroy
      PurgeSoftDeletedHSMsOnDestroy :=
        lookupBoolD kv "purge_soft_deleted_hardware_security_modules_on_destroy"
          k.PurgeSoftDeletedHSMsOnDestroy
      RecoverSoftDeletedKeyVaults :=
        lookupBoolD kv "recover_soft_deleted_key_vaults" k.RecoverSoftDeletedKeyVaults
      RecoverSoftDeletedKeys := lookupBoolD kv "recover_soft_deleted_keys" k.RecoverSoftDeletedKeys
      RecoverSoftDeletedCerts :=
        lookupBoolD kv "recover_soft_deleted_certificates" k.RecoverSoftDeletedCerts
      RecoverSoftDeletedSecrets :=
        lookupBoolD kv "recover_soft_deleted_secrets" k.RecoverSoftDeletedSecrets }
  | _ => k

/-- The flag after a block with a single key (`template_deployment`,
`resource_group`), as a function of the value under the block's name and of the
flag before the block, for a run without panic. -/
def singleFlag (raw : Option Value) (key : String) (d : Bool) : Bool :=
  match raw with
  | some (Value.list (Value.map m :: _)) => lookupBoolD m key d
  | _ => d

end provider

/-! ## Remote fetches, resource state, pollers and read operations -/

/-- A Go `error` value that comes from code outside the modelled files: an SDK
client or an ID parser. -/
structure GoError where
  msg : String
deriving DecidableEq, Repr

/-- The part of `*http.Response` the provider reads: the status code. -/
structure HttpResponse where
  StatusCode : Int
deriving DecidableEq, Repr

namespace utils

/-- Modelled from the spec: `utils.ResponseWasForbidden`, whose source file is not
among the sources.  It is the `Forbidden` (authorization denied) classification
of a fetch response: a response is present and its status is 403. -/
def ResponseWasForbidden (resp : Option HttpResponse) : Bool :=
  match resp with
  | some r => r.StatusCode == 403
  | none => false

/-- Modelled from the spec: `utils.ResponseWasNotFound`, whose source file is not
among the sources.  It is the `NotFound` classification of a fetch response: a
response is present and its status is 404. -/
def ResponseWasNotFound (resp : Option HttpResponse) : Bool :=
  match resp with
  | some r => r.StatusCode == 404
  | none => false

end utils

namespace pluginsdk

/-- The plugin SDK's `Set` with the hash function `HashString`, holding strings: a
map from the hash code of an item to the item, here the list of its entries in
the order they were stored. -/
structure StringSet where
  m : List (Int × String)
deriving DecidableEq, Repr

/-- The plugin SDK's `Set.Add`: the item is stored under the absolute value of its
hash unless that code is already present. -/
def StringSet.Add (hash : String → Int) (s : StringSet) (item : String) : StringSet :=
  if s.m.any (fun e => e.1 == |hash item|) then s
  else { m := s.m ++ [(|hash item|, item)] }

/-- The values the modelled read operations pass to `d.Set`: a string, a nullable
string and a nullable set of strings. -/
inductive AttrValue where
  | string (s : String)
  | stringPtr (s : Option String)
  | stringSet (s : Option StringSet)
deriving DecidableEq, Repr

/-- The part of `pluginsdk.ResourceData` the read operations touch: the resource
ID and the attributes written so far. -/
structure ResourceData where
  id : String
  attrs : List (String × AttrValue)
deriving DecidableEq, Repr

/-- Go `d.Id()`. -/
def ResourceData.Id (d : ResourceData) : String := d.id

/-- Go `d.SetId(v)`. -/
def ResourceData.SetId (d : ResourceData) (v : String) : ResourceData :=
  { d with id := v }

/-- Go `d.Set(key, value)`: the attribute `key` now holds `value`. -/
def ResourceData.Set (d : ResourceData) (key : String) (value : AttrValue) : ResourceData :=
  { d with attrs := (key, value) :: d.attrs.filter (fun e => e.1 != key) }

end pluginsdk

namespace managementgroup

open pluginsdk

/-- Go `var managementGroupCacheControl = "no-cache"`. -/
def managementGroupCacheControl : String := "no-cache"

/-- The SDK constant `managementgroups.Type1Subscriptions`, the type tag of a child
that is a subscription. -/
def Type1Subscriptions : String := "/subscriptions"

/-- The part of the SDK type `managementgroups.ParentGroupInfo` the provider reads. -/
structure ParentGroupInfo where
  ID : Option String
deriving DecidableEq, Repr

/-- The part of the SDK type `managementgroups.Details` the provider reads. -/
structure Details where
  Parent : Option ParentGroupInfo
deriving DecidableEq, Repr

/-- The part of the SDK type `managementgroups.Properties` the provider reads. -/
structure Properties where
  DisplayName : Option String
  Details : Option Details
  Children : Option (List ChildInfo)
deriving DecidableEq, Repr

/-- The part of the SDK type `managementgroups.ManagementGroup` the provider reads:
the embedded `autorest.Response`, which wraps a nullable `*http.Response`, and
the embedded nullable `*Properties`. -/
structure ManagementGroup where
  Response : Option HttpResponse
  Properties : Option Properties
deriving DecidableEq, Repr

/-- The arguments of the SDK call `client.Get(ctx, groupID, expand, recurse,
filter, cacheControl)`, the context apart. -/
structure GetRequest where
  groupID : String
  expand : String
  recurse : Option Bool
  filter : String
  cacheControl : String
deriving DecidableEq, Repr

/-- The management-groups client: what `client.Get` returns for a request. -/
abbrev GroupsClient := GetRequest → ManagementGroup × Option GoError

/-- The value of type `interface{}` a state-refresh function returns first: nil, the
fetched management group, or a string. -/
inductive RefreshResult where
  | nil
  | managementGroup (resp : ManagementGroup)
  | string (s : String)
deriving DecidableEq, Repr

/-- Go `parse.ManagementGroupId`. -/
structure ManagementGroupId where
  Name : String
deriving DecidableEq, Repr

/-- Go `parse.ManagementGroupSubscriptionAssociationId`. -/
structure ManagementGroupSubscriptionAssociationId where
  ManagementGroup : String
  SubscriptionId : String
deriving DecidableEq, Repr

/-- The error `flattenManagementGroupSubscriptionIds` builds:
`"unable to parse child Subscription ID %+v"` with the parser's error. -/
inductive FlattenError where
  | unableToParseChild (err : ParseError)
deriving DecidableEq, Repr

/-- The errors the read operations and the subscription-association poller return:
the ID parser's error passed on unchanged;
`"unable to read Management Group %q: %+v"`;
`"unable to flatten subscription_ids: %+v"`;
`"reading Management Group %q for Subscription Associations: %+v"`;
`"could not read properties for Management Group %q"`. -/
inductive ReadError where
  | parseFailed (err : GoError)
  | unableToRead (id : String) (err : GoError)
  | unableToFlatten (err : FlattenError)
  | readingForSubscriptionAssociations (managementGroup : String) (err : GoError)
  | couldNotReadProperties (managementGroup : String)
deriving DecidableEq, Repr

/-- The arguments of the `client.Get` call of `managementgroupCreateStateRefreshFunc`
(line 225); `utils.Bool(true)` is a pointer to `true`. -/
def managementgroupCreateStateRefreshFunc_request (groupName : String) : GetRequest :=
  { groupID := groupName, expand := "children", recurse := some true, filter := "",
    cacheControl := managementGroupCacheControl }

/-- One call of the function returned by Go
`managementgroupCreateStateRefreshFunc(ctx, client, groupName)`. -/
def managementgroupCreateStateRefreshFunc (client : GroupsClient) (groupName : String) :
    RefreshResult × String × Option GoError :=
  match client (managementgroupCreateStateRefreshFunc_request groupName) with
  | (resp, some err) =>
    if utils.ResponseWasForbidden resp.Response then
      (RefreshResult.managementGroup resp, "pending", none)
    else
      (RefreshResult.managementGroup resp, "failed", some err)
  | (resp, none) => (RefreshResult.managementGroup resp, "succeeded", none)

/-- The arguments of the `client.Get` call of `subscriptionAssociationRefreshFunc`
(line 98); `utils.Bool(false)` is a pointer to `false`. -/
def subscriptionAssociationRefreshFunc_request
    (id : ManagementGroupSubscriptionAssociationId) : GetRequest :=
  { groupID := id.ManagementGroup, expand := "children", recurse := some false, filter := "",
    cacheControl := "" }

/-- The loop of `subscriptionAssociationRefreshFunc` over the children: true when
it reaches `return managementGroup, "Exists", nil`. -/
def subscriptionAssociationRefreshLoop (subscriptionId : String) : List ChildInfo → Bool
  | [] => false
  | v :: rest =>
    if v.Type_ = Type1Subscriptions then
      match v.Name with
      | some name =>
        if name = subscriptionId then true
        else subscriptionAssociationRefreshLoop subscriptionId rest
      | none => subscriptionAssociationRefreshLoop subscriptionId rest
    else subscriptionAssociationRefreshLoop subscriptionId rest

/-- One call of the function returned by Go
`subscriptionAssociationRefreshFunc(ctx, client, id)`. -/
def subscriptionAssociationRefreshFunc (client : GroupsClient)
    (id : ManagementGroupSubscriptionAssociationId) :
    RefreshResult × String × Option ReadError :=
  match client (subscriptionAssociationRefreshFunc_request id) with
  | (_, some err) =>
    (RefreshResult.nil, "", some (ReadError.readingForSubscriptionAssociations id.ManagementGroup err))
  | (managementGroup, none) =>
    match managementGroup.Properties with
    | none => (RefreshResult.string "NotFound", "NotFound", none)
    | some props =>
      match props.Children with
      | none => (RefreshResult.string "NotFound", "NotFound", none)
      | some children =>
        if subscriptionAssociationRefreshLoop id.SubscriptionId children then
          (RefreshResult.managementGroup managementGroup, "Exists", none)
        else (RefreshResult.string "NotFound", "NotFound", none)

/-- The loop of `flattenManagementGroupSubscriptionIds` over the children, with the
set built so far as the last argument. -/
def flattenLoop (hash : String → Int) :
    List ChildInfo → StringSet → Option StringSet × Option FlattenError
  | [], subscriptionIds => (some subscriptionIds, none)
  | child :: rest, subscriptionIds =>
    match child.ID with
    | none => flattenLoop hash rest subscriptionIds
    | some childID =>
      match parseManagementGroupSubscriptionID childID with
      | (_, some err) => (none, some (FlattenError.unableToParseChild err))
      | (some id, none) => flattenLoop hash rest (subscriptionIds.Add hash id.subscriptionId)
      | (none, none) => flattenLoop hash rest subscriptionIds

/-- Go `flattenManagementGroupSubscriptionIds(input *[]managementgroups.ChildInfo)
(*pluginsdk.Set, error)`; `hash` is `pluginsdk.HashString`. -/
def flattenManagementGroupSubscriptionIds (hash : String → Int)
    (input : Option (List ChildInfo)) : Option StringSet × Option FlattenError :=
  match input with
  | none => (some { m := [] }, none)
  | some children => flattenLoop hash children { m := [] }

/-- The arguments of the `client.Get` call of `resourceManagementGroupRead`
(lines 84 and 85). -/
def resourceManagementGroupRead_request (id : ManagementGroupId) : GetRequest :=
  { groupID := id.Name, expand := "children", recurse := some true, filter := "",
    cacheControl := managementGroupCacheControl }

/-- The parent ID `resourceManagementGroupRead` stores (lines 107 to 114). -/
def parentIdOf (props : Properties) : String :=
  match props.Details with
  | none => ""
  | some details =>
    match details.Parent with
    | none => ""
    | some parent =>
      match parent.ID with
      | none => ""
      | some pid => pid

/-- Go `resourceManagementGroupRead(d, meta) error`: the resource data after the
call and the error returned.  `parseID` is `parse.ManagementGroupID`, whose
source is not among the files, `hash` is `pluginsdk.HashString`, and `client` is
the management-groups client held by `meta`. -/
def resourceManagementGroupRead (parseID : String → Except GoError ManagementGroupId)
    (hash : String → Int) (client : GroupsClient) (d : ResourceData) :
    ResourceData × Option ReadError :=
  match parseID d.Id with
  | Except.error err => (d, some (ReadError.parseFailed err))
  | Except.ok id =>
    match client (resourceManagementGroupRead_request id) with
    | (resp, some err) =>
      if utils.ResponseWasForbidden resp.Response || utils.ResponseWasNotFound resp.Response then
        (d.SetId "", none)
      else
        (d, some (ReadError.unableToRead d.Id err))
    | (resp, none) =>
      let d := d.Set "name" (AttrValue.string id.Name)
      match resp.Properties with
      | none => (d, none)
      | some props =>
        let d := d.Set "display_name" (AttrValue.stringPtr props.DisplayName)
        match flattenManagementGroupSubscriptionIds hash props.Children with
        | (_, some err) => (d, some (ReadError.unableToFlatten err))
        | (subscriptionIds, none) =>
          let d := d.Set "subscription_ids" (AttrValue.stringSet subscriptionIds)
          let d := d.Set "parent_management_group_id" (AttrValue.string (parentIdOf props))
          (d, none)

/-- The arguments of the `client.Get` call of
`resourceManagementGroupSubscriptionAssociationRead` (line 63). -/
def resourceManagementGroupSubscriptionAssociationRead_request
    (id : ManagementGroupSubscriptionAssociationId) : GetRequest :=
  { groupID := id.ManagementGroup, expand := "children", recurse := some false, filter := "",
    cacheControl := "" }

/-- The loop of `resourceManagementGroupSubscriptionAssociationRead` over the
children, with the variable `found` as the last argument; the loop has no
`break`. -/
def subscriptionAssociationReadLoop (subscriptionId : String) : List ChildInfo → Bool → Bool
  | [], found => found
  | v :: rest, found =>
    if v.Type_ = Type1Subscriptions then
      match v.Name with
      | some name =>
        if name = subscriptionId then subscriptionAssociationReadLoop subscriptionId rest true
        else subscriptionAssociationReadLoop subscriptionId rest found
      | none => subscriptionAssociationReadLoop subscriptionId rest found
    else subscriptionAssociationReadLoop subscriptionId rest found

/-- Go `resourceManagementGroupSubscriptionAssociationRead(d, meta) error`: the
resource data after the call and the error returned.  `parseID` is
`parse.ManagementGroupSubscriptionAssociationID`, `groupIDString` is
`parse.NewManagementGroupId(name).ID()` and `subscriptionIDString` is
`commonids.NewSubscriptionID(id).ID()`; their sources are not among the files. -/
def resourceManagementGroupSubscriptionAssociationRead
    (parseID : String → Except GoError ManagementGroupSubscriptionAssociationId)
    (groupIDString subscriptionIDString : String → String)
    (client : GroupsClient) (d : ResourceData) : ResourceData × Option ReadError :=
  match parseID d.Id with
  | Except.error err => (d, some (ReadError.parseFailed err))
  | Except.ok id =>
    match client (resourceManagementGroupSubscriptionAssociationRead_request id) with
    | (_, some err) =>
      (d, some (ReadError.readingForSubscriptionAssociations id.ManagementGroup err))
    | (managementGroup, none) =>
      match managementGroup.Properties with
      | none => (d, none)
      | some props =>
        match props.Children with
        | none => (d, some (ReadError.couldNotReadProperties id.ManagementGroup))
        | some children =>
          if !subscriptionAssociationReadLoop id.SubscriptionId children false then
            (d.SetId "", none)
          else
            let d := d.Set "management_group_id" (AttrValue.string (groupIDString id.ManagementGroup))
            let d := d.Set "subscription_id" (AttrValue.string (subscriptionIDString id.SubscriptionId))
            (d, none)

end managementgroup

namespace network

open pluginsdk

/-- The part of the SDK type `network.SecurityGroup` the provider reads. -/
structure SecurityGroup where
  ID : Option String
deriving DecidableEq, Repr

/-- The part of the SDK type `network.ServiceEndpointPropertiesFormat` the provider
reads. -/
structure ServiceEndpointPropertiesFormat where
  Service : Option String
deriving DecidableEq, Repr

/-- The part of the SDK type `network.ServiceEndpointPolicy` the provider reads. -/
structure ServiceEndpointPolicy where
  ID : Option String
deriving DecidableEq, Repr

/-- The part of the SDK type `network.ServiceDelegationPropertiesFormat` the provider
reads. -/
structure ServiceDelegationPropertiesFormat where
  ServiceName : Option String
  Actions : Option (List String)
deriving DecidableEq, Repr

/-- The part of the SDK type `network.Delegation` the provider reads. -/
structure Delegation where
  Name : Option String
  ServiceDelegationPropertiesFormat : Option network.ServiceDelegationPropertiesFormat
deriving DecidableEq, Repr

/-- The part of the SDK type `network.SubnetPropertiesFormat` the provider reads;
the two policy fields and the provisioning state are string types. -/
structure SubnetPropertiesFormat where
  AddressPrefix : Option String
  AddressPrefixes : Option (List String)
  NetworkSecurityGroup : Option network.SecurityGroup
  ServiceEndpoints : Option (List network.ServiceEndpointPropertiesFormat)
  ServiceEndpointPolicies : Option (List network.ServiceEndpointPolicy)
  Delegations : Option (List network.Delegation)
  PrivateEndpointNetworkPolicies : String
  PrivateLinkServiceNetworkPolicies : String
  ProvisioningState : String
deriving DecidableEq, Repr

/-- The part of the SDK type `network.Subnet` the provider reads: the embedded
`autorest.Response`, the embedded nullable properties, the name and the ID. -/
structure Subnet where
  Response : Option HttpResponse
  SubnetPropertiesFormat : Option network.SubnetPropertiesFormat
  Name : Option String
  ID : Option String
deriving DecidableEq, Repr

/-- The part of the SDK type `network.AddressSpace` the provider reads. -/
structure AddressSpace where
  AddressPrefixes : Option (List String)
deriving DecidableEq, Repr

/-- The part of the SDK type `network.SubResource` the provider reads. -/
structure SubResource where
  ID : Option String
deriving DecidableEq, Repr

/-- The part of the SDK type `network.DhcpOptions` the provider reads. -/
structure DhcpOptions where
  DNSServers : Option (List String)
deriving DecidableEq, Repr

/-- The part of the SDK type `network.VirtualNetworkBgpCommunities` the provider
reads. -/
structure VirtualNetworkBgpCommunities where
  VirtualNetworkCommunity : Option String
deriving DecidableEq, Repr

/-- The part of the SDK type `network.VirtualNetworkPropertiesFormat` the provider
reads. -/
structure VirtualNetworkPropertiesFormat where
  ResourceGUID : Option String
  FlowTimeoutInMinutes : Option Int
  AddressSpace : Option network.AddressSpace
  DdosProtectionPlan : Option network.SubResource
  EnableDdosProtection : Option Bool
  Subnets : Option (List network.Subnet)
  DhcpOptions : Option network.DhcpOptions
  BgpCommunities : Option network.VirtualNetworkBgpCommunities
  ProvisioningState : String
deriving DecidableEq, Repr

/-- The part of the SDK type `network.VirtualNetwork` the provider reads: the
embedded `autorest.Response`, the location, the name of the extended location,
the tags and the embedded nullable properties. -/
structure VirtualNetwork where
  Response : Option HttpResponse
  Location : Option String
  ExtendedLocation : Option String
  Tags : List (String × Option String)
  VirtualNetworkPropertiesFormat : Option network.VirtualNetworkPropertiesFormat
deriving DecidableEq, Repr

/-- The fields of Go `parse.SubnetId` the provider reads. -/
structure SubnetId where
  ResourceGroup : String
  VirtualNetworkName : String
  Name : String
deriving DecidableEq, Repr

/-- The fields of Go `parse.VirtualNetworkId` the provider reads. -/
structure VirtualNetworkId where
  ResourceGroup : String
  Name : String
deriving DecidableEq, Repr

/-- The arguments of the SDK call `SubnetsClient.Get(ctx, resourceGroupName,
virtualNetworkName, subnetName, expand)`, the context apart. -/
structure SubnetGetRequest where
  resourceGroupName : String
  virtualNetworkName : String
  subnetName : String
  expand : String
deriving DecidableEq, Repr

/-- The arguments of the SDK call `VirtualNetworksClient.Get(ctx, resourceGroupName,
virtualNetworkName, expand)`, the context apart. -/
structure VirtualNetworkGetRequest where
  resourceGroupName : String
  virtualNetworkName : String
  expand : String
deriving DecidableEq, Repr

/-- The errors `resourceSubnetRead` and `resourceVirtualNetworkRead` return: the ID
parser's error passed on unchanged; `"retrieving %s: %+v"` with the ID; and an
error of the statements that copy a fetched response into the state, with the
name of the attribute. -/
inductive ReadError where
  | parseFailed (err : GoError)
  | retrievingSubnet (id : SubnetId) (err : GoError)
  | retrievingVirtualNetwork (id : VirtualNetworkId) (err : GoError)
  | setting (key : String) (err : GoError)
deriving DecidableEq, Repr

/-- Go `resourceSubnetRead(d, meta) error`, lines 226 to 243: the resource data
after the call and the error returned.  `parseID` is `parse.SubnetID`, whose
source is not among the files, `client` is the subnets client held by `meta`,
and `copyToState` stands for the statements from line 245 on, which copy a
fetched subnet into the resource data and are reached only after a fetch
without error. -/
def resourceSubnetRead (parseID : String → Except GoError SubnetId)
    (client : SubnetGetRequest → Subnet × Option GoError)
    (copyToState : SubnetId → Subnet → ResourceData → ResourceData × Option ReadError)
    (d : ResourceData) : ResourceData × Option ReadError :=
  match parseID d.Id with
  | Except.error err => (d, some (ReadError.parseFailed err))
  | Except.ok id =>
    match client { resourceGroupName := id.ResourceGroup,
                   virtualNetworkName := id.VirtualNetworkName,
                   subnetName := id.Name, expand := "" } with
    | (resp, some err) =>
      if utils.ResponseWasNotFound resp.Response then (d.SetId "", none)
      else (d, some (ReadError.retrievingSubnet id err))
    | (resp, none) => copyToState id resp d

/-- Go `resourceVirtualNetworkRead(d, meta) error`, lines 129 to 146: the resource
data after the call and the error returned.  `parseID` is
`parse.VirtualNetworkID`, whose source is not among the files, `client` is the
virtual-networks client held by `meta`, and `copyToState` stands for the
statements from line 148 on, which copy a fetched virtual network into the
resource data and are reached only after a fetch without error. -/
def resourceVirtualNetworkRead (parseID : String → Except GoError VirtualNetworkId)
    (client : VirtualNetworkGetRequest → VirtualNetwork × Option GoError)
    (copyToState : VirtualNetworkId → VirtualNetwork → ResourceData →
      ResourceData × Option ReadError)
    (d : ResourceData) : ResourceData × Option ReadError :=
  match parseID d.Id with
  | Except.error err => (d, some (ReadError.parseFailed err))
  | Except.ok id =>
    match client { resourceGroupName := id.ResourceGroup, virtualNetworkName := id.Name,
                   expand := "" } with
    | (resp, some err) =>
      if utils.ResponseWasNotFound resp.Response then (d.SetId "", none)
      else (d, some (ReadError.retrievingVirtualNetwork id err))
    | (resp, none) => copyToState id resp d

end network

namespace managementgroup

/-- A fetched management group with status 200, no display name, no parent and the
given children. -/
def groupWithChildren (children : List ChildInfo) : ManagementGroup :=
  { Response := some { StatusCode := 200 },
    Properties := some { DisplayName := none, Details := none, Children := some children } }

end managementgroup

/-! ## Subnet policy flags, subnet delegations and the subnets of a virtual network -/

namespace unicode

/-- Whether the rune `r` lies in the orbit of the ASCII rune `a` under Go's
`unicode.SimpleFold`.  The orbit of an ASCII letter holds its lower-case and its
upper-case form, and in addition the Kelvin sign U+212A for `k` and the long s
U+017F for `s`; the orbit of any other ASCII rune holds that rune only. -/
def sameFoldASCII (r a : Char) : Bool :=
  if a.isAlpha then
    r == a.toLower || r == a.toUpper
      || (a.toLower == 'k' && r == Char.ofNat 0x212A)
      || (a.toLower == 's' && r == Char.ofNat 0x017F)
  else r == a

end unicode

namespace strings

/-- The rune-by-rune comparison of `strings.EqualFold`. -/
def equalFoldChars : List Char → List Char → Bool
  | [], [] => true
  | r :: rs, a :: as => unicode.sameFoldASCII r a && equalFoldChars rs as
  | _, _ => false

/-- Go `strings.EqualFold(s, t)` for a `t` made of ASCII characters, as at every call
in the modelled code: the two strings have the same number of runes and each
rune of `s` is in the simple-fold orbit of the rune of `t` at its place. -/
def EqualFold (s t : String) : Bool :=
  equalFoldChars s.data t.data

/-- Go `strings.ToLower(s)`: every rune is mapped by `unicode.ToLower`, here the
parameter `lower`. -/
def ToLower (lower : Char → Char) (s : String) : String :=
  String.mk (s.data.map lower)

end strings

namespace provider

/-- Go `x.(string)`. -/
def Value.assertString : Value → Except Panic String
  | Value.string s => Except.ok s
  | _ => Except.error Panic.interfaceConversion

/-- Go `m[key]` for a `map[string]interface{}`, without the second result: the nil
interface when the key is absent. -/
def mapIndex (m : List (String × Value)) (key : String) : Value :=
  match m.lookup key with
  | some v => v
  | none => Value.nil

/-- Go `m[key] = v`: the entry of `key`, if any, is replaced. -/
def mapAssign {β : Type} (m : List (String × β)) (key : String) (v : β) : List (String × β) :=
  m.filter (fun e => e.1 != key) ++ [(key, v)]

end provider

namespace pluginsdk

open provider

/-- The plugin SDK's `Set` holding values of type `interface{}`: a map from the hash
code of an item to the item, here the list of its entries in the order they
were stored. -/
structure ValueSet where
  m : List (Int × Value)

/-- The plugin SDK's `Set.Add` for a set with hash function `F`: `F` is called on the
item, and the item is stored under the absolute value of the result unless
that code is already present.  A panic of `F` is a panic of `Add`. -/
def ValueSet.Add (F : Value → Except Panic Int) (s : ValueSet) (item : Value) :
    Except Panic ValueSet := do
  let code ← F item
  if s.m.any (fun e => e.1 == |code|) then Except.ok s
  else Except.ok { m := s.m ++ [(|code|, item)] }

end pluginsdk

namespace network

open provider pluginsdk

/-- The SDK constant `network.VirtualNetworkPrivateEndpointNetworkPoliciesDisabled`. -/
def VirtualNetworkPrivateEndpointNetworkPoliciesDisabled : String := "Disabled"

/-- The SDK constant `network.VirtualNetworkPrivateEndpointNetworkPoliciesEnabled`. -/
def VirtualNetworkPrivateEndpointNetworkPoliciesEnabled : String := "Enabled"

/-- Go `var subnetDelegationServiceNames`. -/
def subnetDelegationServiceNames : List String :=
  ["Microsoft.ApiManagement/service",
   "Microsoft.AzureCosmosDB/clusters",
   "Microsoft.BareMetal/AzureVMware",
   "Microsoft.BareMetal/CrayServers",
   "Microsoft.Batch/batchAccounts",
   "Microsoft.ContainerInstance/containerGroups",
   "Microsoft.ContainerService/managedClusters",
   "Microsoft.Databricks/workspaces",
   "Microsoft.DBforMySQL/flexibleServers",
   "Microsoft.DBforMySQL/serversv2",
   "Microsoft.DBforPostgreSQL/flexibleServers",
   "Microsoft.DBforPostgreSQL/serversv2",
   "Microsoft.DBforPostgreSQL/singleServers",
   "Microsoft.HardwareSecurityModules/dedicatedHSMs",
   "Microsoft.Kusto/clusters",
   "Microsoft.Logic/integrationServiceEnvironments",
   "Microsoft.LabServices/labplans",
   "Microsoft.MachineLearningServices/workspaces",
   "Microsoft.Netapp/volumes",
   "Microsoft.Network/dnsResolvers",
   "Microsoft.Network/managedResolvers",
   "Microsoft.PowerPlatform/vnetaccesslinks",
   "Microsoft.ServiceFabricMesh/networks",
   "Microsoft.Sql/managedInstances",
   "Microsoft.Sql/servers",
   "Microsoft.StoragePool/diskPools",
   "Microsoft.StreamAnalytics/streamingJobs",
   "Microsoft.Synapse/workspaces",
   "Microsoft.Web/hostingEnvironments",
   "Microsoft.Web/serverFarms",
   "Microsoft.Orbital/orbitalGateways",
   "NGINX.NGINXPLUS/nginxDeployments",
   "PaloAltoNetworks.Cloudngfw/firewalls",
   "Qumulo.Storage/fileSystems"]

/-- Go `expandEnforceSubnetNetworkPolicy(enabled bool) string`. -/
def expandEnforceSubnetNetworkPolicy (enabled : Bool) : String :=
  if enabled then VirtualNetworkPrivateEndpointNetworkPoliciesDisabled
  else VirtualNetworkPrivateEndpointNetworkPoliciesEnabled

/-- Go `expandSubnetNetworkPolicy(enabled bool) string`. -/
def expandSubnetNetworkPolicy (enabled : Bool) : String :=
  if enabled then VirtualNetworkPrivateEndpointNetworkPoliciesEnabled
  else VirtualNetworkPrivateEndpointNetworkPoliciesDisabled

/-- Go `flattenEnforceSubnetNetworkPolicy(input string) bool`. -/
def flattenEnforceSubnetNetworkPolicy (input : String) : Bool :=
  strings.EqualFold input VirtualNetworkPrivateEndpointNetworkPoliciesDisabled

/-- Go `flattenSubnetNetworkPolicy(input string) bool`. -/
def flattenSubnetNetworkPolicy (input : String) : Bool :=
  strings.EqualFold input VirtualNetworkPrivateEndpointNetworkPoliciesEnabled

/-- The inner loop of `expandSubnetDelegation` over `srvActions` (lines 329 to 333):
every action is asserted to be a string. -/
def expandSubnetDelegationActions : List Value → Except Panic (List String)
  | [] => Except.ok []
  | srvAction :: rest => do
    let srvActionData ← srvAction.assertString
    let retSrvActions ← expandSubnetDelegationActions rest
    Except.ok (srvActionData :: retSrvActions)

/-- The loop of `expandSubnetDelegation` over `input`. -/
def expandSubnetDelegationLoop : List Value → Except Panic (List Delegation)
  | [] => Except.ok []
  | deleValue :: rest => do
    let deleData ← deleValue.assertMap
    let deleName ← (mapIndex deleData "name").assertString
    let srvDelegations ← (mapIndex deleData "service_delegation").assertList
    let first ← (match srvDelegations with
      | [] => Except.error Panic.indexOutOfRange
      | x :: _ => Except.ok x)
    let srvDelegation ← first.assertMap
    let srvName ← (mapIndex srvDelegation "name").assertString
    let srvActions ← (mapIndex srvDelegation "actions").assertList
    let retSrvActions ← expandSubnetDelegationActions srvActions
    let retDelegations ← expandSubnetDelegationLoop rest
    Except.ok
      ({ Name := some deleName,
         ServiceDelegationPropertiesFormat :=
           some { ServiceName := some srvName, Actions := some retSrvActions } }
        :: retDelegations)

/-- Go `expandSubnetDelegation(input []interface{}) *[]network.Delegation`; the
pointer returned is never nil. -/
def expandSubnetDelegation (input : List Value) : Except Panic (Option (List Delegation)) := do
  let retDelegations ← expandSubnetDelegationLoop input
  Except.ok (some retDelegations)

/-- The map `normalizeServiceName` of `flattenSubnetDelegation` (lines 356 to 359):
every entry of `subnetDelegationServiceNames` is stored under its lower-cased
form. -/
def normalizeServiceName (lower : Char → Char) : List (String × String) :=
  subnetDelegationServiceNames.foldl
    (fun m normName => mapAssign m (strings.ToLower lower normName) normName) []

/-- The service name `flattenSubnetDelegation` emits for the service name `name`
(lines 371 to 374). -/
def normalizedServiceName (lower : Char → Char) (name : String) : String :=
  match (normalizeServiceName lower).lookup (strings.ToLower lower name) with
  | some nv => nv
  | none => name

/-- The body of the loop of `flattenSubnetDelegation` (lines 362 to 385): the map
emitted for one delegation. -/
def flattenSubnetDelegationItem (lower : Char → Char) (dele : Delegation) : Value :=
  let retDele : List (String × Value) := []
  let retDele := match dele.Name with
    | some v => mapAssign retDele "name" (Value.string v)
    | none => retDele
  let svcDele : List (String × Value) := []
  let svcDele := match dele.ServiceDelegationPropertiesFormat with
    | some props =>
      let svcDele := match props.ServiceName with
        | some v => mapAssign svcDele "name" (Value.string (normalizedServiceName lower v))
        | none => svcDele
      match props.Actions with
      | some v => mapAssign svcDele "actions" (Value.strings v)
      | none => svcDele
    | none => svcDele
  let svcDeles := [Value.map svcDele]
  let retDele := mapAssign retDele "service_delegation" (Value.list svcDeles)
  Value.map retDele

/-- Go `flattenSubnetDelegation(delegations *[]network.Delegation) []interface{}`;
`lower` is `unicode.ToLower`. -/
def flattenSubnetDelegation (lower : Char → Char) (delegations : Option (List Delegation)) :
    List Value :=
  match delegations with
  | none => []
  | some l => l.map (flattenSubnetDelegationItem lower)

/-- Go `resourceAzureSubnetHash(v interface{}) int`; `hash` is `pluginsdk.HashString`
and the string handed to it is the content of the buffer. -/
def resourceAzureSubnetHash (hash : String → Int) (v : Value) : Except Panic Int :=
  match v with
  | Value.map m => do
    let name ← (mapIndex m "name").assertString
    let buf := name
    let buf ← (match m.lookup "address_prefix" with
      | some v => do
        let s ← v.assertString
        Except.ok (buf ++ s)
      | none => Except.ok buf)
    let buf ← (match m.lookup "security_group" with
      | some v => do
        let s ← v.assertString
        Except.ok (buf ++ s)
      | none => Except.ok buf)
    Except.ok (hash buf)
  | _ => Except.ok (hash "")

/-- The map `output` that `flattenVirtualNetworkSubnets` builds for one subnet
(lines 291 to 311). -/
def flattenVirtualNetworkSubnetsItem (subnet : Subnet) : Value :=
  let output : List (String × Value) := []
  let output := match subnet.ID with
    | some id => mapAssign output "id" (Value.string id)
    | none => output
  let output := match subnet.Name with
    | some name => mapAssign output "name" (Value.string name)
    | none => output
  let output := match subnet.SubnetPropertiesFormat with
    | some props =>
      let output := match props.AddressPrefix with
        | some addressPrefix => mapAssign output "address_prefix" (Value.string addressPrefix)
        | none => output
      match props.NetworkSecurityGroup with
      | some nsg =>
        match nsg.ID with
        | some nsgID => mapAssign output "security_group" (Value.string nsgID)
        | none => output
      | none => output
    | none => output
  Value.map output

/-- The loop of `flattenVirtualNetworkSubnets` over the subnets, with the set
`results` built so far as the last argument. -/
def flattenVirtualNetworkSubnetsLoop (hash : String → Int) :
    List Subnet → ValueSet → Except Panic ValueSet
  | [], results => Except.ok results
  | subnet :: rest, results => do
    let results ← results.Add (resourceAzureSubnetHash hash)
      (flattenVirtualNetworkSubnetsItem subnet)
    flattenVirtualNetworkSubnetsLoop hash rest results

/-- Go `flattenVirtualNetworkSubnets(input *[]network.Subnet) *pluginsdk.Set`; a run
that panics returns the panic. -/
def flattenVirtualNetworkSubnets (hash : String → Int) (input : Option (List Subnet)) :
    Except Panic ValueSet :=
  match input with
  | none => Except.ok { m := [] }
  | some subnets => flattenVirtualNetworkSubnetsLoop hash subnets { m := [] }

/-- The configuration value of one delegation: a map with `name` and with
`service_delegation`, a list of one map with `name` and with `actions`, a
`[]interface{}` of strings. -/
def delegationConfig (name serviceName : String) (actions : List String) : Value :=
  Value.map
    [("name", Value.string name),
     ("service_delegation", Value.list [Value.map
        [("name", Value.string serviceName),
         ("actions", Value.list (actions.map Value.string))]])]

/-- The flattened value of one delegation: as `delegationConfig`, with `actions` a
`[]string`. -/
def delegationFlattened (name serviceName : String) (actions : List String) : Value :=
  Value.map
    [("name", Value.string name),
     ("service_delegation", Value.list [Value.map
        [("name", Value.string serviceName),
         ("actions", Value.strings actions)]])]

end network

namespace provider

/-- Whether every value of a map is a boolean. -/
def isBoolMap (m : List (String × Value)) : Bool :=
  m.all fun e =>
    match e.2 with
    | Value.bool _ => true
    | _ => false

/-- Whether a sub-block of a features block is absent, or a list of length 0, or a
list of length 1 whose item is a map of booleans. -/
def isSubBlockOfBools (raw : Option Value) : Bool :=
  match raw with
  | none => true
  | some (Value.list []) => true
  | some (Value.list [Value.map m]) => isBoolMap m
  | _ => false

/-- Whether a sub-block of a features block is a list of length 1 whose item is
nil. -/
def isNilSubBlock (raw : Option Value) : Bool :=
  match raw with
  | some (Value.list [Value.nil]) => true
  | _ => false

end provider

namespace crc32

/-- Go `crc32.IEEE`, the polynomial of the IEEE checksum in reversed bit order. -/
def IEEE : Nat := 0xedb88320

/-- The entry of index `i` of the table Go `simplePopulateTable(poly, t)` builds:
eight times, the value is shifted right by one bit and combined with `poly`
when the bit shifted out was set. -/
def simplePopulateTable (poly : Nat) (i : Nat) : Nat :=
  (List.range 8).foldl
    (fun crc _ => if crc % 2 = 1 then (crc / 2) ^^^ poly else crc / 2) i

/-- Go `simpleUpdate(crc uint32, tab *Table, p []byte) uint32`, with the table given
by its polynomial; `^crc` on a `uint32` is the exclusive or with `0xffffffff`,
`byte(crc)` is `crc % 256` and `crc >> 8` is `crc / 256`. -/
def simpleUpdate (crc : Nat) (poly : Nat) (p : List Nat) : Nat :=
  let crc := crc ^^^ 0xffffffff
  let crc := p.foldl
    (fun crc v => simplePopulateTable poly ((crc % 256) ^^^ v) ^^^ (crc / 256)) crc
  crc ^^^ 0xffffffff

/-- Go `crc32.ChecksumIEEE(data []byte) uint32`: the value every implementation of
the update computes, here by `simpleUpdate`. -/
def ChecksumIEEE (data : List Nat) : Nat :=
  simpleUpdate 0 IEEE data

end crc32

namespace pluginsdk

/-- The bytes of one character of a Go string, its UTF-8 encoding. -/
def utf8Bytes (c : Char) : List Nat :=
  let n := c.toNat
  if n < 0x80 then [n]
  else if n < 0x800 then [0xc0 + n / 0x40, 0x80 + n % 0x40]
  else if n < 0x10000 then [0xe0 + n / 0x1000, 0x80 + n / 0x40 % 0x40, 0x80 + n % 0x40]
  else [0xf0 + n / 0x40000, 0x80 + n / 0x1000 % 0x40, 0x80 + n / 0x40 % 0x40,
        0x80 + n % 0x40]

/-- Go `pluginsdk.HashString`, the hash function of the sets of strings.  Its source
is not among the files: it hands its argument to `schema.HashString` of the
plugin SDK, which returns `int(crc32.ChecksumIEEE([]byte(s)))` when that is not
negative; `int` is 64 bits wide, so the checksum, a `uint32`, is never negative
as an `int`. -/
def HashString (s : String) : Int :=
  (crc32.ChecksumIEEE (s.data.flatMap utf8Bytes) : Nat)

end pluginsdk

namespace managementgroup

/-- Two children of subscription type whose subscription ids are distinct UUIDs with
the same `pluginsdk.HashString` code. -/
def collidingChildren : List ChildInfo :=
  [subscriptionChild "/subscriptions/422ee47c-447d-4787-8d4c-745296d03025"
      "422ee47c-447d-4787-8d4c-745296d03025",
   subscriptionChild "/subscriptions/41e633a7-4413-49e4-914f-996e4db08cd9"
      "41e633a7-4413-49e4-914f-996e4db08cd9"]

end managementgroup


/-! ## Splitting on a separator -/

namespace strings

theorem splitChars_ne_nil (sep : Char) (cs : List Char) : splitChars sep cs ≠ [] := by
  cases cs with
  | nil => simp [splitChars]
  | cons c cs =>
    unfold splitChars
    split <;> simp

theorem splitChars_length_pos (sep : Char) (cs : List Char) : 0 < (splitChars sep cs).length :=
  List.length_pos.mpr (splitChars_ne_nil sep cs)

theorem splitChars_length (sep : Char) (cs : List Char) :
    (splitChars sep cs).length = cs.count sep + 1 := by
  induction cs with
  | nil => simp [splitChars]
  | cons c cs ih =>
    have hpos := splitChars_length_pos sep cs
    unfold splitChars
    by_cases h : c = sep
    · subst h
      simp [ih]
    · have h2 : ¬ (c == sep) = true := by simpa using h
      rw [if_neg h, List.count_cons, if_neg h2]
      simp only [List.length_cons, List.length_tail, add_zero]
      omega

theorem splitChars_of_not_mem (sep : Char) (cs : List Char) (h : sep ∉ cs) :
    splitChars sep cs = [cs] := by
  induction cs with
  | nil => simp [splitChars]
  | cons c cs ih =>
    have hc : c ≠ sep := fun e => h (by simp [e])
    have hcs : sep ∉ cs := fun e => h (by simp [e])
    unfold splitChars
    rw [if_neg hc, ih hcs]
    simp

theorem splitChars_append_sep (sep : Char) (a b : List Char) (h : sep ∉ a) :
    splitChars sep (a ++ sep :: b) = a :: splitChars sep b := by
  induction a with
  | nil => simp [splitChars]
  | cons c cs ih =>
    have hc : c ≠ sep := fun e => h (by simp [e])
    have hcs : sep ∉ cs := fun e => h (by simp [e])
    simp [splitChars, hc, ih hcs]

theorem splitChars_singleton_inv (sep : Char) (cs a : List Char)
    (h : splitChars sep cs = [a]) : cs = a := by
  induction cs generalizing a with
  | nil => simpa [splitChars] using h
  | cons c cs ih =>
    by_cases hc : c = sep
    · have hne := splitChars_ne_nil sep cs
      simp [splitChars, hc] at h
      exact absurd h.2 hne
    · cases hs : splitChars sep cs with
      | nil => exact absurd hs (splitChars_ne_nil sep cs)
      | cons x xs =>
        simp [splitChars, hc, hs] at h
        obtain ⟨h1, h2⟩ := h
        subst h2
        rw [← h1, ih x hs]

theorem splitChars_cons_inv (sep : Char) (cs a : List Char) (r : List (List Char))
    (h : splitChars sep cs = a :: r) (hr : r ≠ []) :
    ∃ cs1, cs = a ++ sep :: cs1 ∧ splitChars sep cs1 = r := by
  induction cs generalizing a r with
  | nil =>
    simp [splitChars] at h
    exact absurd h.2 hr
  | cons c cs ih =>
    by_cases hc : c = sep
    · simp [splitChars, hc] at h
      exact ⟨cs, by simp [← h.1, hc], h.2⟩
    · cases hs : splitChars sep cs with
      | nil => exact absurd hs (splitChars_ne_nil sep cs)
      | cons x xs =>
        simp [splitChars, hc, hs] at h
        obtain ⟨h1, h2⟩ := h
        subst h2
        obtain ⟨cs1, e1, e2⟩ := ih x xs hs hr
        exact ⟨cs1, by simp [← h1, e1], e2⟩

theorem splitChars_three (sep : Char) (cs a b c : List Char)
    (h : splitChars sep cs = [a, b, c]) : cs = a ++ sep :: (b ++ sep :: c) := by
  obtain ⟨cs1, e1, h1⟩ := splitChars_cons_inv sep cs a [b, c] h (by simp)
  obtain ⟨cs2, e2, h2⟩ := splitChars_cons_inv sep cs1 b [c] h1 (by simp)
  rw [e1, e2, splitChars_singleton_inv sep cs2 c h2]

theorem Split_length (s : String) (sep : Char) :
    (Split s sep).length = s.data.count sep + 1 := by
  simp [Split, splitChars_length]

end strings

/-! ## The identifier parser -/

namespace managementgroup

theorem parse_group_child (input : String)
    (h : strings.HasPrefix input managementGroupChildPrefix = true) :
    parseManagementGroupSubscriptionID input = (none, none) := by
  simp [parseManagementGroupSubscriptionID, h]

theorem parse_of_three (input : String)
    (hp : strings.HasPrefix input managementGroupChildPrefix = false)
    (h3 : (strings.Split input '/').length = 3) :
    parseManagementGroupSubscriptionID input
      = (some { subscriptionId := (strings.Split input '/').getD 2 "" }, none) := by
  simp [parseManagementGroupSubscriptionID, hp, h3]

theorem parse_of_not_three (input : String)
    (hp : strings.HasPrefix input managementGroupChildPrefix = false)
    (h3 : (strings.Split input '/').length ≠ 3) :
    parseManagementGroupSubscriptionID input
      = (none, some (ParseError.wrongSegments (((strings.Split input '/').length : Int) - 1) input)) := by
  have hpos : (strings.Split input '/').length ≠ 0 := by
    rw [strings.Split_length]; omega
  simp [parseManagementGroupSubscriptionID, hp, h3, hpos]

/-- The parser returns a value or an error or neither, never both. -/
theorem parse_shape (input : String) :
    parseManagementGroupSubscriptionID input = (none, none)
    ∨ (∃ err, parseManagementGroupSubscriptionID input = (none, some err))
    ∨ (∃ id, parseManagementGroupSubscriptionID input = (some id, none)) := by
  cases hp : strings.HasPrefix input managementGroupChildPrefix with
  | true => exact Or.inl (parse_group_child input hp)
  | false =>
    by_cases h3 : (strings.Split input '/').length = 3
    · exact Or.inr (Or.inr ⟨_, parse_of_three input hp h3⟩)
    · exact Or.inr (Or.inl ⟨_, parse_of_not_three input hp h3⟩)

theorem hasPrefix_of_parse_none (input : String)
    (h : parseManagementGroupSubscriptionID input = (none, none)) :
    strings.HasPrefix input managementGroupChildPrefix = true := by
  cases hp : strings.HasPrefix input managementGroupChildPrefix with
  | true => rfl
  | false =>
    by_cases h3 : (strings.Split input '/').length = 3
    · rw [parse_of_three input hp h3] at h; simp at h
    · rw [parse_of_not_three input hp h3] at h; simp at h

theorem foundIn_iff (sid : String) (updated : List String) :
    foundIn sid updated = true ↔ sid ∈ updated := by
  induction updated with
  | nil => simp [foundIn]
  | cons subId rest ih =>
    by_cases h : sid = subId
    · simp [foundIn, h]
    · simp [foundIn, h, ih]

end managementgroup

/-! ## The membership differ -/

namespace managementgroup

theorem determineLoop_cons_nil (updated : List String) (v : ChildInfo) (rest : List ChildInfo)
    (acc : List String) (h : v.ID = none) :
    determineLoop updated (v :: rest) acc = determineLoop updated rest acc := by
  simp [determineLoop, h]

theorem determineLoop_cons_err (updated : List String) (v : ChildInfo) (rest : List ChildInfo)
    (acc : List String) (vID : String) (x : Option subscriptionId) (err : ParseError)
    (h : v.ID = some vID) (hp : parseManagementGroupSubscriptionID vID = (x, some err)) :
    determineLoop updated (v :: rest) acc = (none, some (DetermineError.unableToParse vID err)) := by
  simp [determineLoop, h, hp]

theorem determineLoop_cons_group (updated : List String) (v : ChildInfo) (rest : List ChildInfo)
    (acc : List String) (vID : String)
    (h : v.ID = some vID) (hp : parseManagementGroupSubscriptionID vID = (none, none)) :
    determineLoop updated (v :: rest) acc = determineLoop updated rest acc := by
  simp [determineLoop, h, hp]

theorem determineLoop_cons_sub (updated : List String) (v : ChildInfo) (rest : List ChildInfo)
    (acc : List String) (vID : String) (id : subscriptionId)
    (h : v.ID = some vID) (hp : parseManagementGroupSubscriptionID vID = (some id, none)) :
    determineLoop updated (v :: rest) acc
      = if foundIn id.subscriptionId updated then determineLoop updated rest acc
        else determineLoop updated rest (acc ++ [id.subscriptionId]) := by
  simp [determineLoop, h, hp]

theorem parsedSubscriptionIds_cons_nil (v : ChildInfo) (rest : List ChildInfo) (h : v.ID = none) :
    parsedSubscriptionIds (v :: rest) = parsedSubscriptionIds rest := by
  simp [parsedSubscriptionIds, h]

theorem parsedSubscriptionIds_cons_group (v : ChildInfo) (rest : List ChildInfo) (vID : String)
    (h : v.ID = some vID) (hp : (parseManagementGroupSubscriptionID vID).1 = none) :
    parsedSubscriptionIds (v :: rest) = parsedSubscriptionIds rest := by
  simp [parsedSubscriptionIds, h, hp]

theorem parsedSubscriptionIds_cons_sub (v : ChildInfo) (rest : List ChildInfo) (vID : String)
    (id : subscriptionId)
    (h : v.ID = some vID) (hp : (parseManagementGroupSubscriptionID vID).1 = some id) :
    parsedSubscriptionIds (v :: rest) = id.subscriptionId :: parsedSubscriptionIds rest := by
  simp [parsedSubscriptionIds, h, hp]

/-- When the parser reports no error on any child, the loop returns the
accumulator followed by the parsed ids that are not in `updated`. -/
theorem determineLoop_ok (updated : List String) (l : List ChildInfo)
    (hall : ∀ v ∈ l, ∀ vID, v.ID = some vID → (parseManagementGroupSubscriptionID vID).2 = none)
    (acc : List String) :
    determineLoop updated l acc
      = (some (acc ++ (parsedSubscriptionIds l).filter fun s => !foundIn s updated), none) := by
  induction l generalizing acc with
  | nil => simp [determineLoop, parsedSubscriptionIds]
  | cons v rest ih =>
    have hrest : ∀ w ∈ rest, ∀ wID, w.ID = some wID →
        (parseManagementGroupSubscriptionID wID).2 = none :=
      fun w hw => hall w (List.mem_cons_of_mem v hw)
    cases hid : v.ID with
    | none =>
      rw [determineLoop_cons_nil updated v rest acc hid, ih hrest,
        parsedSubscriptionIds_cons_nil v rest hid]
    | some vID =>
      have hv := hall v (List.mem_cons_self v rest) vID hid
      rcases parse_shape vID with h | ⟨err, h⟩ | ⟨id, h⟩
      · rw [determineLoop_cons_group updated v rest acc vID hid h, ih hrest,
          parsedSubscriptionIds_cons_group v rest vID hid (by rw [h])]
      · rw [h] at hv; simp at hv
      · rw [determineLoop_cons_sub updated v rest acc vID id hid h,
          parsedSubscriptionIds_cons_sub v rest vID id hid (by rw [h])]
        cases hf : foundIn id.subscriptionId updated with
        | true => simp [hf, ih hrest]
        | false => simp [hf, ih hrest]

/-- When the parser reports an error on some child, the loop returns an error and
no list. -/
theorem determineLoop_err (updated : List String) (l : List ChildInfo)
    (hex : ∃ v ∈ l, ∃ vID, v.ID = some vID ∧
      ∃ err, (parseManagementGroupSubscriptionID vID).2 = some err)
    (acc : List String) :
    ∃ e, determineLoop updated l acc = (none, some e) := by
  induction l generalizing acc with
  | nil => simp at hex
  | cons v rest ih =>
    have hrest : (∃ w ∈ rest, ∃ wID, w.ID = some wID ∧
        ∃ err, (parseManagementGroupSubscriptionID wID).2 = some err) →
        ∀ acc1, ∃ e, determineLoop updated rest acc1 = (none, some e) := fun h acc1 => ih h acc1
    cases hid : v.ID with
    | none =>
      rw [determineLoop_cons_nil updated v rest acc hid]
      obtain ⟨w, hw, wID, hwid, err, herr⟩ := hex
      rcases List.mem_cons.mp hw with e | hw1
      · subst e; rw [hid] at hwid; simp at hwid
      · exact hrest ⟨w, hw1, wID, hwid, err, herr⟩ acc
    | some vID =>
      rcases parse_shape vID with h | ⟨err, h⟩ | ⟨id, h⟩
      · rw [determineLoop_cons_group updated v rest acc vID hid h]
        obtain ⟨w, hw, wID, hwid, err, herr⟩ := hex
        rcases List.mem_cons.mp hw with e | hw1
        · subst e
          rw [hid] at hwid
          cases hwid
          rw [h] at herr; simp at herr
        · exact hrest ⟨w, hw1, wID, hwid, err, herr⟩ acc
      · exact ⟨_, determineLoop_cons_err updated v rest acc vID none err hid h⟩
      · rw [determineLoop_cons_sub updated v rest acc vID id hid h]
        have hr : ∃ w ∈ rest, ∃ wID, w.ID = some wID ∧
            ∃ err, (parseManagementGroupSubscriptionID wID).2 = some err := by
          obtain ⟨w, hw, wID, hwid, err, herr⟩ := hex
          rcases List.mem_cons.mp hw with e | hw1
          · subst e
            rw [hid] at hwid
            cases hwid
            rw [h] at herr; simp at herr
          · exact ⟨w, hw1, wID, hwid, err, herr⟩
        split
        · exact hrest hr acc
        · exact hrest hr _

/-- Whether the parser reports an error on some child of the list. -/
theorem rejected_or_not (l : List ChildInfo) :
    (∃ v ∈ l, ∃ vID, v.ID = some vID ∧
      ∃ err, (parseManagementGroupSubscriptionID vID).2 = some err)
    ∨ (∀ v ∈ l, ∀ vID, v.ID = some vID → (parseManagementGroupSubscriptionID vID).2 = none) := by
  by_cases h : ∃ v ∈ l, ∃ vID, v.ID = some vID ∧
      ∃ err, (parseManagementGroupSubscriptionID vID).2 = some err
  · exact Or.inl h
  · refine Or.inr fun v hv vID hid => ?_
    cases hp : (parseManagementGroupSubscriptionID vID).2 with
    | none => rfl
    | some err => exact absurd ⟨v, hv, vID, hid, err, hp⟩ h

/-- A successful run of the loop: no child is rejected and the result is known. -/
theorem determineLoop_success (updated : List String) (l : List ChildInfo) (acc r : List String)
    (h : determineLoop updated l acc = (some r, none)) :
    (∀ v ∈ l, ∀ vID, v.ID = some vID → (parseManagementGroupSubscriptionID vID).2 = none)
    ∧ r = acc ++ (parsedSubscriptionIds l).filter fun s => !foundIn s updated := by
  rcases rejected_or_not l with hex | hall
  · obtain ⟨e, he⟩ := determineLoop_err updated l hex acc
    rw [he] at h; simp at h
  · refine ⟨hall, ?_⟩
    rw [determineLoop_ok updated l hall acc] at h
    simpa using h.symm

end managementgroup

namespace managementgroup

theorem determineLoop_cons_congr (updated : List String) (v : ChildInfo) (r1 r2 : List ChildInfo)
    (h : ∀ acc, determineLoop updated r1 acc = determineLoop updated r2 acc) (acc : List String) :
    determineLoop updated (v :: r1) acc = determineLoop updated (v :: r2) acc := by
  cases hid : v.ID with
  | none => rw [determineLoop_cons_nil _ _ _ _ hid, determineLoop_cons_nil _ _ _ _ hid, h]
  | some vID =>
    rcases parse_shape vID with hp | ⟨err, hp⟩ | ⟨id, hp⟩
    · rw [determineLoop_cons_group _ _ _ _ _ hid hp, determineLoop_cons_group _ _ _ _ _ hid hp, h]
    · rw [determineLoop_cons_err _ _ _ _ _ _ _ hid hp, determineLoop_cons_err _ _ _ _ _ _ _ hid hp]
    · rw [determineLoop_cons_sub _ _ _ _ _ _ hid hp, determineLoop_cons_sub _ _ _ _ _ _ hid hp,
        h, h]

/-- Deleting children that the loop skips does not change what the loop returns. -/
theorem determineLoop_filter (updated : List String) (p : ChildInfo → Bool)
    (hp : ∀ v, p v = false →
      v.ID = none ∨ ∃ vID, v.ID = some vID ∧ parseManagementGroupSubscriptionID vID = (none, none))
    (l : List ChildInfo) (acc : List String) :
    determineLoop updated (l.filter p) acc = determineLoop updated l acc := by
  induction l generalizing acc with
  | nil => rfl
  | cons v rest ih =>
    cases hv : p v with
    | true =>
      rw [List.filter_cons_of_pos (by simpa using hv)]
      exact determineLoop_cons_congr updated v _ _ ih acc
    | false =>
      rw [List.filter_cons_of_neg (by simp [hv]), ih]
      rcases hp v hv with hid | ⟨vID, hid, hg⟩
      · rw [determineLoop_cons_nil _ _ _ _ hid]
      · rw [determineLoop_cons_group _ _ _ _ _ hid hg]

theorem hasPrefix_subscriptions (id : String) :
    strings.HasPrefix ("/subscriptions/" ++ id) managementGroupChildPrefix = false := by
  simp [strings.HasPrefix, managementGroupChildPrefix, String.data_append, List.isPrefixOf]

end managementgroup

/-! ## Properties of the membership differ and of the identifier parser -/

namespace managementgroup

/-- C2: `determineManagementGroupSubscriptionsIdsToRemove` returns an error exactly
when the existing list holds a child with a non-nil ID on which
`parseManagementGroupSubscriptionID` reports an error; whenever it returns an
error it returns no list; and a rejected child makes the call fail wherever it
stands in the list and whatever the other children and the desired list are. -/
theorem determine_fail_fast (existing : Option (List ChildInfo)) (updated : List String) :
    ((∃ e, (determineManagementGroupSubscriptionsIdsToRemove existing updated).2 = some e) ↔
      ∃ l, existing = some l ∧ ∃ v ∈ l, ∃ vID, v.ID = some vID ∧
        ∃ err, (parseManagementGroupSubscriptionID vID).2 = some err)
    ∧ ((∃ e, (determineManagementGroupSubscriptionsIdsToRemove existing updated).2 = some e) →
        (determineManagementGroupSubscriptionsIdsToRemove existing updated).1 = none)
    ∧ (∀ (before after : List ChildInfo) (v : ChildInfo) (vID : String) (err : ParseError)
        (desired : List String), v.ID = some vID →
        (parseManagementGroupSubscriptionID vID).2 = some err →
        ∃ e, determineManagementGroupSubscriptionsIdsToRemove (some (before ++ v :: after)) desired
          = (none, some e)) := by
  have key : ∀ (l : List ChildInfo) (u : List String),
      (∃ v ∈ l, ∃ vID, v.ID = some vID ∧
        ∃ err, (parseManagementGroupSubscriptionID vID).2 = some err) →
      ∃ e, determineManagementGroupSubscriptionsIdsToRemove (some l) u = (none, some e) :=
    fun l u hex => determineLoop_err u l hex []
  refine ⟨?_, ?_, ?_⟩
  · cases existing with
    | none => simp [determineManagementGroupSubscriptionsIdsToRemove]
    | some l =>
      constructor
      · rintro ⟨e, he⟩
        refine ⟨l, rfl, ?_⟩
        rcases rejected_or_not l with hex | hall
        · exact hex
        · have hok := determineLoop_ok updated l hall []
          simp only [determineManagementGroupSubscriptionsIdsToRemove] at he
          rw [hok] at he
          simp at he
      · rintro ⟨l1, hl, hex⟩
        rw [Option.some.inj hl]
        obtain ⟨e, he⟩ := key l1 updated hex
        exact ⟨e, by rw [he]⟩
  · rintro ⟨e, he⟩
    cases existing with
    | none => simp [determineManagementGroupSubscriptionsIdsToRemove] at he
    | some l =>
      rcases rejected_or_not l with hex | hall
      · obtain ⟨e1, he1⟩ := key l updated hex
        rw [he1]
      · have hok := determineLoop_ok updated l hall []
        simp only [determineManagementGroupSubscriptionsIdsToRemove] at he
        rw [hok] at he
        simp at he
  · intro before after v vID err desired hid hp
    exact key _ desired ⟨v, by simp, vID, hid, err, hp⟩

/-- C2 on a list whose middle child is malformed: the call returns the error for
that child and no list, although the desired list names the malformed child
and the other two children are well formed. -/
theorem determine_fail_fast_witness :
    determineManagementGroupSubscriptionsIdsToRemove
        (some [subscriptionChild "/subscriptions/a" "a", subscriptionChild "/oops" "oops",
               subscriptionChild "/subscriptions/b" "b"]) ["oops", "a", "b"]
      = (none, some (DetermineError.unableToParse "/oops" (ParseError.wrongSegments 1 "/oops")))
    ∧ ∃ e, determineManagementGroupSubscriptionsIdsToRemove
        (some ([subscriptionChild "/subscriptions/a" "a"] ++ subscriptionChild "/oops" "oops" ::
               [subscriptionChild "/subscriptions/b" "b"])) ["oops", "a", "b"] = (none, some e) :=
  ⟨by decide,
   (determine_fail_fast none []).2.2 [subscriptionChild "/subscriptions/a" "a"]
     [subscriptionChild "/subscriptions/b" "b"] (subscriptionChild "/oops" "oops") "/oops"
     (ParseError.wrongSegments 1 "/oops") ["oops", "a", "b"] (by decide) (by decide)⟩

/-- C3: an identifier that does not start with the management-group prefix and
that `strings.Split` cuts at `/` into exactly three segments `a`, `b`, `c` (so
the identifier is `a/b/c`) is accepted by `parseManagementGroupSubscriptionID`,
which returns `c` unchanged as the subscription id and no error, whatever `a`,
`b` and `c` are. -/
theorem parse_three_segments (input : String)
    (hp : strings.HasPrefix input managementGroupChildPrefix = false)
    (h3 : (strings.Split input '/').length = 3) :
    ∃ a b c : String, strings.Split input '/' = [a, b, c]
      ∧ input = a ++ "/" ++ b ++ "/" ++ c
      ∧ parseManagementGroupSubscriptionID input = (some { subscriptionId := c }, none) := by
  have hparse := parse_of_three input hp h3
  have hlen : (strings.splitChars '/' input.data).length = 3 := by
    simpa [strings.Split] using h3
  match hs : strings.splitChars '/' input.data, hlen with
  | [a, b, c], _ =>
    have hsplit : strings.Split input '/' = [String.mk a, String.mk b, String.mk c] := by
      simp [strings.Split, hs]
    refine ⟨String.mk a, String.mk b, String.mk c, hsplit, ?_, ?_⟩
    · apply String.ext
      have hd := strings.splitChars_three '/' input.data a b c hs
      simp [String.data_append, hd]
    · rw [hparse, hsplit]
      rfl

/-- C3 on `x/y/not-a-uuid`: three segments, none of them checked, the third one
returned. -/
theorem parse_three_segments_witness :
    strings.HasPrefix "x/y/not-a-uuid" managementGroupChildPrefix = false
    ∧ (strings.Split "x/y/not-a-uuid" '/').length = 3
    ∧ ∃ a b c : String, strings.Split "x/y/not-a-uuid" '/' = [a, b, c]
      ∧ "x/y/not-a-uuid" = a ++ "/" ++ b ++ "/" ++ c
      ∧ parseManagementGroupSubscriptionID "x/y/not-a-uuid" = (some { subscriptionId := c }, none) :=
  ⟨by decide, by decide, parse_three_segments "x/y/not-a-uuid" (by decide) (by decide)⟩

/-- C4: on every identifier that begins with
`/providers/Microsoft.Management/managementGroups/`, and so on the prefix followed
by any string at all, `parseManagementGroupSubscriptionID` returns neither an id
nor an error. -/
theorem parse_group_prefix (input : String)
    (h : strings.HasPrefix input managementGroupChildPrefix = true) :
    parseManagementGroupSubscriptionID input = (none, none)
    ∧ ∀ rest : String,
        parseManagementGroupSubscriptionID (managementGroupChildPrefix ++ rest) = (none, none) := by
  refine ⟨parse_group_child input h, fun rest => parse_group_child _ ?_⟩
  simp [strings.HasPrefix, String.data_append]

/-- C4 on `/providers/Microsoft.Management/managementGroups/child-mg`. -/
theorem parse_group_prefix_witness :
    strings.HasPrefix "/providers/Microsoft.Management/managementGroups/child-mg"
        managementGroupChildPrefix = true
    ∧ (parseManagementGroupSubscriptionID
          "/providers/Microsoft.Management/managementGroups/child-mg" = (none, none)
      ∧ ∀ rest : String,
          parseManagementGroupSubscriptionID (managementGroupChildPrefix ++ rest) = (none, none)) :=
  ⟨by decide,
   parse_group_prefix "/providers/Microsoft.Management/managementGroups/child-mg" (by decide)⟩

/-- C5: an identifier that does not start with the management-group prefix and
whose number of `/`-delimited segments is not 3 is rejected by
`parseManagementGroupSubscriptionID`: no id is returned, and the error carries
the number of segments minus 1, which is the number of `/` in the identifier,
together with the identifier itself. -/
theorem parse_wrong_segment_count (input : String)
    (hp : strings.HasPrefix input managementGroupChildPrefix = false)
    (h3 : (strings.Split input '/').length ≠ 3) :
    parseManagementGroupSubscriptionID input
      = (none, some (ParseError.wrongSegments (((strings.Split input '/').length : Int) - 1) input))
    ∧ ((strings.Split input '/').length : Int) - 1 = ((input.data.count '/' : Nat) : Int) := by
  refine ⟨parse_of_not_three input hp h3, ?_⟩
  rw [strings.Split_length]
  push_cast
  ring

/-- C5 on `/subscriptions/a/b`, which has four segments: the reported count is 3. -/
theorem parse_wrong_segment_count_witness :
    strings.HasPrefix "/subscriptions/a/b" managementGroupChildPrefix = false
    ∧ (strings.Split "/subscriptions/a/b" '/').length ≠ 3
    ∧ (parseManagementGroupSubscriptionID "/subscriptions/a/b"
        = (none, some (ParseError.wrongSegments
            (((strings.Split "/subscriptions/a/b" '/').length : Int) - 1) "/subscriptions/a/b"))
      ∧ ((strings.Split "/subscriptions/a/b" '/').length : Int) - 1
          = ((("/subscriptions/a/b" : String).data.count '/' : Nat) : Int)) :=
  ⟨by decide, by decide, parse_wrong_segment_count "/subscriptions/a/b" (by decide) (by decide)⟩

/-- C6, as stated, fails: `/bad/path` has three segments, the empty one, `bad` and `path`, so
the parser reports no error on it, and in particular not the error with
segment count 1. -/
theorem parse_bad_path_not_rejected :
    (parseManagementGroupSubscriptionID "/bad/path").2 = none
    ∧ parseManagementGroupSubscriptionID "/bad/path"
        ≠ (none, some (ParseError.wrongSegments 1 "/bad/path")) := by
  decide

/-- C6, amended: `parseManagementGroupSubscriptionID` accepts `/bad/path` and
returns `path` as the subscription id with no error; the error with segment
count 1 is what it returns on an identifier with one `/`, such as `/bad`. -/
theorem parse_bad_path :
    strings.Split "/bad/path" '/' = ["", "bad", "path"]
    ∧ parseManagementGroupSubscriptionID "/bad/path" = (some { subscriptionId := "path" }, none)
    ∧ parseManagementGroupSubscriptionID "/bad"
        = (none, some (ParseError.wrongSegments 1 "/bad")) := by
  decide

/-- C7: for every string `id` without a `/`, parsing `/subscriptions/` followed by
`id` succeeds and returns exactly `id`. -/
theorem parse_subscription_path_roundtrip (id : String) (h : '/' ∉ id.data) :
    parseManagementGroupSubscriptionID ("/subscriptions/" ++ id)
      = (some { subscriptionId := id }, none) := by
  have hp := hasPrefix_subscriptions id
  have hsplit : strings.Split ("/subscriptions/" ++ id) '/' = ["", "subscriptions", id] := by
    have hd : ("/subscriptions/" ++ id).data
        = [] ++ '/' :: ("subscriptions".data ++ '/' :: id.data) := by
      simp [String.data_append]
    have hs : '/' ∉ "subscriptions".data := by decide
    simp only [strings.Split, hd]
    rw [strings.splitChars_append_sep '/' [] _ (by simp),
      strings.splitChars_append_sep '/' _ _ hs, strings.splitChars_of_not_mem '/' _ h]
    rfl
  rw [parse_of_three _ hp (by rw [hsplit]; rfl), hsplit]
  rfl

/-- C7 on `/subscriptions/00000000-0000-0000-0000-000000000001`. -/
theorem parse_subscription_path_roundtrip_witness :
    '/' ∉ ("00000000-0000-0000-0000-000000000001" : String).data
    ∧ parseManagementGroupSubscriptionID
        ("/subscriptions/" ++ "00000000-0000-0000-0000-000000000001")
      = (some { subscriptionId := "00000000-0000-0000-0000-000000000001" }, none) :=
  ⟨by decide,
   parse_subscription_path_roundtrip "00000000-0000-0000-0000-000000000001" (by decide)⟩

/-- C8, as stated, fails: a child whose ID is the empty string is not skipped.  On
the one-child list holding it the call returns an error, while on the list
with that child deleted it returns the empty list. -/
theorem determine_empty_id_not_skipped :
    determineManagementGroupSubscriptionsIdsToRemove
        (some [{ Type_ := "/subscriptions", ID := some "", Name := none, DisplayName := none }]) []
      = (none, some (DetermineError.unableToParse "" (ParseError.wrongSegments 0 "")))
    ∧ determineManagementGroupSubscriptionsIdsToRemove
        (some (([{ Type_ := "/subscriptions", ID := some "", Name := none, DisplayName := none }] :
            List ChildInfo).filter fun v => !(v.ID == none || v.ID == some ""))) []
      = (some [], none) := by
  decide

/-- C8, amended: `determineManagementGroupSubscriptionsIdsToRemove` skips every
existing child whose ID is nil: the result, value and error alike, equals the
result on the list with those children deleted.  A child whose ID is the empty
string is not skipped: the parser rejects it and the call returns an error and
no list. -/
theorem determine_skips_nil_id (l : List ChildInfo) (updated : List String) :
    determineManagementGroupSubscriptionsIdsToRemove (some (l.filter fun v => v.ID.isSome)) updated
      = determineManagementGroupSubscriptionsIdsToRemove (some l) updated
    ∧ ((∃ v ∈ l, v.ID = some "") →
        ∃ e, determineManagementGroupSubscriptionsIdsToRemove (some l) updated = (none, some e)) := by
  constructor
  · show determineLoop updated (l.filter fun v => v.ID.isSome) [] = determineLoop updated l []
    refine determineLoop_filter updated (fun v => v.ID.isSome) ?_ l []
    intro v hv
    cases hid : v.ID with
    | none => exact Or.inl rfl
    | some vID => simp [hid] at hv
  · rintro ⟨v, hv, hid⟩
    exact determineLoop_err updated l
      ⟨v, hv, "", hid, ParseError.wrongSegments 0 "", by decide⟩ []

/-- C8, amended, on a list with a nil-ID child between two subscriptions: the
nil-ID child changes nothing; and on a list with an empty-ID child the call
fails. -/
theorem determine_skips_nil_id_witness :
    determineManagementGroupSubscriptionsIdsToRemove
        (some [subscriptionChild "/subscriptions/a" "a",
               { Type_ := "/subscriptions", ID := none, Name := none, DisplayName := none },
               subscriptionChild "/subscriptions/b" "b"]) ["a"]
      = (some ["b"], none)
    ∧ ∃ e, determineManagementGroupSubscriptionsIdsToRemove
        (some [subscriptionChild "/subscriptions/a" "a",
               { Type_ := "/subscriptions", ID := some "", Name := none, DisplayName := none }])
        ["a"] = (none, some e) :=
  ⟨by decide,
   (determine_skips_nil_id
      [subscriptionChild "/subscriptions/a" "a",
       { Type_ := "/subscriptions", ID := some "", Name := none, DisplayName := none }] ["a"]).2
     ⟨{ Type_ := "/subscriptions", ID := some "", Name := none, DisplayName := none },
      by simp, rfl⟩⟩

/-- C9, as stated, fails: when the same subscription path occurs in two existing
children and is not desired, the call succeeds and returns the id twice. -/
theorem determine_returns_duplicates :
    determineManagementGroupSubscriptionsIdsToRemove
        (some [subscriptionChild "/subscriptions/a" "a", subscriptionChild "/subscriptions/a" "a"])
        []
      = (some ["a", "a"], none)
    ∧ ¬ (["a", "a"] : List String).Nodup := by
  decide

/-- C9, amended: when `determineManagementGroupSubscriptionsIdsToRemove` succeeds,
every id outside the desired list occurs in the returned list as many times
as it is parsed from the existing children, and every id in the desired list
occurs zero times; so the returned list has no duplicates whenever no
subscription id is parsed from more than one existing child. -/
theorem determine_nodup_of_distinct (l : List ChildInfo) (updated r : List String)
    (h : determineManagementGroupSubscriptionsIdsToRemove (some l) updated = (some r, none)) :
    (∀ s, r.count s = if s ∈ updated then 0 else (parsedSubscriptionIds l).count s)
    ∧ ((parsedSubscriptionIds l).Nodup → r.Nodup) := by
  obtain ⟨_, hr⟩ := determineLoop_success updated l [] r h
  rw [List.nil_append] at hr
  subst hr
  constructor
  · intro s
    by_cases hs : s ∈ updated
    · have hf : foundIn s updated = true := (foundIn_iff s updated).mpr hs
      rw [if_pos hs, List.count_eq_zero]
      intro hmem
      have := (List.mem_filter.mp hmem).2
      simp [hf] at this
    · have hf : foundIn s updated = false :=
        Bool.eq_false_iff.mpr fun e => hs ((foundIn_iff s updated).mp e)
      rw [if_neg hs, List.count_filter]
      simp [hf]
  · intro hd
    exact hd.filter _

/-- C9, amended, on the scenario of the specification, whose subscription
children are distinct. -/
theorem determine_nodup_of_distinct_witness :
    determineManagementGroupSubscriptionsIdsToRemove (some scenarioChildren) []
      = (some ["00000000-0000-0000-0000-000000000001", "00000000-0000-0000-0000-000000000002"],
          none)
    ∧ (parsedSubscriptionIds scenarioChildren).Nodup
    ∧ (["00000000-0000-0000-0000-000000000001",
        "00000000-0000-0000-0000-000000000002"] : List String).Nodup :=
  ⟨by decide, by decide,
   (determine_nodup_of_distinct scenarioChildren []
      ["00000000-0000-0000-0000-000000000001", "00000000-0000-0000-0000-000000000002"]
      (by decide)).2 (by decide)⟩

end managementgroup

/-! ## Classification and determinism -/

namespace managementgroup

theorem determineLoop_updated_congr (u1 u2 : List String)
    (h : ∀ s, foundIn s u1 = foundIn s u2) (l : List ChildInfo) (acc : List String) :
    determineLoop u1 l acc = determineLoop u2 l acc := by
  induction l generalizing acc with
  | nil => rfl
  | cons v rest ih =>
    cases hid : v.ID with
    | none => rw [determineLoop_cons_nil _ _ _ _ hid, determineLoop_cons_nil _ _ _ _ hid, ih]
    | some vID =>
      rcases parse_shape vID with hp | ⟨err, hp⟩ | ⟨id, hp⟩
      · rw [determineLoop_cons_group _ _ _ _ _ hid hp, determineLoop_cons_group _ _ _ _ _ hid hp,
          ih]
      · rw [determineLoop_cons_err _ _ _ _ _ _ _ hid hp,
          determineLoop_cons_err _ _ _ _ _ _ _ hid hp]
      · rw [determineLoop_cons_sub _ _ _ _ _ _ hid hp, determineLoop_cons_sub _ _ _ _ _ _ hid hp,
          h, ih, ih]

theorem determineLoop_ids_congr (updated : List String) (l1 l2 : List ChildInfo)
    (h : l1.map (fun v => v.ID) = l2.map (fun v => v.ID)) (acc : List String) :
    determineLoop updated l1 acc = determineLoop updated l2 acc := by
  induction l1 generalizing l2 acc with
  | nil =>
    cases l2 with
    | nil => rfl
    | cons w r2 => simp at h
  | cons v r1 ih =>
    cases l2 with
    | nil => simp at h
    | cons w r2 =>
      simp only [List.map_cons, List.cons.injEq] at h
      obtain ⟨hvw, hr⟩ := h
      cases hid : v.ID with
      | none =>
        have hw : w.ID = none := by rw [← hvw, hid]
        rw [determineLoop_cons_nil _ _ _ _ hid, determineLoop_cons_nil _ _ _ _ hw, ih r2 hr]
      | some vID =>
        have hw : w.ID = some vID := by rw [← hvw, hid]
        rcases parse_shape vID with hp | ⟨err, hp⟩ | ⟨id, hp⟩
        · rw [determineLoop_cons_group _ _ _ _ _ hid hp,
            determineLoop_cons_group _ _ _ _ _ hw hp, ih r2 hr]
        · rw [determineLoop_cons_err _ _ _ _ _ _ _ hid hp,
            determineLoop_cons_err _ _ _ _ _ _ _ hw hp]
        · rw [determineLoop_cons_sub _ _ _ _ _ _ hid hp, determineLoop_cons_sub _ _ _ _ _ _ hw hp,
            ih r2 hr, ih r2 hr]

/-- C16: for every identifier, `parseManagementGroupSubscriptionID` returns exactly
one of three shapes, and the input alone decides which: neither id nor error
exactly when the identifier starts with the management-group prefix; an id and
no error exactly when it does not start with the prefix and has three
segments; an error and no id exactly when it does not start with the prefix
and its number of segments is not three.  It never returns an id together with
an error. -/
theorem parse_classification (input : String) :
    (parseManagementGroupSubscriptionID input = (none, none)
      ↔ strings.HasPrefix input managementGroupChildPrefix = true)
    ∧ ((∃ id, parseManagementGroupSubscriptionID input = (some id, none))
      ↔ strings.HasPrefix input managementGroupChildPrefix = false
        ∧ (strings.Split input '/').length = 3)
    ∧ ((∃ err, parseManagementGroupSubscriptionID input = (none, some err))
      ↔ strings.HasPrefix input managementGroupChildPrefix = false
        ∧ (strings.Split input '/').length ≠ 3)
    ∧ (∀ id err, parseManagementGroupSubscriptionID input ≠ (some id, some err)) := by
  cases hp : strings.HasPrefix input managementGroupChildPrefix with
  | true =>
    have h := parse_group_child input hp
    simp [h]
  | false =>
    by_cases h3 : (strings.Split input '/').length = 3
    · have h := parse_of_three input hp h3
      simp [h, h3]
    · have h := parse_of_not_three input hp h3
      simp [h, h3]

/-- C20: two computations of the removal set from the same existing children and
the same desired list give the same outcome, the same error and the same list
of ids.  Moreover the outcome depends on the desired list only through which
strings it holds, and on the existing children only through their IDs. -/
theorem determine_deterministic (existing : Option (List ChildInfo)) (updated : List String)
    (r1 r2 : Option (List String) × Option DetermineError)
    (h1 : determineManagementGroupSubscriptionsIdsToRemove existing updated = r1)
    (h2 : determineManagementGroupSubscriptionsIdsToRemove existing updated = r2) :
    r1 = r2
    ∧ (r1.2.isSome = r2.2.isSome ∧ r1.1 = r2.1)
    ∧ (∀ updated2 : List String, (∀ s, s ∈ updated ↔ s ∈ updated2) →
        determineManagementGroupSubscriptionsIdsToRemove existing updated2 = r1)
    ∧ (∀ l l2 : List ChildInfo, existing = some l →
        l2.map (fun v => v.ID) = l.map (fun v => v.ID) →
        determineManagementGroupSubscriptionsIdsToRemove (some l2) updated = r1) := by
  have h12 : r1 = r2 := h1.symm.trans h2
  refine ⟨h12, ⟨by rw [h12], by rw [h12]⟩, ?_, ?_⟩
  · intro updated2 hmem
    rw [← h1]
    cases existing with
    | none => rfl
    | some l =>
      refine determineLoop_updated_congr updated2 updated (fun s => ?_) l []
      cases hf : foundIn s updated with
      | true => exact (foundIn_iff s updated2).mpr ((hmem s).mp ((foundIn_iff s updated).mp hf))
      | false =>
        refine Bool.eq_false_iff.mpr fun e => ?_
        have := (foundIn_iff s updated).mpr ((hmem s).mpr ((foundIn_iff s updated2).mp e))
        rw [hf] at this
        exact Bool.noConfusion this
  · intro l l2 he hids
    rw [← h1, he]
    exact determineLoop_ids_congr updated l2 l hids []

/-- C20 on the scenario of the specification, computed twice. -/
theorem determine_deterministic_witness :
    (some ["00000000-0000-0000-0000-000000000002"], none)
      = ((some ["00000000-0000-0000-0000-000000000002"], none) :
          Option (List String) × Option DetermineError)
    ∧ determineManagementGroupSubscriptionsIdsToRemove (some scenarioChildren)
        ["00000000-0000-0000-0000-000000000001", "00000000-0000-0000-0000-000000000001", "x"]
      = (some ["00000000-0000-0000-0000-000000000002"], none) :=
  have h := determine_deterministic (some scenarioChildren)
    ["x", "00000000-0000-0000-0000-000000000001"]
    (some ["00000000-0000-0000-0000-000000000002"], none)
    (some ["00000000-0000-0000-0000-000000000002"], none) (by decide) (by decide)
  ⟨h.1, h.2.2.1 _ (by simp; tauto)⟩

end managementgroup

/-! ## Feature flags -/

namespace provider

open features

theorem bind_eq_ok {α β : Type} (x : Except Panic α) (g : α → Except Panic β) (r : β) :
    (x >>= g) = Except.ok r ↔ ∃ a, x = Except.ok a ∧ g a = Except.ok r := by
  cases x with
  | error e => simp [bind, Except.bind]
  | ok a => simp [bind, Except.bind]

theorem ok_bind {α β : Type} (a : α) (g : α → Except Panic β) :
    (Except.ok a >>= g) = g a := rfl

theorem assignBoolIfPresent_ok {α : Type} (raw : List (String × Value)) (key : String)
    (assign : α → Bool → α) (get : α → Bool) (hget : ∀ a, assign a (get a) = a)
    (current r : α) (h : assignBoolIfPresent raw key assign current = Except.ok r) :
    r = assign current (lookupBoolD raw key (get current)) := by
  unfold assignBoolIfPresent at h
  unfold lookupBoolD
  cases hl : raw.lookup key with
  | none =>
    rw [hl] at h
    simp only [Except.ok.injEq] at h
    simp [hget, h]
  | some v =>
    rw [hl] at h
    cases v with
    | bool b =>
      simp only [Value.assertBool, bind, Except.bind, Except.ok.injEq] at h
      simp [h]
    | nil => simp [Value.assertBool, bind, Except.bind] at h
    | string s => simp [Value.assertBool, bind, Except.bind] at h
    | strings ss => simp [Value.assertBool, bind, Except.bind] at h
    | list items => simp [Value.assertBool, bind, Except.bind] at h
    | map entries => simp [Value.assertBool, bind, Except.bind] at h

theorem expandFeaturesKeyVault_ok (val : List (String × Value)) (f0 f1 : UserFeatures)
    (h : expandFeaturesKeyVault val f0 = Except.ok f1) :
    f1 = { f0 with KeyVault := keyVaultFlags (val.lookup "key_vault") f0.KeyVault } := by
  unfold expandFeaturesKeyVault at h
  cases hl : val.lookup "key_vault" with
  | none =>
    rw [hl] at h
    simp only [Except.ok.injEq] at h
    simp [keyVaultFlags, h]
  | some raw =>
    rw [hl] at h
    cases raw with
    | nil => simp [Value.assertList, bind, Except.bind] at h
    | bool b => simp [Value.assertList, bind, Except.bind] at h
    | string s => simp [Value.assertList, bind, Except.bind] at h
    | strings ss => simp [Value.assertList, bind, Except.bind] at h
    | map entries => simp [Value.assertList, bind, Except.bind] at h
    | list items =>
      cases items with
      | nil =>
        simp only [Value.assertList, bind, Except.bind, Except.ok.injEq] at h
        simp [keyVaultFlags, h]
      | cons item rest =>
        cases item with
        | nil =>
          simp only [Value.assertList, bind, Except.bind, Value.isNil, if_true,
            Except.ok.injEq] at h
          simp [keyVaultFlags, h]
        | bool b => simp [Value.assertList, Value.assertMap, Value.isNil, bind, Except.bind] at h
        | string s => simp [Value.assertList, Value.assertMap, Value.isNil, bind, Except.bind] at h
        | strings ss => simp [Value.assertList, Value.assertMap, Value.isNil, bind, Except.bind] at h
        | list l => simp [Value.assertList, Value.assertMap, Value.isNil, bind, Except.bind] at h
        | map kv =>
          simp only [Value.assertList, Value.assertMap, Value.isNil, ok_bind, Bool.false_eq_true,
            if_false, bind_eq_ok] at h
          obtain ⟨g1, h1, g2, h2, g3, h3, g4, h4, g5, h5, g6, h6, g7, h7, g8, h8, h9⟩ := h
          have e1 := assignBoolIfPresent_ok kv _ _ (fun f => f.KeyVault.PurgeSoftDeleteOnDestroy)
            (fun _ => rfl) _ _ h1
          have e2 := assignBoolIfPresent_ok kv _ _
            (fun f => f.KeyVault.PurgeSoftDeletedCertsOnDestroy) (fun _ => rfl) _ _ h2
          have e3 := assignBoolIfPresent_ok kv _ _
            (fun f => f.KeyVault.PurgeSoftDeletedKeysOnDestroy) (fun _ => rfl) _ _ h3
          have e4 := assignBoolIfPresent_ok kv _ _
            (fun f => f.KeyVault.PurgeSoftDeletedSecretsOnDestroy) (fun _ => rfl) _ _ h4
          have e5 := assignBoolIfPresent_ok kv _ _
            (fun f => f.KeyVault.PurgeSoftDeletedHSMsOnDestroy) (fun _ => rfl) _ _ h5
          have e6 := assignBoolIfPresent_ok kv _ _ (fun f => f.KeyVault.RecoverSoftDeletedCerts)
            (fun _ => rfl) _ _ h6
          have e7 := assignBoolIfPresent_ok kv _ _
            (fun f => f.KeyVault.RecoverSoftDeletedKeyVaults) (fun _ => rfl) _ _ h7
          have e8 := assignBoolIfPresent_ok kv _ _ (fun f => f.KeyVault.RecoverSoftDeletedKeys)
            (fun _ => rfl) _ _ h8
          have e9 := assignBoolIfPresent_ok kv _ _ (fun f => f.KeyVault.RecoverSoftDeletedSecrets)
            (fun _ => rfl) _ _ h9
          subst e1
          subst e2
          subst e3
          subst e4
          subst e5
          subst e6
          subst e7
          subst e8
          subst e9
          rfl

theorem singleBlock_ok (val : List (String × Value)) (name key : String)
    (assign : UserFeatures → Bool → UserFeatures) (get : UserFeatures → Bool)
    (hget : ∀ a, assign a (get a) = a) (f0 f1 : UserFeatures)
    (h : (match val.lookup name with
          | none => Except.ok f0
          | some raw => do
            let items ← raw.assertList
            match items with
            | [] => Except.ok f0
            | item :: _ => do
              let m ← item.assertMap
              assignBoolIfPresent m key assign f0) = Except.ok f1) :
    f1 = assign f0 (singleFlag (val.lookup name) key (get f0)) := by
  cases hl : val.lookup name with
  | none =>
    rw [hl] at h
    simp only [Except.ok.injEq] at h
    simp [singleFlag, hget, h]
  | some raw =>
    rw [hl] at h
    cases raw with
    | nil => simp [Value.assertList, bind, Except.bind] at h
    | bool b => simp [Value.assertList, bind, Except.bind] at h
    | string s => simp [Value.assertList, bind, Except.bind] at h
    | strings ss => simp [Value.assertList, bind, Except.bind] at h
    | map entries => simp [Value.assertList, bind, Except.bind] at h
    | list items =>
      cases items with
      | nil =>
        simp only [Value.assertList, ok_bind, Except.ok.injEq] at h
        simp [singleFlag, hget, h]
      | cons item rest =>
        cases item with
        | nil => simp [Value.assertList, Value.assertMap, bind, Except.bind] at h
        | bool b => simp [Value.assertList, Value.assertMap, bind, Except.bind] at h
        | string s => simp [Value.assertList, Value.assertMap, bind, Except.bind] at h
        | strings ss => simp [Value.assertList, Value.assertMap, bind, Except.bind] at h
        | list l => simp [Value.assertList, Value.assertMap, bind, Except.bind] at h
        | map m =>
          simp only [Value.assertList, Value.assertMap, ok_bind] at h
          exact assignBoolIfPresent_ok m key assign get hget f0 f1 h

theorem expandFeaturesTemplateDeployment_ok (val : List (String × Value)) (f0 f1 : UserFeatures)
    (h : expandFeaturesTemplateDeployment val f0 = Except.ok f1) :
    f1 = { f0 with TemplateDeployment :=
            { DeleteNestedItemsDuringDeletion :=
                singleFlag (val.lookup "template_deployment") "delete_nested_items_during_deletion"
                  f0.TemplateDeployment.DeleteNestedItemsDuringDeletion } } :=
  singleBlock_ok val "template_deployment" "delete_nested_items_during_deletion" _
    (fun f => f.TemplateDeployment.DeleteNestedItemsDuringDeletion) (fun _ => rfl) f0 f1 h

theorem expandFeaturesResourceGroup_ok (val : List (String × Value)) (f0 f1 : UserFeatures)
    (h : expandFeaturesResourceGroup val f0 = Except.ok f1) :
    f1 = { f0 with ResourceGroup :=
            { PreventDeletionIfContainsResources :=
                singleFlag (val.lookup "resource_group") "prevent_deletion_if_contains_resources"
                  f0.ResourceGroup.PreventDeletionIfContainsResources } } :=
  singleBlock_ok val "resource_group" "prevent_deletion_if_contains_resources" _
    (fun f => f.ResourceGroup.PreventDeletionIfContainsResources) (fun _ => rfl) f0 f1 h

/-- The result of a run of `expandFeatures` on a block that does not panic. -/
theorem expandFeatures_ok (val : List (String × Value)) (rest : List Value) (f : UserFeatures)
    (h : expandFeatures (Value.map val :: rest) = Except.ok f) :
    f = { KeyVault := keyVaultFlags (val.lookup "key_vault") Default.KeyVault
          ResourceGroup :=
            { PreventDeletionIfContainsResources :=
                singleFlag (val.lookup "resource_group") "prevent_deletion_if_contains_resources"
                  false }
          TemplateDeployment :=
            { DeleteNestedItemsDuringDeletion :=
                singleFlag (val.lookup "template_deployment") "delete_nested_items_during_deletion"
                  false } } := by
  simp only [expandFeatures, Value.isNil, Value.assertMap, ok_bind, Bool.false_eq_true, if_false,
    bind_eq_ok] at h
  obtain ⟨g1, h1, g2, h2, h3⟩ := h
  have e1 := expandFeaturesKeyVault_ok val _ _ h1
  have e2 := expandFeaturesTemplateDeployment_ok val _ _ h2
  have e3 := expandFeaturesResourceGroup_ok val _ _ h3
  subst e1
  subst e2
  subst e3
  rfl

end provider

namespace provider

open features

/-- C17: on a features block that supplies all eleven keys, each with a boolean,
`expandFeatures` returns without panic a `UserFeatures` in which every field
holds the boolean supplied under the key of that field. -/
theorem expandFeatures_complete (val kv rg td : List (String × Value))
    (rest kvRest rgRest tdRest : List Value)
    (vault certs keys secrets hsms rCerts rVaults rKeys rSecrets prevent delete : Bool)
    (hkv : val.lookup "key_vault" = some (Value.list (Value.map kv :: kvRest)))
    (htd : val.lookup "template_deployment" = some (Value.list (Value.map td :: tdRest)))
    (hrg : val.lookup "resource_group" = some (Value.list (Value.map rg :: rgRest)))
    (h1 : kv.lookup "purge_soft_delete_on_destroy" = some (Value.bool vault))
    (h2 : kv.lookup "purge_soft_deleted_certificates_on_destroy" = some (Value.bool certs))
    (h3 : kv.lookup "purge_soft_deleted_keys_on_destroy" = some (Value.bool keys))
    (h4 : kv.lookup "purge_soft_deleted_secrets_on_destroy" = some (Value.bool secrets))
    (h5 : kv.lookup "purge_soft_deleted_hardware_security_modules_on_destroy"
      = some (Value.bool hsms))
    (h6 : kv.lookup "recover_soft_deleted_certificates" = some (Value.bool rCerts))
    (h7 : kv.lookup "recover_soft_deleted_key_vaults" = some (Value.bool rVaults))
    (h8 : kv.lookup "recover_soft_deleted_keys" = some (Value.bool rKeys))
    (h9 : kv.lookup "recover_soft_deleted_secrets" = some (Value.bool rSecrets))
    (h10 : rg.lookup "prevent_deletion_if_contains_resources" = some (Value.bool prevent))
    (h11 : td.lookup "delete_nested_items_during_deletion" = some (Value.bool delete)) :
    expandFeatures (Value.map val :: rest)
      = Except.ok
          { KeyVault :=
              { PurgeSoftDeleteOnDestroy := vault
                PurgeSoftDeletedKeysOnDestroy := keys
                PurgeSoftDeletedCertsOnDestroy := certs
                PurgeSoftDeletedSecretsOnDestroy := secrets
                PurgeSoftDeletedHSMsOnDestroy := hsms
                RecoverSoftDeletedKeyVaults := rVaults
                RecoverSoftDeletedKeys := rKeys
                RecoverSoftDeletedCerts := rCerts
                RecoverSoftDeletedSecrets := rSecrets }
            ResourceGroup := { PreventDeletionIfContainsResources := prevent }
            TemplateDeployment := { DeleteNestedItemsDuringDeletion := delete } } := by
  simp only [expandFeatures, expandFeaturesKeyVault, expandFeaturesTemplateDeployment,
    expandFeaturesResourceGroup, assignBoolIfPresent, Value.isNil, Value.assertMap,
    Value.assertList, Value.assertBool, hkv, htd, hrg, h1, h2, h3, h4, h5, h6, h7, h8, h9, h10,
    h11, ok_bind, Bool.false_eq_true, if_false]

/-- C17 on the test cases `Complete Enabled` and `Complete Disabled`. -/
theorem expandFeatures_complete_witness :
    expandFeatures (completeBlock true true true true true true true true true true true)
      = Except.ok
          { KeyVault :=
              { PurgeSoftDeleteOnDestroy := true
                PurgeSoftDeletedKeysOnDestroy := true
                PurgeSoftDeletedCertsOnDestroy := true
                PurgeSoftDeletedSecretsOnDestroy := true
                PurgeSoftDeletedHSMsOnDestroy := true
                RecoverSoftDeletedKeyVaults := true
                RecoverSoftDeletedKeys := true
                RecoverSoftDeletedCerts := true
                RecoverSoftDeletedSecrets := true }
            ResourceGroup := { PreventDeletionIfContainsResources := true }
            TemplateDeployment := { DeleteNestedItemsDuringDeletion := true } }
    ∧ expandFeatures
        (completeBlock false false false false false false false false false false false)
      = Except.ok
          { KeyVault :=
              { PurgeSoftDeleteOnDestroy := false
                PurgeSoftDeletedKeysOnDestroy := false
                PurgeSoftDeletedCertsOnDestroy := false
                PurgeSoftDeletedSecretsOnDestroy := false
                PurgeSoftDeletedHSMsOnDestroy := false
                RecoverSoftDeletedKeyVaults := false
                RecoverSoftDeletedKeys := false
                RecoverSoftDeletedCerts := false
                RecoverSoftDeletedSecrets := false }
            ResourceGroup := { PreventDeletionIfContainsResources := false }
            TemplateDeployment := { DeleteNestedItemsDuringDeletion := false } } :=
  ⟨expandFeatures_complete _ _ _ _ [] [] [] [] true true true true true true true true true true
      true rfl rfl rfl rfl rfl rfl rfl rfl rfl rfl rfl rfl rfl rfl,
   expandFeatures_complete _ _ _ _ [] [] [] [] false false false false false false false false
      false false false rfl rfl rfl rfl rfl rfl rfl rfl rfl rfl rfl rfl rfl rfl⟩

/-- C18: on the empty input list, and on every list whose first element is nil,
`expandFeatures` returns `features.Default()`, in which the nine key-vault flags
are true and the resource-group and template-deployment flags are false. -/
theorem expandFeatures_empty :
    expandFeatures [] = Except.ok features.Default
    ∧ (∀ rest : List Value, expandFeatures (Value.nil :: rest) = Except.ok features.Default)
    ∧ features.Default
      = { KeyVault :=
            { PurgeSoftDeleteOnDestroy := true
              PurgeSoftDeletedKeysOnDestroy := true
              PurgeSoftDeletedCertsOnDestroy := true
              PurgeSoftDeletedSecretsOnDestroy := true
              PurgeSoftDeletedHSMsOnDestroy := true
              RecoverSoftDeletedKeyVaults := true
              RecoverSoftDeletedKeys := true
              RecoverSoftDeletedCerts := true
              RecoverSoftDeletedSecrets := true }
          ResourceGroup := { PreventDeletionIfContainsResources := false }
          TemplateDeployment := { DeleteNestedItemsDuringDeletion := false } } :=
  ⟨rfl, fun _ => rfl, rfl⟩

/-- C19: in the result of `expandFeatures` on a features block, a sub-block that is
absent or given as an empty list leaves the flags of that sub-block at their
defaults; a key omitted inside a present `key_vault` block leaves its flag at
the default `true`; and the flags of a sub-block are the same for any two
features blocks that hold the same value under that sub-block's name, whatever
the other sub-blocks hold. -/
theorem expandFeatures_frame (val : List (String × Value)) (rest : List Value) (f : UserFeatures)
    (h : expandFeatures (Value.map val :: rest) = Except.ok f) :
    ((val.lookup "key_vault" = none ∨ val.lookup "key_vault" = some (Value.list [])) →
        f.KeyVault = features.Default.KeyVault)
    ∧ ((val.lookup "resource_group" = none ∨ val.lookup "resource_group" = some (Value.list [])) →
        f.ResourceGroup = features.Default.ResourceGroup)
    ∧ ((val.lookup "template_deployment" = none
          ∨ val.lookup "template_deployment" = some (Value.list [])) →
        f.TemplateDeployment = features.Default.TemplateDeployment)
    ∧ (∀ (kv : List (String × Value)) (kvRest : List Value),
        val.lookup "key_vault" = some (Value.list (Value.map kv :: kvRest)) →
        (kv.lookup "purge_soft_delete_on_destroy" = none →
          f.KeyVault.PurgeSoftDeleteOnDestroy = true)
        ∧ (kv.lookup "purge_soft_deleted_certificates_on_destroy" = none →
          f.KeyVault.PurgeSoftDeletedCertsOnDestroy = true)
        ∧ (kv.lookup "purge_soft_deleted_keys_on_destroy" = none →
          f.KeyVault.PurgeSoftDeletedKeysOnDestroy = true)
        ∧ (kv.lookup "purge_soft_deleted_secrets_on_destroy" = none →
          f.KeyVault.PurgeSoftDeletedSecretsOnDestroy = true)
        ∧ (kv.lookup "purge_soft_deleted_hardware_security_modules_on_destroy" = none →
          f.KeyVault.PurgeSoftDeletedHSMsOnDestroy = true)
        ∧ (kv.lookup "recover_soft_deleted_certificates" = none →
          f.KeyVault.RecoverSoftDeletedCerts = true)
        ∧ (kv.lookup "recover_soft_deleted_key_vaults" = none →
          f.KeyVault.RecoverSoftDeletedKeyVaults = true)
        ∧ (kv.lookup "recover_soft_deleted_keys" = none →
          f.KeyVault.RecoverSoftDeletedKeys = true)
        ∧ (kv.lookup "recover_soft_deleted_secrets" = none →
          f.KeyVault.RecoverSoftDeletedSecrets = true))
    ∧ (∀ (val2 : List (String × Value)) (rest2 : List Value) (f2 : UserFeatures),
        expandFeatures (Value.map val2 :: rest2) = Except.ok f2 →
        (val2.lookup "key_vault" = val.lookup "key_vault" → f2.KeyVault = f.KeyVault)
        ∧ (val2.lookup "resource_group" = val.lookup "resource_group" →
          f2.ResourceGroup = f.ResourceGroup)
        ∧ (val2.lookup "template_deployment" = val.lookup "template_deployment" →
          f2.TemplateDeployment = f.TemplateDeployment)) := by
  have hf := expandFeatures_ok val rest f h
  subst hf
  refine ⟨?_, ?_, ?_, ?_, ?_⟩
  · rintro (hl | hl) <;> simp [hl, keyVaultFlags]
  · rintro (hl | hl) <;> simp [hl, singleFlag, Default]
  · rintro (hl | hl) <;> simp [hl, singleFlag, Default]
  · intro kv kvRest hl
    simp only [hl, keyVaultFlags, lookupBoolD]
    refine ⟨?_, ?_, ?_, ?_, ?_, ?_, ?_, ?_, ?_⟩ <;> intro hk <;> rw [hk] <;> rfl
  · intro val2 rest2 f2 h2
    have hf2 := expandFeatures_ok val2 rest2 f2 h2
    subst hf2
    refine ⟨?_, ?_, ?_⟩ <;> intro hl <;> simp only [hl]

/-- C19 on the test cases `Empty Block`: with `key_vault = []` all key-vault flags
are true, and with `resource_group = []` the resource-group flag is false. -/
theorem expandFeatures_frame_witness :
    expandFeatures [Value.map [("key_vault", Value.list [])]] = Except.ok features.Default
    ∧ features.Default.KeyVault = features.Default.KeyVault
    ∧ expandFeatures [Value.map [("resource_group", Value.list [])]] = Except.ok features.Default
    ∧ features.Default.ResourceGroup = { PreventDeletionIfContainsResources := false } :=
  ⟨rfl,
   (expandFeatures_frame [("key_vault", Value.list [])] [] features.Default rfl).1 (Or.inr rfl),
   rfl,
   (expandFeatures_frame [("resource_group", Value.list [])] [] features.Default rfl).2.1
     (Or.inr rfl)⟩

end provider

/-! ## Pollers and read operations -/

namespace managementgroup

open pluginsdk

theorem subscriptionAssociationRefreshLoop_iff (subscriptionId : String) (l : List ChildInfo) :
    subscriptionAssociationRefreshLoop subscriptionId l = true
      ↔ ∃ v ∈ l, v.Type_ = Type1Subscriptions ∧ v.Name = some subscriptionId := by
  induction l with
  | nil => simp [subscriptionAssociationRefreshLoop]
  | cons v rest ih =>
    unfold subscriptionAssociationRefreshLoop
    by_cases ht : v.Type_ = Type1Subscriptions
    · cases hn : v.Name with
      | none => simp [ht, hn, ih]
      | some name =>
        by_cases he : name = subscriptionId
        · simp [ht, hn, he]
        · simp [ht, hn, he, ih]
    · simp [ht, ih]

theorem subscriptionAssociationReadLoop_eq (subscriptionId : String) (l : List ChildInfo)
    (found : Bool) :
    subscriptionAssociationReadLoop subscriptionId l found
      = (found || subscriptionAssociationRefreshLoop subscriptionId l) := by
  induction l generalizing found with
  | nil => simp [subscriptionAssociationReadLoop, subscriptionAssociationRefreshLoop]
  | cons v rest ih =>
    unfold subscriptionAssociationReadLoop subscriptionAssociationRefreshLoop
    by_cases ht : v.Type_ = Type1Subscriptions
    · cases hn : v.Name with
      | none => simp [ht, ih]
      | some name =>
        by_cases he : name = subscriptionId
        · simp [ht, he, ih]
        · simp [ht, he, ih]
    · simp [ht, ih]

theorem subscriptionAssociationReadLoop_iff (subscriptionId : String) (l : List ChildInfo) :
    subscriptionAssociationReadLoop subscriptionId l false = true
      ↔ ∃ v ∈ l, v.Type_ = Type1Subscriptions ∧ v.Name = some subscriptionId := by
  rw [subscriptionAssociationReadLoop_eq, Bool.false_or, subscriptionAssociationRefreshLoop_iff]

/-- C11: one probe of the group-creation poller, for the outcome `(resp, err)` of
its fetch: an error with a Forbidden response gives the state `pending` and no
error; an error with any other response gives the state `failed` and that
error; no error gives the state `succeeded` and no error.  One of the three
cases always applies, and the fetched value is returned in each. -/
theorem createPoller_classification (client : GroupsClient) (groupName : String)
    (resp : ManagementGroup) (err : Option GoError)
    (h : client (managementgroupCreateStateRefreshFunc_request groupName) = (resp, err)) :
    (∀ e, err = some e → utils.ResponseWasForbidden resp.Response = true →
      managementgroupCreateStateRefreshFunc client groupName
        = (RefreshResult.managementGroup resp, "pending", none))
    ∧ (∀ e, err = some e → utils.ResponseWasForbidden resp.Response = false →
      managementgroupCreateStateRefreshFunc client groupName
        = (RefreshResult.managementGroup resp, "failed", some e))
    ∧ (err = none →
      managementgroupCreateStateRefreshFunc client groupName
        = (RefreshResult.managementGroup resp, "succeeded", none))
    ∧ ((∃ e, err = some e ∧ utils.ResponseWasForbidden resp.Response = true)
      ∨ (∃ e, err = some e ∧ utils.ResponseWasForbidden resp.Response = false)
      ∨ err = none) := by
  refine ⟨?_, ?_, ?_, ?_⟩
  · intro e he hf
    subst he
    simp [managementgroupCreateStateRefreshFunc, h, hf]
  · intro e he hf
    subst he
    simp [managementgroupCreateStateRefreshFunc, h, hf]
  · intro he
    subst he
    simp [managementgroupCreateStateRefreshFunc, h]
  · cases err with
    | none => exact Or.inr (Or.inr rfl)
    | some e =>
      cases hf : utils.ResponseWasForbidden resp.Response with
      | true => exact Or.inl ⟨e, rfl, rfl⟩
      | false => exact Or.inr (Or.inl ⟨e, rfl, rfl⟩)

/-- C11 on a fetch that fails with status 403 and on one that fails with status
500. -/
theorem createPoller_classification_witness :
    managementgroupCreateStateRefreshFunc
        (fun _ => ({ Response := some { StatusCode := 403 }, Properties := none },
                   some { msg := "denied" })) "group-a"
      = (RefreshResult.managementGroup
          { Response := some { StatusCode := 403 }, Properties := none }, "pending", none)
    ∧ managementgroupCreateStateRefreshFunc
        (fun _ => ({ Response := some { StatusCode := 500 }, Properties := none },
                   some { msg := "boom" })) "group-a"
      = (RefreshResult.managementGroup
          { Response := some { StatusCode := 500 }, Properties := none }, "failed",
          some { msg := "boom" }) :=
  ⟨(createPoller_classification
      (fun _ => ({ Response := some { StatusCode := 403 }, Properties := none },
                 some { msg := "denied" })) "group-a" _ _ rfl).1 { msg := "denied" } rfl
      (by decide),
   (createPoller_classification
      (fun _ => ({ Response := some { StatusCode := 500 }, Properties := none },
                 some { msg := "boom" })) "group-a" _ _ rfl).2.1 { msg := "boom" } rfl
      (by decide)⟩

/-- C12: one probe of the subscription-association poller, for the outcome
`(resp, err)` of its fetch: an error of any kind gives an error, no state and
no value; without error the state is `Exists` exactly when the properties and
the children list are present and some child has the subscription type tag
and a name that is present and equal to the target subscription id, and the
state is `NotFound` otherwise; without fetch error no error is returned. -/
theorem associationPoller_classification (client : GroupsClient)
    (id : ManagementGroupSubscriptionAssociationId)
    (resp : ManagementGroup) (err : Option GoError)
    (h : client (subscriptionAssociationRefreshFunc_request id) = (resp, err)) :
    (∀ e, err = some e →
      subscriptionAssociationRefreshFunc client id
        = (RefreshResult.nil, "",
            some (ReadError.readingForSubscriptionAssociations id.ManagementGroup e)))
    ∧ (err = none →
      ((∃ props children, resp.Properties = some props ∧ props.Children = some children
          ∧ ∃ v ∈ children, v.Type_ = Type1Subscriptions ∧ v.Name = some id.SubscriptionId) →
        subscriptionAssociationRefreshFunc client id
          = (RefreshResult.managementGroup resp, "Exists", none))
      ∧ ((¬ ∃ props children, resp.Properties = some props ∧ props.Children = some children
          ∧ ∃ v ∈ children, v.Type_ = Type1Subscriptions ∧ v.Name = some id.SubscriptionId) →
        subscriptionAssociationRefreshFunc client id
          = (RefreshResult.string "NotFound", "NotFound", none))
      ∧ ((subscriptionAssociationRefreshFunc client id).2.1 = "Exists"
          ↔ ∃ props children, resp.Properties = some props ∧ props.Children = some children
            ∧ ∃ v ∈ children, v.Type_ = Type1Subscriptions ∧ v.Name = some id.SubscriptionId)) := by
  constructor
  · intro e he
    subst he
    simp [subscriptionAssociationRefreshFunc, h]
  · intro he
    subst he
    have key : (∃ props children, resp.Properties = some props ∧ props.Children = some children
          ∧ ∃ v ∈ children, v.Type_ = Type1Subscriptions ∧ v.Name = some id.SubscriptionId)
        ∨ subscriptionAssociationRefreshFunc client id
          = (RefreshResult.string "NotFound", "NotFound", none) := by
      cases hp : resp.Properties with
      | none => right; simp [subscriptionAssociationRefreshFunc, h, hp]
      | some props =>
        cases hc : props.Children with
        | none => right; simp [subscriptionAssociationRefreshFunc, h, hp, hc]
        | some children =>
          cases hl : subscriptionAssociationRefreshLoop id.SubscriptionId children with
          | true =>
            left
            exact ⟨props, children, rfl, hc,
              (subscriptionAssociationRefreshLoop_iff id.SubscriptionId children).mp hl⟩
          | false => right; simp [subscriptionAssociationRefreshFunc, h, hp, hc, hl]
    have pos : (∃ props children, resp.Properties = some props ∧ props.Children = some children
          ∧ ∃ v ∈ children, v.Type_ = Type1Subscriptions ∧ v.Name = some id.SubscriptionId) →
        subscriptionAssociationRefreshFunc client id
          = (RefreshResult.managementGroup resp, "Exists", none) := by
      rintro ⟨props, children, hp, hc, hv⟩
      have hl := (subscriptionAssociationRefreshLoop_iff id.SubscriptionId children).mpr hv
      simp [subscriptionAssociationRefreshFunc, h, hp, hc, hl]
    refine ⟨pos, ?_, ?_⟩
    · intro hn
      rcases key with hk | hk
      · exact absurd hk hn
      · exact hk
    · constructor
      · intro hs
        rcases key with hk | hk
        · exact hk
        · rw [hk] at hs
          exact absurd hs (by decide)
      · intro hk
        rw [pos hk]

/-- C12 on a fetched group whose only child has the target name but the
management-group type tag: the state is `NotFound`. -/
theorem associationPoller_classification_witness :
    subscriptionAssociationRefreshFunc
        (fun _ => (groupWithChildren [groupChild
            "/providers/Microsoft.Management/managementGroups/sub-1" "sub-1"], none))
        { ManagementGroup := "group-a", SubscriptionId := "sub-1" }
      = (RefreshResult.string "NotFound", "NotFound", none) :=
  (associationPoller_classification
      (fun _ => (groupWithChildren [groupChild
          "/providers/Microsoft.Management/managementGroups/sub-1" "sub-1"], none))
      { ManagementGroup := "group-a", SubscriptionId := "sub-1" } _ _ rfl).2 rfl |>.2.1
    (by
      rintro ⟨props, children, hp, hc, v, hv, ht, _⟩
      simp only [groupWithChildren, Option.some.injEq] at hp
      subst hp
      simp only [Option.some.injEq] at hc
      subst hc
      simp only [List.mem_singleton] at hv
      subst hv
      exact absurd ht (by decide))

end managementgroup

namespace managementgroup

open pluginsdk

/-- C13, as stated, fails for the management-group read: on a fetch that fails
with a Forbidden response (status 403) `resourceManagementGroupRead` clears the
resource ID and returns no error. -/
theorem managementGroupRead_forbidden_clears_id :
    utils.ResponseWasForbidden (some { StatusCode := 403 }) = true
    ∧ resourceManagementGroupRead (fun s => Except.ok { Name := s }) (fun _ => 0)
        (fun _ => ({ Response := some { StatusCode := 403 }, Properties := none },
                   some { msg := "denied" }))
        { id := "group-a", attrs := [] }
      = ({ id := "", attrs := [] }, none) := by
  decide

/-- C13, amended: for every fetch that fails with a Forbidden response, the
subscription-association read returns an error and leaves the resource data
as it was, and the subscription-association poller returns an error and no
state; the management-group read clears the resource ID and returns no
error. -/
theorem forbidden_on_read_paths (resp : ManagementGroup) (err : GoError)
    (hf : utils.ResponseWasForbidden resp.Response = true) :
    (∀ (parseID : String → Except GoError ManagementGroupSubscriptionAssociationId)
        (groupIDString subscriptionIDString : String → String) (client : GroupsClient)
        (d : ResourceData) (id : ManagementGroupSubscriptionAssociationId),
        parseID d.Id = Except.ok id →
        client (resourceManagementGroupSubscriptionAssociationRead_request id) = (resp, some err) →
        resourceManagementGroupSubscriptionAssociationRead parseID groupIDString
            subscriptionIDString client d
          = (d, some (ReadError.readingForSubscriptionAssociations id.ManagementGroup err)))
    ∧ (∀ (client : GroupsClient) (id : ManagementGroupSubscriptionAssociationId),
        client (subscriptionAssociationRefreshFunc_request id) = (resp, some err) →
        subscriptionAssociationRefreshFunc client id
          = (RefreshResult.nil, "",
              some (ReadError.readingForSubscriptionAssociations id.ManagementGroup err)))
    ∧ (∀ (parseID : String → Except GoError ManagementGroupId) (hash : String → Int)
        (client : GroupsClient) (d : ResourceData) (id : ManagementGroupId),
        parseID d.Id = Except.ok id →
        client (resourceManagementGroupRead_request id) = (resp, some err) →
        resourceManagementGroupRead parseID hash client d = (d.SetId "", none)) := by
  refine ⟨?_, ?_, ?_⟩
  · intro parseID g s client d id hid hc
    simp [resourceManagementGroupSubscriptionAssociationRead, hid, hc]
  · intro client id hc
    simp [subscriptionAssociationRefreshFunc, hc]
  · intro parseID hash client d id hid hc
    simp [resourceManagementGroupRead, hid, hc, hf]

/-- C13, amended, on a fetch that fails with status 403: the association read
keeps the ID and returns an error. -/
theorem forbidden_on_read_paths_witness :
    utils.ResponseWasForbidden
        ({ Response := some { StatusCode := 403 }, Properties := none } : ManagementGroup).Response
      = true
    ∧ resourceManagementGroupSubscriptionAssociationRead
        (fun _ => Except.ok { ManagementGroup := "group-a", SubscriptionId := "sub-1" })
        (fun s => s) (fun s => s)
        (fun _ => ({ Response := some { StatusCode := 403 }, Properties := none },
                   some { msg := "denied" }))
        { id := "assoc-1", attrs := [] }
      = ({ id := "assoc-1", attrs := [] },
          some (ReadError.readingForSubscriptionAssociations "group-a" { msg := "denied" })) :=
  ⟨by decide,
   (forbidden_on_read_paths { Response := some { StatusCode := 403 }, Properties := none }
      { msg := "denied" } (by decide)).1
      (fun _ => Except.ok { ManagementGroup := "group-a", SubscriptionId := "sub-1" })
      (fun s => s) (fun s => s)
      (fun _ => ({ Response := some { StatusCode := 403 }, Properties := none },
                 some { msg := "denied" }))
      { id := "assoc-1", attrs := [] }
      { ManagementGroup := "group-a", SubscriptionId := "sub-1" } rfl rfl⟩

/-- C14, as stated, fails for the subscription-association read: on a fetch that
fails with a NotFound response (status 404) it returns an error and leaves the
resource ID as it was. -/
theorem associationRead_notFound_is_error :
    utils.ResponseWasNotFound (some { StatusCode := 404 }) = true
    ∧ resourceManagementGroupSubscriptionAssociationRead
        (fun _ => Except.ok { ManagementGroup := "group-a", SubscriptionId := "sub-1" })
        (fun s => s) (fun s => s)
        (fun _ => ({ Response := some { StatusCode := 404 }, Properties := none },
                   some { msg := "missing" }))
        { id := "assoc-1", attrs := [] }
      = ({ id := "assoc-1", attrs := [] },
          some (ReadError.readingForSubscriptionAssociations "group-a" { msg := "missing" })) := by
  decide

/-- C14, amended: on a fetch that fails with a NotFound response, the
management-group read, the subnet read and the virtual-network read clear the
resource ID, change nothing else and return no error; the
subscription-association read returns an error on every failed fetch, a
NotFound one included, and leaves the resource data as it was.  The
subscription-association read clears the resource ID, changing nothing else and
returning no error, when the fetch succeeds with properties and a children list
in which no child of the subscription type is named by the subscription; it
leaves a non-empty resource ID non-empty in every other case, and when such a
child is present it keeps the ID, stores the two attributes and returns no
error. -/
theorem notFound_on_read_paths (err : GoError) :
    (∀ (parseID : String → Except GoError ManagementGroupId) (hash : String → Int)
        (client : GroupsClient) (d : ResourceData) (id : ManagementGroupId)
        (resp : ManagementGroup),
        parseID d.Id = Except.ok id →
        client (resourceManagementGroupRead_request id) = (resp, some err) →
        utils.ResponseWasNotFound resp.Response = true →
        resourceManagementGroupRead parseID hash client d = (d.SetId "", none))
    ∧ (∀ (parseID : String → Except GoError network.SubnetId)
        (client : network.SubnetGetRequest → network.Subnet × Option GoError)
        (copyToState : network.SubnetId → network.Subnet → ResourceData →
          ResourceData × Option network.ReadError)
        (d : ResourceData) (id : network.SubnetId) (resp : network.Subnet),
        parseID d.Id = Except.ok id →
        client { resourceGroupName := id.ResourceGroup,
                 virtualNetworkName := id.VirtualNetworkName,
                 subnetName := id.Name, expand := "" } = (resp, some err) →
        utils.ResponseWasNotFound resp.Response = true →
        network.resourceSubnetRead parseID client copyToState d = (d.SetId "", none))
    ∧ (∀ (parseID : String → Except GoError network.VirtualNetworkId)
        (client : network.VirtualNetworkGetRequest → network.VirtualNetwork × Option GoError)
        (copyToState : network.VirtualNetworkId → network.VirtualNetwork → ResourceData →
          ResourceData × Option network.ReadError)
        (d : ResourceData) (id : network.VirtualNetworkId) (resp : network.VirtualNetwork),
        parseID d.Id = Except.ok id →
        client { resourceGroupName := id.ResourceGroup, virtualNetworkName := id.Name,
                 expand := "" } = (resp, some err) →
        utils.ResponseWasNotFound resp.Response = true →
        network.resourceVirtualNetworkRead parseID client copyToState d = (d.SetId "", none))
    ∧ (∀ (parseID : String → Except GoError ManagementGroupSubscriptionAssociationId)
        (groupIDString subscriptionIDString : String → String) (client : GroupsClient)
        (d : ResourceData) (id : ManagementGroupSubscriptionAssociationId)
        (resp : ManagementGroup),
        parseID d.Id = Except.ok id →
        client (resourceManagementGroupSubscriptionAssociationRead_request id) = (resp, some err) →
        resourceManagementGroupSubscriptionAssociationRead parseID groupIDString
            subscriptionIDString client d
          = (d, some (ReadError.readingForSubscriptionAssociations id.ManagementGroup err)))
    ∧ (∀ (d : ResourceData), (d.SetId "").Id = "" ∧ (d.SetId "").attrs = d.attrs)
    ∧ (∀ (parseID : String → Except GoError ManagementGroupSubscriptionAssociationId)
        (groupIDString subscriptionIDString : String → String) (client : GroupsClient)
        (d : ResourceData) (id : ManagementGroupSubscriptionAssociationId)
        (resp : ManagementGroup) (fetchErr : Option GoError),
        parseID d.Id = Except.ok id →
        client (resourceManagementGroupSubscriptionAssociationRead_request id)
          = (resp, fetchErr) →
        ((fetchErr = none
            ∧ ∃ props children, resp.Properties = some props ∧ props.Children = some children
                ∧ ¬ ∃ v ∈ children, v.Type_ = Type1Subscriptions
                      ∧ v.Name = some id.SubscriptionId) →
          resourceManagementGroupSubscriptionAssociationRead parseID groupIDString
              subscriptionIDString client d
            = (d.SetId "", none))
        ∧ (d.Id ≠ "" →
          (resourceManagementGroupSubscriptionAssociationRead parseID groupIDString
              subscriptionIDString client d).1.Id = "" →
          fetchErr = none
            ∧ ∃ props children, resp.Properties = some props ∧ props.Children = some children
                ∧ ¬ ∃ v ∈ children, v.Type_ = Type1Subscriptions
                      ∧ v.Name = some id.SubscriptionId)
        ∧ (∀ props children, fetchErr = none → resp.Properties = some props →
          props.Children = some children →
          (∃ v ∈ children, v.Type_ = Type1Subscriptions ∧ v.Name = some id.SubscriptionId) →
          resourceManagementGroupSubscriptionAssociationRead parseID groupIDString
              subscriptionIDString client d
            = ((d.Set "management_group_id"
                    (AttrValue.string (groupIDString id.ManagementGroup))).Set
                  "subscription_id" (AttrValue.string (subscriptionIDString id.SubscriptionId)),
                none)
            ∧ (resourceManagementGroupSubscriptionAssociationRead parseID groupIDString
                subscriptionIDString client d).1.Id = d.Id)) := by
  refine ⟨?_, ?_, ?_, ?_, ?_, ?_⟩
  · intro parseID hash client d id resp hid hc hn
    simp [resourceManagementGroupRead, hid, hc, hn]
  · intro parseID client copyToState d id resp hid hc hn
    simp [network.resourceSubnetRead, hid, hc, hn]
  · intro parseID client copyToState d id resp hid hc hn
    simp [network.resourceVirtualNetworkRead, hid, hc, hn]
  · intro parseID g s client d id resp hid hc
    simp [resourceManagementGroupSubscriptionAssociationRead, hid, hc]
  · intro d
    exact ⟨rfl, rfl⟩
  · intro parseID g s client d id resp fetchErr hid hc
    refine ⟨?_, ?_, ?_⟩
    · rintro ⟨rfl, props, children, hp, hch, hnone⟩
      have hloop : subscriptionAssociationReadLoop id.SubscriptionId children false = false := by
        cases hl : subscriptionAssociationReadLoop id.SubscriptionId children false with
        | false => rfl
        | true => exact absurd ((subscriptionAssociationReadLoop_iff _ _).1 hl) hnone
      simp [resourceManagementGroupSubscriptionAssociationRead, hid, hc, hp, hch, hloop]
    · intro hne hempty
      cases fetchErr with
      | some e =>
        simp [resourceManagementGroupSubscriptionAssociationRead, hid, hc] at hempty
        exact absurd hempty hne
      | none =>
        refine ⟨rfl, ?_⟩
        cases hp : resp.Properties with
        | none =>
          simp [resourceManagementGroupSubscriptionAssociationRead, hid, hc, hp] at hempty
          exact absurd hempty hne
        | some props =>
          cases hch : props.Children with
          | none =>
            simp [resourceManagementGroupSubscriptionAssociationRead, hid, hc, hp, hch] at hempty
            exact absurd hempty hne
          | some children =>
            refine ⟨props, children, rfl, hch, ?_⟩
            intro hex
            have hl := (subscriptionAssociationReadLoop_iff _ _).2 hex
            simp only [resourceManagementGroupSubscriptionAssociationRead, hid, hc, hp, hch, hl,
              Bool.not_true, Bool.false_eq_true, if_false] at hempty
            exact hne hempty
    · intro props children he hp hch hex
      subst he
      have hl := (subscriptionAssociationReadLoop_iff _ _).2 hex
      constructor
      · simp [resourceManagementGroupSubscriptionAssociationRead, hid, hc, hp, hch, hl]
      · simp only [resourceManagementGroupSubscriptionAssociationRead, hid, hc, hp, hch, hl,
          Bool.not_true, Bool.false_eq_true, if_false]
        rfl

/-- C14, amended, on a subnet fetch that fails with status 404: the subnet read
clears the ID and returns no error. -/
theorem notFound_on_read_paths_witness :
    network.resourceSubnetRead
        (fun _ => Except.ok { ResourceGroup := "rg", VirtualNetworkName := "vnet", Name := "a" })
        (fun _ => ({ Response := some { StatusCode := 404 }, SubnetPropertiesFormat := none,
                     Name := none, ID := none }, some { msg := "missing" }))
        (fun _ _ d => (d, none))
        { id := "subnet-id", attrs := [("name", AttrValue.string "a")] }
      = ({ id := "", attrs := [("name", AttrValue.string "a")] }, none) :=
  (notFound_on_read_paths { msg := "missing" }).2.1
    (fun _ => Except.ok { ResourceGroup := "rg", VirtualNetworkName := "vnet", Name := "a" })
    (fun _ => ({ Response := some { StatusCode := 404 }, SubnetPropertiesFormat := none,
                 Name := none, ID := none }, some { msg := "missing" }))
    (fun _ _ d => (d, none))
    { id := "subnet-id", attrs := [("name", AttrValue.string "a")] }
    { ResourceGroup := "rg", VirtualNetworkName := "vnet", Name := "a" }
    { Response := some { StatusCode := 404 }, SubnetPropertiesFormat := none,
      Name := none, ID := none } rfl rfl (by decide)

/-- C15, as stated, fails on the subscription-association path: the requests of
the association read and of the association poller ask for recursion
disabled, not enabled. -/
theorem associationRequests_recursion_disabled :
    (resourceManagementGroupSubscriptionAssociationRead_request
        { ManagementGroup := "group-a", SubscriptionId := "sub-1" }).recurse = some false
    ∧ (subscriptionAssociationRefreshFunc_request
        { ManagementGroup := "group-a", SubscriptionId := "sub-1" }).recurse = some false
    ∧ (resourceManagementGroupSubscriptionAssociationRead_request
        { ManagementGroup := "group-a", SubscriptionId := "sub-1" }).recurse ≠ some true
    ∧ (subscriptionAssociationRefreshFunc_request
        { ManagementGroup := "group-a", SubscriptionId := "sub-1" }).recurse ≠ some true := by
  decide

/-- C15, amended: the association read and the association poller ask for the
children of the group with recursion disabled and an empty cache-control
value; the management-group read and the group-creation poller ask for the
children with recursion enabled and the cache-control value `no-cache`.  Each
of the four operations makes that one request: its outcome is the same for
any two clients that answer that request alike. -/
theorem fetch_requests (id : ManagementGroupSubscriptionAssociationId) (gid : ManagementGroupId)
    (groupName : String) :
    resourceManagementGroupSubscriptionAssociationRead_request id
      = { groupID := id.ManagementGroup, expand := "children", recurse := some false,
          filter := "", cacheControl := "" }
    ∧ subscriptionAssociationRefreshFunc_request id
      = { groupID := id.ManagementGroup, expand := "children", recurse := some false,
          filter := "", cacheControl := "" }
    ∧ resourceManagementGroupRead_request gid
      = { groupID := gid.Name, expand := "children", recurse := some true,
          filter := "", cacheControl := "no-cache" }
    ∧ managementgroupCreateStateRefreshFunc_request groupName
      = { groupID := groupName, expand := "children", recurse := some true,
          filter := "", cacheControl := "no-cache" }
    ∧ (∀ (parseID : String → Except GoError ManagementGroupSubscriptionAssociationId)
        (groupIDString subscriptionIDString : String → String) (client1 client2 : GroupsClient)
        (d : ResourceData),
        parseID d.Id = Except.ok id →
        client1 (resourceManagementGroupSubscriptionAssociationRead_request id)
          = client2 (resourceManagementGroupSubscriptionAssociationRead_request id) →
        resourceManagementGroupSubscriptionAssociationRead parseID groupIDString
            subscriptionIDString client1 d
          = resourceManagementGroupSubscriptionAssociationRead parseID groupIDString
            subscriptionIDString client2 d)
    ∧ (∀ client1 client2 : GroupsClient,
        client1 (subscriptionAssociationRefreshFunc_request id)
          = client2 (subscriptionAssociationRefreshFunc_request id) →
        subscriptionAssociationRefreshFunc client1 id
          = subscriptionAssociationRefreshFunc client2 id)
    ∧ (∀ (parseID : String → Except GoError ManagementGroupId) (hash : String → Int)
        (client1 client2 : GroupsClient) (d : ResourceData),
        parseID d.Id = Except.ok gid →
        client1 (resourceManagementGroupRead_request gid)
          = client2 (resourceManagementGroupRead_request gid) →
        resourceManagementGroupRead parseID hash client1 d
          = resourceManagementGroupRead parseID hash client2 d)
    ∧ (∀ client1 client2 : GroupsClient,
        client1 (managementgroupCreateStateRefreshFunc_request groupName)
          = client2 (managementgroupCreateStateRefreshFunc_request groupName) →
        managementgroupCreateStateRefreshFunc client1 groupName
          = managementgroupCreateStateRefreshFunc client2 groupName) := by
  refine ⟨rfl, rfl, rfl, rfl, ?_, ?_, ?_, ?_⟩
  · intro parseID g s client1 client2 d hid hc
    simp only [resourceManagementGroupSubscriptionAssociationRead, hid, hc]
  · intro client1 client2 hc
    simp only [subscriptionAssociationRefreshFunc, hc]
  · intro parseID hash client1 client2 d hid hc
    simp only [resourceManagementGroupRead, hid, hc]
  · intro client1 client2 hc
    simp only [managementgroupCreateStateRefreshFunc, hc]

end managementgroup

/-! ## Subnet policy flags -/

namespace network

open provider pluginsdk

/-- The strings on which `strings.EqualFold` with `Disabled` holds. -/
theorem equalFold_disabled (input : String) :
    strings.EqualFold input "Disabled" = true ↔
      ∃ c1 c2 c3 c4 c5 c6 c7 c8 : Char, input.data = [c1, c2, c3, c4, c5, c6, c7, c8]
        ∧ (c1 = 'd' ∨ c1 = 'D') ∧ (c2 = 'i' ∨ c2 = 'I')
        ∧ (c3 = 's' ∨ c3 = 'S' ∨ c3 = Char.ofNat 0x017F)
        ∧ (c4 = 'a' ∨ c4 = 'A') ∧ (c5 = 'b' ∨ c5 = 'B') ∧ (c6 = 'l' ∨ c6 = 'L')
        ∧ (c7 = 'e' ∨ c7 = 'E') ∧ (c8 = 'd' ∨ c8 = 'D') := by
  obtain ⟨l⟩ := input
  simp only [strings.EqualFold]
  constructor
  · intro h
    rcases l with _ | ⟨c1, _ | ⟨c2, _ | ⟨c3, _ | ⟨c4, _ | ⟨c5, _ | ⟨c6, _ | ⟨c7, _ | ⟨c8, _ | ⟨c9, l⟩⟩⟩⟩⟩⟩⟩⟩⟩
    all_goals simp [strings.equalFoldChars] at h
    refine ⟨c1, c2, c3, c4, c5, c6, c7, c8, rfl, ?_⟩
    simpa [unicode.sameFoldASCII, or_assoc] using h
  · rintro ⟨c1, c2, c3, c4, c5, c6, c7, c8, hl, h⟩
    subst hl
    simpa [strings.equalFoldChars, unicode.sameFoldASCII, or_assoc] using h

/-- C21: `expandEnforceSubnetNetworkPolicy b` is `expandSubnetNetworkPolicy (not b)`
for both booleans, it is `Disabled` on `true` and `Enabled` on `false`, and
`flattenEnforceSubnetNetworkPolicy` is true exactly on the strings of eight
characters that spell `disabled` with each letter in either case, the long s
U+017F counting as a form of `s` as in Go's case folding. -/
theorem enforce_policy_inverse :
    (∀ b : Bool, expandEnforceSubnetNetworkPolicy b = expandSubnetNetworkPolicy (!b))
    ∧ expandEnforceSubnetNetworkPolicy true = "Disabled"
    ∧ expandEnforceSubnetNetworkPolicy false = "Enabled"
    ∧ (∀ input : String, flattenEnforceSubnetNetworkPolicy input = true ↔
        ∃ c1 c2 c3 c4 c5 c6 c7 c8 : Char, input.data = [c1, c2, c3, c4, c5, c6, c7, c8]
          ∧ (c1 = 'd' ∨ c1 = 'D') ∧ (c2 = 'i' ∨ c2 = 'I')
          ∧ (c3 = 's' ∨ c3 = 'S' ∨ c3 = Char.ofNat 0x017F)
          ∧ (c4 = 'a' ∨ c4 = 'A') ∧ (c5 = 'b' ∨ c5 = 'B') ∧ (c6 = 'l' ∨ c6 = 'L')
          ∧ (c7 = 'e' ∨ c7 = 'E') ∧ (c8 = 'd' ∨ c8 = 'D'))
    ∧ flattenEnforceSubnetNetworkPolicy "DISABLED" = true
    ∧ flattenEnforceSubnetNetworkPolicy "disabled" = true
    ∧ flattenEnforceSubnetNetworkPolicy "Enabled" = false
    ∧ flattenEnforceSubnetNetworkPolicy "Disabled " = false := by
  refine ⟨?_, ?_, ?_, ?_, ?_, ?_, ?_, ?_⟩
  · intro b
    cases b <;> rfl
  · decide
  · decide
  · intro input
    exact equalFold_disabled input
  · decide
  · decide
  · decide
  · decide

/-- C26: for both booleans `b`, `flattenSubnetNetworkPolicy` gives `b` back on
`expandSubnetNetworkPolicy b`, and `flattenEnforceSubnetNetworkPolicy` gives `b`
back on `expandEnforceSubnetNetworkPolicy b`. -/
theorem policy_flag_roundtrip (b : Bool) :
    flattenSubnetNetworkPolicy (expandSubnetNetworkPolicy b) = b
    ∧ flattenEnforceSubnetNetworkPolicy (expandEnforceSubnetNetworkPolicy b) = b := by
  cases b <;> decide

end network

/-! ## Subnet delegations -/

namespace provider

theorem lookup_mapAssign {β : Type} (m : List (String × β)) (k k2 : String) (v : β) :
    (mapAssign m k v).lookup k2 = if k2 = k then some v else m.lookup k2 := by
  unfold mapAssign
  induction m with
  | nil =>
    by_cases h : k2 = k
    · simp [List.lookup, h]
    · have h2 : (k2 == k) = false := by simpa using h
      simp [List.lookup, h, h2]
  | cons e rest ih =>
    obtain ⟨a, b⟩ := e
    by_cases ha : a = k
    · subst ha
      by_cases h : k2 = a
      · simpa [List.filter, h] using ih
      · have h2 : (k2 == a) = false := by simpa using h
        simpa [List.filter, List.lookup, h, h2] using ih
    · have ha2 : (a != k) = true := by simpa using ha
      by_cases h : k2 = a
      · subst h
        simp [List.filter, ha2, List.lookup, ha]
      · have h2 : (k2 == a) = false := by simpa using h
        simpa [List.filter, ha2, List.lookup, h2] using ih

end provider

namespace network

open provider pluginsdk

theorem foldl_mapAssign_lookup_of_not_mem (f : String → String) (names : List String)
    (acc : List (String × String)) (k : String) (hk : k ∉ names.map f) :
    (names.foldl (fun m n => mapAssign m (f n) n) acc).lookup k = acc.lookup k := by
  induction names generalizing acc with
  | nil => rfl
  | cons a rest ih =>
    simp only [List.map_cons, List.mem_cons, not_or] at hk
    rw [List.foldl_cons, ih _ hk.2, lookup_mapAssign, if_neg hk.1]

theorem foldl_mapAssign_lookup_of_mem (f : String → String) (names : List String)
    (acc : List (String × String)) (n : String) (hn : n ∈ names) (hd : (names.map f).Nodup) :
    (names.foldl (fun m n => mapAssign m (f n) n) acc).lookup (f n) = some n := by
  induction names generalizing acc with
  | nil => simp at hn
  | cons a rest ih =>
    simp only [List.map_cons, List.nodup_cons] at hd
    rw [List.foldl_cons]
    rcases List.mem_cons.mp hn with e | hr
    · subst e
      rw [foldl_mapAssign_lookup_of_not_mem f rest _ _ hd.1, lookup_mapAssign, if_pos rfl]
    · exact ih _ hr hd.2

theorem foldl_mapAssign_lookup_some (f : String → String) (names : List String)
    (acc : List (String × String)) (k v : String)
    (h : (names.foldl (fun m n => mapAssign m (f n) n) acc).lookup k = some v) :
    (v ∈ names ∧ f v = k) ∨ acc.lookup k = some v := by
  induction names generalizing acc with
  | nil => exact Or.inr h
  | cons a rest ih =>
    rw [List.foldl_cons] at h
    rcases ih _ h with ⟨hv, hf⟩ | hacc
    · exact Or.inl ⟨List.mem_cons_of_mem a hv, hf⟩
    · rw [lookup_mapAssign] at hacc
      by_cases hk : k = f a
      · rw [if_pos hk] at hacc
        simp only [Option.some.injEq] at hacc
        subst hacc
        exact Or.inl ⟨List.mem_cons_self _ _, hk.symm⟩
      · rw [if_neg hk] at hacc
        exact Or.inr hacc

theorem toLower_of_ascii (lower : Char → Char)
    (hlower : ∀ c : Char, c.val < 128 → lower c = c.toLower)
    (s : String) (hs : ∀ c ∈ s.data, c.val < 128) :
    strings.ToLower lower s = String.mk (s.data.map Char.toLower) := by
  unfold strings.ToLower
  congr 1
  exact List.map_congr_left fun c hc => hlower c (hs c hc)

theorem serviceNames_ascii : ∀ n ∈ subnetDelegationServiceNames, ∀ c ∈ n.data, c.val < 128 := by
  decide

theorem serviceNames_lower_nodup (lower : Char → Char)
    (hlower : ∀ c : Char, c.val < 128 → lower c = c.toLower) :
    (subnetDelegationServiceNames.map (strings.ToLower lower)).Nodup := by
  have h : subnetDelegationServiceNames.map (strings.ToLower lower)
      = subnetDelegationServiceNames.map (fun s => String.mk (s.data.map Char.toLower)) :=
    List.map_congr_left fun n hn => toLower_of_ascii lower hlower n (serviceNames_ascii n hn)
  rw [h]
  decide

theorem normalizedServiceName_of_match (lower : Char → Char)
    (hlower : ∀ c : Char, c.val < 128 → lower c = c.toLower)
    (s n : String) (hn : n ∈ subnetDelegationServiceNames)
    (h : strings.ToLower lower s = strings.ToLower lower n) :
    normalizedServiceName lower s = n := by
  unfold normalizedServiceName normalizeServiceName
  rw [h, foldl_mapAssign_lookup_of_mem (strings.ToLower lower) _ [] n hn
    (serviceNames_lower_nodup lower hlower)]

theorem normalizedServiceName_of_no_match (lower : Char → Char) (s : String)
    (h : ∀ n ∈ subnetDelegationServiceNames, strings.ToLower lower s ≠ strings.ToLower lower n) :
    normalizedServiceName lower s = s := by
  unfold normalizedServiceName normalizeServiceName
  rw [foldl_mapAssign_lookup_of_not_mem (strings.ToLower lower) _ [] _ ?_]
  · rfl
  · intro hmem
    obtain ⟨n, hn, e⟩ := List.mem_map.mp hmem
    exact h n hn e.symm

theorem normalizedServiceName_cases (lower : Char → Char) (s : String) :
    (normalizedServiceName lower s ∈ subnetDelegationServiceNames
      ∧ strings.ToLower lower (normalizedServiceName lower s) = strings.ToLower lower s)
    ∨ normalizedServiceName lower s = s := by
  unfold normalizedServiceName normalizeServiceName
  cases hl : (subnetDelegationServiceNames.foldl
      (fun m normName => mapAssign m (strings.ToLower lower normName) normName) []).lookup
      (strings.ToLower lower s) with
  | none => exact Or.inr rfl
  | some nv =>
    rcases foldl_mapAssign_lookup_some (strings.ToLower lower) _ [] _ _ hl with ⟨hv, hf⟩ | hacc
    · exact Or.inl ⟨hv, hf⟩
    · simp at hacc

end network

namespace network

open provider pluginsdk

theorem expandSubnetDelegationActions_strings (actions : List String) :
    expandSubnetDelegationActions (actions.map Value.string) = Except.ok actions := by
  induction actions with
  | nil => rfl
  | cons a rest ih =>
    simp only [List.map_cons, expandSubnetDelegationActions, Value.assertString, ih, ok_bind]

theorem expandSubnetDelegationLoop_config (cfgs : List (String × String × List String)) :
    expandSubnetDelegationLoop (cfgs.map fun c => delegationConfig c.1 c.2.1 c.2.2)
      = Except.ok (cfgs.map fun c =>
          ({ Name := some c.1,
             ServiceDelegationPropertiesFormat :=
               some { ServiceName := some c.2.1, Actions := some c.2.2 } } : Delegation)) := by
  induction cfgs with
  | nil => rfl
  | cons c rest ih =>
    simp only [delegationConfig] at ih
    simp [delegationConfig, expandSubnetDelegationLoop, Value.assertMap, Value.assertString,
      Value.assertList, mapIndex, List.lookup, ok_bind, expandSubnetDelegationActions_strings, ih]

theorem flattenSubnetDelegationItem_full (lower : Char → Char) (name serviceName : String)
    (actions : List String) :
    flattenSubnetDelegationItem lower
        { Name := some name,
          ServiceDelegationPropertiesFormat :=
            some { ServiceName := some serviceName, Actions := some actions } }
      = delegationFlattened name (normalizedServiceName lower serviceName) actions := by
  simp [flattenSubnetDelegationItem, delegationFlattened, mapAssign]

theorem flattenSubnetDelegationItem_lookup (lower : Char → Char) (dele : Delegation) :
    ∃ retDele svcDele : List (String × Value),
      flattenSubnetDelegationItem lower dele = Value.map retDele
      ∧ retDele.lookup "name" = dele.Name.map Value.string
      ∧ retDele.lookup "service_delegation" = some (Value.list [Value.map svcDele])
      ∧ svcDele.lookup "name"
          = (dele.ServiceDelegationPropertiesFormat.bind fun props => props.ServiceName).map
              (fun s => Value.string (normalizedServiceName lower s))
      ∧ svcDele.lookup "actions"
          = (dele.ServiceDelegationPropertiesFormat.bind fun props => props.Actions).map
              Value.strings := by
  obtain ⟨name, sdpf⟩ := dele
  cases sdpf with
  | none =>
    cases name <;>
      exact ⟨_, [], rfl, by simp [mapAssign, List.lookup], by simp [mapAssign, List.lookup],
        by simp, by simp⟩
  | some props =>
    obtain ⟨sn, ac⟩ := props
    cases name <;> cases sn <;> cases ac <;>
      exact ⟨_, _, rfl, by simp [mapAssign, List.lookup], rfl,
        by simp [mapAssign, List.lookup], by simp [mapAssign, List.lookup]⟩

theorem flattenSubnetDelegation_getElem (lower : Char → Char) (l : List Delegation) (i : Nat) :
    (flattenSubnetDelegation lower (some l))[i]?
      = l[i]?.map (flattenSubnetDelegationItem lower) := by
  simp [flattenSubnetDelegation]

/-- C27: for `unicode.ToLower` given as any function `lower` that lower-cases the
ASCII letters and fixes the other ASCII characters, the lower-cased entries of
`subnetDelegationServiceNames` are pairwise distinct; a service name whose
lower-cased form is that of an entry `n` is emitted as `n`; a service name whose
lower-cased form is that of no entry is emitted unchanged; emitting is
idempotent; and `flattenSubnetDelegation` puts the emitted name under `name`
in the `service_delegation` of the delegation.  The last holds for every list
of delegations and every delegation in it, whether or not its name and its
actions are present: the value emitted at the position of the delegation is a
map whose `service_delegation` is a list of one map, and that map holds under
`name` the entry `n` when the service name matches `n`, the service name
itself when it matches no entry, and nothing when the service name is absent. -/
theorem delegation_name_normalisation (lower : Char → Char)
    (hlower : ∀ c : Char, c.val < 128 → lower c = c.toLower) :
    (subnetDelegationServiceNames.map (strings.ToLower lower)).Nodup
    ∧ (∀ s n : String, n ∈ subnetDelegationServiceNames →
        strings.ToLower lower s = strings.ToLower lower n →
        normalizedServiceName lower s = n)
    ∧ (∀ s : String,
        (∀ n ∈ subnetDelegationServiceNames,
          strings.ToLower lower s ≠ strings.ToLower lower n) →
        normalizedServiceName lower s = s)
    ∧ (∀ s : String,
        normalizedServiceName lower (normalizedServiceName lower s)
          = normalizedServiceName lower s)
    ∧ (∀ (name s : String) (actions : List String),
        flattenSubnetDelegation lower
            (some [{ Name := some name,
                     ServiceDelegationPropertiesFormat :=
                       some { ServiceName := some s, Actions := some actions } }])
          = [delegationFlattened name (normalizedServiceName lower s) actions])
    ∧ (∀ (l : List Delegation),
        (flattenSubnetDelegation lower (some l)).length = l.length
        ∧ ∀ (i : Nat) (dele : Delegation), l[i]? = some dele →
          ∃ retDele svcDele : List (String × Value),
            (flattenSubnetDelegation lower (some l))[i]? = some (Value.map retDele)
            ∧ retDele.lookup "name" = dele.Name.map Value.string
            ∧ retDele.lookup "service_delegation" = some (Value.list [Value.map svcDele])
            ∧ svcDele.lookup "name"
                = (dele.ServiceDelegationPropertiesFormat.bind
                      fun props => props.ServiceName).map
                    (fun s => Value.string (normalizedServiceName lower s))
            ∧ svcDele.lookup "actions"
                = (dele.ServiceDelegationPropertiesFormat.bind fun props => props.Actions).map
                    Value.strings)
    ∧ (∀ (l : List Delegation) (i : Nat) (dele : Delegation)
        (props : ServiceDelegationPropertiesFormat) (s : String),
        l[i]? = some dele → dele.ServiceDelegationPropertiesFormat = some props →
        props.ServiceName = some s →
        ∃ retDele svcDele : List (String × Value),
          (flattenSubnetDelegation lower (some l))[i]? = some (Value.map retDele)
          ∧ retDele.lookup "service_delegation" = some (Value.list [Value.map svcDele])
          ∧ (∀ n ∈ subnetDelegationServiceNames,
              strings.ToLower lower s = strings.ToLower lower n →
              svcDele.lookup "name" = some (Value.string n))
          ∧ ((∀ n ∈ subnetDelegationServiceNames,
                strings.ToLower lower s ≠ strings.ToLower lower n) →
              svcDele.lookup "name" = some (Value.string s))) := by
  refine ⟨serviceNames_lower_nodup lower hlower,
    fun s n hn h => normalizedServiceName_of_match lower hlower s n hn h,
    fun s h => normalizedServiceName_of_no_match lower s h, ?_, ?_, ?_, ?_⟩
  · intro s
    rcases normalizedServiceName_cases lower s with ⟨hmem, _⟩ | he
    · exact normalizedServiceName_of_match lower hlower _ _ hmem rfl
    · rw [he, he]
  · intro name s actions
    simp only [flattenSubnetDelegation, List.map_cons, List.map_nil,
      flattenSubnetDelegationItem_full]
  · intro l
    refine ⟨by simp [flattenSubnetDelegation], ?_⟩
    intro i dele hi
    obtain ⟨retDele, svcDele, hitem, h1, h2, h3, h4⟩ :=
      flattenSubnetDelegationItem_lookup lower dele
    refine ⟨retDele, svcDele, ?_, h1, h2, h3, h4⟩
    rw [flattenSubnetDelegation_getElem, hi, Option.map_some', hitem]
  · intro l i dele props s hi hp hs
    obtain ⟨retDele, svcDele, hitem, _, h2, h3, _⟩ :=
      flattenSubnetDelegationItem_lookup lower dele
    rw [hp, Option.some_bind, hs, Option.map_some'] at h3
    refine ⟨retDele, svcDele, ?_, h2, ?_, ?_⟩
    · rw [flattenSubnetDelegation_getElem, hi, Option.map_some', hitem]
    · intro n hn h
      rw [h3, normalizedServiceName_of_match lower hlower s n hn h]
    · intro h
      rw [h3, normalizedServiceName_of_no_match lower s h]

/-- C27 on the service name `MICROSOFT.SQL/servers`: it is emitted as the entry
`Microsoft.Sql/servers`. -/
theorem delegation_name_normalisation_witness :
    (∀ c : Char, c.val < 128 → Char.toLower c = c.toLower)
    ∧ normalizedServiceName Char.toLower "MICROSOFT.SQL/servers" = "Microsoft.Sql/servers" :=
  ⟨fun _ _ => rfl,
   (delegation_name_normalisation Char.toLower (fun _ _ => rfl)).2.1 "MICROSOFT.SQL/servers"
     "Microsoft.Sql/servers" (by decide) (by decide)⟩

/-- C28, as stated, fails: the value flattened from an expanded configuration is
not the configuration, because `actions` comes back as a `[]string` and not as
the `[]interface{}` of the configuration. -/
theorem delegation_roundtrip_changes_actions_type :
    expandSubnetDelegation
        [delegationConfig "delegation" "Microsoft.Sql/servers"
          ["Microsoft.Network/virtualNetworks/subnets/action"]]
      = Except.ok (some [{ Name := some "delegation",
                           ServiceDelegationPropertiesFormat :=
                             some { ServiceName := some "Microsoft.Sql/servers",
                                    Actions :=
                                      some ["Microsoft.Network/virtualNetworks/subnets/action"] } }])
    ∧ (∀ lower : Char → Char, (∀ c : Char, c.val < 128 → lower c = c.toLower) →
        flattenSubnetDelegation lower
            (some [{ Name := some "delegation",
                     ServiceDelegationPropertiesFormat :=
                       some { ServiceName := some "Microsoft.Sql/servers",
                              Actions :=
                                some ["Microsoft.Network/virtualNetworks/subnets/action"] } }])
          = [delegationFlattened "delegation" "Microsoft.Sql/servers"
              ["Microsoft.Network/virtualNetworks/subnets/action"]])
    ∧ [delegationFlattened "delegation" "Microsoft.Sql/servers"
        ["Microsoft.Network/virtualNetworks/subnets/action"]]
      ≠ [delegationConfig "delegation" "Microsoft.Sql/servers"
          ["Microsoft.Network/virtualNetworks/subnets/action"]] := by
  refine ⟨rfl, ?_, ?_⟩
  · intro lower hlower
    simp only [flattenSubnetDelegation, List.map_cons, List.map_nil,
      flattenSubnetDelegationItem_full]
    rw [normalizedServiceName_of_match lower hlower "Microsoft.Sql/servers"
      "Microsoft.Sql/servers" (by decide) rfl]
  · simp [delegationFlattened, delegationConfig]

/-- C28, amended: for every configuration list of delegations, each with a name,
one `service_delegation` whose name is an entry of
`subnetDelegationServiceNames` and a list of action strings,
`expandSubnetDelegation` returns without panic, and `flattenSubnetDelegation` of
its result is the configuration with every `actions` list turned into a
`[]string` of the same strings in the same order; the delegations keep their
number and order. -/
theorem delegation_roundtrip (lower : Char → Char)
    (hlower : ∀ c : Char, c.val < 128 → lower c = c.toLower)
    (cfgs : List (String × String × List String))
    (hnames : ∀ c ∈ cfgs, c.2.1 ∈ subnetDelegationServiceNames) :
    ∃ out : Option (List Delegation),
      expandSubnetDelegation (cfgs.map fun c => delegationConfig c.1 c.2.1 c.2.2) = Except.ok out
      ∧ flattenSubnetDelegation lower out
          = cfgs.map (fun c => delegationFlattened c.1 c.2.1 c.2.2)
      ∧ (flattenSubnetDelegation lower out).length = cfgs.length := by
  refine ⟨some (cfgs.map fun c =>
      ({ Name := some c.1,
         ServiceDelegationPropertiesFormat :=
           some { ServiceName := some c.2.1, Actions := some c.2.2 } } : Delegation)),
    by simp only [expandSubnetDelegation, expandSubnetDelegationLoop_config, ok_bind], ?_, ?_⟩
  · simp only [flattenSubnetDelegation, List.map_map]
    refine List.map_congr_left fun c hc => ?_
    simp only [Function.comp, flattenSubnetDelegationItem_full]
    rw [normalizedServiceName_of_match lower hlower c.2.1 c.2.1 (hnames c hc) rfl]
  · simp [flattenSubnetDelegation]

/-- C28, amended, on a list of two delegations. -/
theorem delegation_roundtrip_witness :
    ∃ out : Option (List Delegation),
      expandSubnetDelegation
          [delegationConfig "first" "Microsoft.Sql/servers"
            ["Microsoft.Network/virtualNetworks/subnets/action"],
           delegationConfig "second" "Microsoft.Web/serverFarms" []]
        = Except.ok out
      ∧ flattenSubnetDelegation Char.toLower out
          = [delegationFlattened "first" "Microsoft.Sql/servers"
              ["Microsoft.Network/virtualNetworks/subnets/action"],
             delegationFlattened "second" "Microsoft.Web/serverFarms" []]
      ∧ (flattenSubnetDelegation Char.toLower out).length = 2 :=
  delegation_roundtrip Char.toLower (fun _ _ => rfl)
    [("first", "Microsoft.Sql/servers", ["Microsoft.Network/virtualNetworks/subnets/action"]),
     ("second", "Microsoft.Web/serverFarms", [])]
    (by decide)

end network

/-! ## The association read against its poller, and the flattener against the differ -/

namespace managementgroup

open pluginsdk

/-- C23, as stated, fails: on a fetched group whose children list is absent the
poller reports `NotFound` while the read returns an error and keeps the ID; on
a fetched group whose properties are absent the poller reports `NotFound`
while the read returns no error and keeps the ID. -/
theorem associationRead_differs_from_poller :
    subscriptionAssociationRefreshFunc
        (fun _ => ({ Response := some { StatusCode := 200 },
                     Properties := some { DisplayName := none, Details := none,
                                          Children := none } }, none))
        { ManagementGroup := "group-a", SubscriptionId := "sub-1" }
      = (RefreshResult.string "NotFound", "NotFound", none)
    ∧ resourceManagementGroupSubscriptionAssociationRead
        (fun _ => Except.ok { ManagementGroup := "group-a", SubscriptionId := "sub-1" })
        (fun s => s) (fun s => s)
        (fun _ => ({ Response := some { StatusCode := 200 },
                     Properties := some { DisplayName := none, Details := none,
                                          Children := none } }, none))
        { id := "assoc-1", attrs := [] }
      = ({ id := "assoc-1", attrs := [] }, some (ReadError.couldNotReadProperties "group-a"))
    ∧ subscriptionAssociationRefreshFunc
        (fun _ => ({ Response := some { StatusCode := 200 }, Properties := none }, none))
        { ManagementGroup := "group-a", SubscriptionId := "sub-1" }
      = (RefreshResult.string "NotFound", "NotFound", none)
    ∧ resourceManagementGroupSubscriptionAssociationRead
        (fun _ => Except.ok { ManagementGroup := "group-a", SubscriptionId := "sub-1" })
        (fun s => s) (fun s => s)
        (fun _ => ({ Response := some { StatusCode := 200 }, Properties := none }, none))
        { id := "assoc-1", attrs := [] }
      = ({ id := "assoc-1", attrs := [] }, none) := by
  decide

/-- C23, amended: for a fetch without error that returns `resp`, a target `id` and
resource data with a non-empty ID.  When the properties and the children list
of `resp` are present, the read keeps the resource (ID unchanged,
`management_group_id` and `subscription_id` set, no error) exactly when the
poller reports `Exists`, and clears the ID without error exactly when the
poller reports `NotFound`.  When the properties are absent the poller reports
`NotFound` and the read returns no error and leaves the resource data as it
was; when the properties are present and the children list is absent the
poller reports `NotFound` and the read returns an error. -/
theorem association_read_matches_poller
    (parseID : String → Except GoError ManagementGroupSubscriptionAssociationId)
    (groupIDString subscriptionIDString : String → String) (client : GroupsClient)
    (d : ResourceData) (id : ManagementGroupSubscriptionAssociationId) (resp : ManagementGroup)
    (hid : parseID d.Id = Except.ok id)
    (hc : client (resourceManagementGroupSubscriptionAssociationRead_request id) = (resp, none))
    (hne : d.Id ≠ "") :
    (∀ props children, resp.Properties = some props → props.Children = some children →
      ((subscriptionAssociationRefreshFunc client id).2.1 = "Exists"
        ↔ resourceManagementGroupSubscriptionAssociationRead parseID groupIDString
            subscriptionIDString client d
          = ((d.Set "management_group_id"
                (AttrValue.string (groupIDString id.ManagementGroup))).Set "subscription_id"
                (AttrValue.string (subscriptionIDString id.SubscriptionId)), none))
      ∧ ((subscriptionAssociationRefreshFunc client id).2.1 = "NotFound"
        ↔ resourceManagementGroupSubscriptionAssociationRead parseID groupIDString
            subscriptionIDString client d
          = (d.SetId "", none))
      ∧ ((d.Set "management_group_id"
            (AttrValue.string (groupIDString id.ManagementGroup))).Set "subscription_id"
            (AttrValue.string (subscriptionIDString id.SubscriptionId))).Id = d.Id)
    ∧ (resp.Properties = none →
      subscriptionAssociationRefreshFunc client id
          = (RefreshResult.string "NotFound", "NotFound", none)
      ∧ resourceManagementGroupSubscriptionAssociationRead parseID groupIDString
            subscriptionIDString client d
          = (d, none))
    ∧ (∀ props, resp.Properties = some props → props.Children = none →
      subscriptionAssociationRefreshFunc client id
          = (RefreshResult.string "NotFound", "NotFound", none)
      ∧ resourceManagementGroupSubscriptionAssociationRead parseID groupIDString
            subscriptionIDString client d
          = (d, some (ReadError.couldNotReadProperties id.ManagementGroup))) := by
  have hc2 : client (subscriptionAssociationRefreshFunc_request id) = (resp, none) := hc
  have hidne : d.id ≠ "" := hne
  refine ⟨?_, ?_, ?_⟩
  · intro props children hp hch
    cases hl : subscriptionAssociationRefreshLoop id.SubscriptionId children with
    | true =>
      have hpoll : subscriptionAssociationRefreshFunc client id
          = (RefreshResult.managementGroup resp, "Exists", none) := by
        simp [subscriptionAssociationRefreshFunc, hc2, hp, hch, hl]
      have hread : resourceManagementGroupSubscriptionAssociationRead parseID groupIDString
            subscriptionIDString client d
          = ((d.Set "management_group_id"
                (AttrValue.string (groupIDString id.ManagementGroup))).Set "subscription_id"
                (AttrValue.string (subscriptionIDString id.SubscriptionId)), none) := by
        simp [resourceManagementGroupSubscriptionAssociationRead, hid, hc, hp, hch,
          subscriptionAssociationReadLoop_eq, hl]
      rw [hpoll, hread]
      refine ⟨by simp, ?_, rfl⟩
      constructor
      · intro h
        simp at h
      · intro h
        have := congrArg (fun r => r.1.id) h
        simp only [ResourceData.Set, ResourceData.SetId] at this
        exact absurd this hidne
    | false =>
      have hpoll : subscriptionAssociationRefreshFunc client id
          = (RefreshResult.string "NotFound", "NotFound", none) := by
        simp [subscriptionAssociationRefreshFunc, hc2, hp, hch, hl]
      have hread : resourceManagementGroupSubscriptionAssociationRead parseID groupIDString
            subscriptionIDString client d
          = (d.SetId "", none) := by
        simp [resourceManagementGroupSubscriptionAssociationRead, hid, hc, hp, hch,
          subscriptionAssociationReadLoop_eq, hl]
      rw [hpoll, hread]
      refine ⟨?_, by simp, rfl⟩
      constructor
      · intro h
        simp at h
      · intro h
        have := congrArg (fun r => r.1.id) h
        simp only [ResourceData.Set, ResourceData.SetId] at this
        exact absurd this.symm hidne
  · intro hp
    constructor
    · simp [subscriptionAssociationRefreshFunc, hc2, hp]
    · simp [resourceManagementGroupSubscriptionAssociationRead, hid, hc, hp]
  · intro props hp hch
    constructor
    · simp [subscriptionAssociationRefreshFunc, hc2, hp, hch]
    · simp [resourceManagementGroupSubscriptionAssociationRead, hid, hc, hp, hch]

/-- C23, amended, on a fetched group that holds the target subscription: the
poller reports `Exists` and the read keeps the ID and sets both attributes. -/
theorem association_read_matches_poller_witness :
    subscriptionAssociationRefreshFunc
        (fun _ => (groupWithChildren [subscriptionChild "/subscriptions/sub-1" "sub-1"], none))
        { ManagementGroup := "group-a", SubscriptionId := "sub-1" }
      = (RefreshResult.managementGroup
          (groupWithChildren [subscriptionChild "/subscriptions/sub-1" "sub-1"]), "Exists", none)
    ∧ resourceManagementGroupSubscriptionAssociationRead
        (fun _ => Except.ok { ManagementGroup := "group-a", SubscriptionId := "sub-1" })
        (fun s => s) (fun s => s)
        (fun _ => (groupWithChildren [subscriptionChild "/subscriptions/sub-1" "sub-1"], none))
        { id := "assoc-1", attrs := [] }
      = ((({ id := "assoc-1", attrs := [] } : ResourceData).Set "management_group_id"
            (AttrValue.string "group-a")).Set "subscription_id" (AttrValue.string "sub-1"),
          none) :=
  ⟨by decide,
   ((association_read_matches_poller
      (fun _ => Except.ok { ManagementGroup := "group-a", SubscriptionId := "sub-1" })
      (fun s => s) (fun s => s)
      (fun _ => (groupWithChildren [subscriptionChild "/subscriptions/sub-1" "sub-1"], none))
      { id := "assoc-1", attrs := [] }
      { ManagementGroup := "group-a", SubscriptionId := "sub-1" }
      (groupWithChildren [subscriptionChild "/subscriptions/sub-1" "sub-1"])
      rfl rfl (by decide)).1 _ _ rfl rfl).1.mp (by decide)⟩

end managementgroup

namespace managementgroup

open pluginsdk

theorem flattenLoop_cons_nil (hash : String → Int) (v : ChildInfo) (rest : List ChildInfo)
    (s : StringSet) (h : v.ID = none) :
    flattenLoop hash (v :: rest) s = flattenLoop hash rest s := by
  simp [flattenLoop, h]

theorem flattenLoop_cons_err (hash : String → Int) (v : ChildInfo) (rest : List ChildInfo)
    (s : StringSet) (vID : String) (x : Option subscriptionId) (err : ParseError)
    (h : v.ID = some vID) (hp : parseManagementGroupSubscriptionID vID = (x, some err)) :
    flattenLoop hash (v :: rest) s = (none, some (FlattenError.unableToParseChild err)) := by
  simp [flattenLoop, h, hp]

theorem flattenLoop_cons_group (hash : String → Int) (v : ChildInfo) (rest : List ChildInfo)
    (s : StringSet) (vID : String)
    (h : v.ID = some vID) (hp : parseManagementGroupSubscriptionID vID = (none, none)) :
    flattenLoop hash (v :: rest) s = flattenLoop hash rest s := by
  simp [flattenLoop, h, hp]

theorem flattenLoop_cons_sub (hash : String → Int) (v : ChildInfo) (rest : List ChildInfo)
    (s : StringSet) (vID : String) (id : subscriptionId)
    (h : v.ID = some vID) (hp : parseManagementGroupSubscriptionID vID = (some id, none)) :
    flattenLoop hash (v :: rest) s = flattenLoop hash rest (s.Add hash id.subscriptionId) := by
  simp [flattenLoop, h, hp]

/-- When the parser reports no error on any child, the flattener's loop returns the
set to which the parsed ids have been added in order. -/
theorem flattenLoop_ok (hash : String → Int) (l : List ChildInfo)
    (hall : ∀ v ∈ l, ∀ vID, v.ID = some vID → (parseManagementGroupSubscriptionID vID).2 = none)
    (s : StringSet) :
    flattenLoop hash l s
      = (some ((parsedSubscriptionIds l).foldl (fun acc id => acc.Add hash id) s), none) := by
  induction l generalizing s with
  | nil => simp [flattenLoop, parsedSubscriptionIds]
  | cons v rest ih =>
    have hrest : ∀ w ∈ rest, ∀ wID, w.ID = some wID →
        (parseManagementGroupSubscriptionID wID).2 = none :=
      fun w hw => hall w (List.mem_cons_of_mem v hw)
    cases hid : v.ID with
    | none =>
      rw [flattenLoop_cons_nil hash v rest s hid, ih hrest,
        parsedSubscriptionIds_cons_nil v rest hid]
    | some vID =>
      have hv := hall v (List.mem_cons_self v rest) vID hid
      rcases parse_shape vID with h | ⟨err, h⟩ | ⟨id, h⟩
      · rw [flattenLoop_cons_group hash v rest s vID hid h, ih hrest,
          parsedSubscriptionIds_cons_group v rest vID hid (by rw [h])]
      · rw [h] at hv; simp at hv
      · rw [flattenLoop_cons_sub hash v rest s vID id hid h, ih hrest,
          parsedSubscriptionIds_cons_sub v rest vID id hid (by rw [h])]
        rfl

/-- When the parser reports an error on some child, the flattener's loop returns an
error and no set. -/
theorem flattenLoop_err (hash : String → Int) (l : List ChildInfo)
    (hex : ∃ v ∈ l, ∃ vID, v.ID = some vID ∧
      ∃ err, (parseManagementGroupSubscriptionID vID).2 = some err)
    (s : StringSet) :
    ∃ e, flattenLoop hash l s = (none, some e) := by
  induction l generalizing s with
  | nil => simp at hex
  | cons v rest ih =>
    have hrest : (∃ w ∈ rest, ∃ wID, w.ID = some wID ∧
        ∃ err, (parseManagementGroupSubscriptionID wID).2 = some err) →
        ∀ s1, ∃ e, flattenLoop hash rest s1 = (none, some e) := fun h s1 => ih h s1
    have htail : ∀ vID, v.ID = some vID →
        (parseManagementGroupSubscriptionID vID).2 = none →
        ∃ w ∈ rest, ∃ wID, w.ID = some wID ∧
          ∃ err, (parseManagementGroupSubscriptionID wID).2 = some err := by
      intro vID hid hnone
      obtain ⟨w, hw, wID, hwid, err, herr⟩ := hex
      rcases List.mem_cons.mp hw with e | hw1
      · subst e
        rw [hid] at hwid
        cases hwid
        rw [hnone] at herr
        simp at herr
      · exact ⟨w, hw1, wID, hwid, err, herr⟩
    cases hid : v.ID with
    | none =>
      rw [flattenLoop_cons_nil hash v rest s hid]
      obtain ⟨w, hw, wID, hwid, err, herr⟩ := hex
      rcases List.mem_cons.mp hw with e | hw1
      · subst e; rw [hid] at hwid; simp at hwid
      · exact hrest ⟨w, hw1, wID, hwid, err, herr⟩ s
    | some vID =>
      rcases parse_shape vID with h | ⟨err, h⟩ | ⟨id, h⟩
      · rw [flattenLoop_cons_group hash v rest s vID hid h]
        exact hrest (htail vID hid (by rw [h])) s
      · exact ⟨_, flattenLoop_cons_err hash v rest s vID none err hid h⟩
      · rw [flattenLoop_cons_sub hash v rest s vID id hid h]
        exact hrest (htail vID hid (by rw [h])) _

theorem mem_items_Add (hash : String → Int) (s : StringSet) (item x : String)
    (hinv : ∀ e ∈ s.m, e.1 = |hash e.2|)
    (hinj : ∀ a ∈ s.m.map (fun e => e.2), |hash a| = |hash item| → a = item) :
    x ∈ (s.Add hash item).m.map (fun e => e.2) ↔ x ∈ s.m.map (fun e => e.2) ∨ x = item := by
  unfold StringSet.Add
  by_cases hany : s.m.any (fun e => e.1 == |hash item|) = true
  · rw [if_pos hany]
    obtain ⟨e, he, hcode⟩ := List.any_eq_true.mp hany
    have hcode2 : e.1 = |hash item| := by simpa using hcode
    have hitem : e.2 = item :=
      hinj e.2 (List.mem_map.mpr ⟨e, he, rfl⟩) (by rw [← hinv e he, hcode2])
    constructor
    · exact fun h => Or.inl h
    · rintro (h | h)
      · exact h
      · rw [h, ← hitem]
        exact List.mem_map.mpr ⟨e, he, rfl⟩
  · rw [if_neg hany]
    simp [List.map_append]

theorem inv_Add (hash : String → Int) (s : StringSet) (item : String)
    (hinv : ∀ e ∈ s.m, e.1 = |hash e.2|) :
    ∀ e ∈ (s.Add hash item).m, e.1 = |hash e.2| := by
  unfold StringSet.Add
  by_cases hany : s.m.any (fun e => e.1 == |hash item|) = true
  · rw [if_pos hany]
    exact hinv
  · rw [if_neg hany]
    intro e he
    rcases List.mem_append.mp he with h | h
    · exact hinv e h
    · simp only [List.mem_singleton] at h
      subst h
      rfl

theorem mem_items_foldl_Add (hash : String → Int) (ids : List String) (s : StringSet)
    (hinv : ∀ e ∈ s.m, e.1 = |hash e.2|)
    (hinj : ∀ a, (a ∈ s.m.map (fun e => e.2) ∨ a ∈ ids) →
      ∀ b, (b ∈ s.m.map (fun e => e.2) ∨ b ∈ ids) → |hash a| = |hash b| → a = b)
    (x : String) :
    x ∈ (ids.foldl (fun acc id => acc.Add hash id) s).m.map (fun e => e.2)
      ↔ x ∈ s.m.map (fun e => e.2) ∨ x ∈ ids := by
  induction ids generalizing s with
  | nil => simp
  | cons id rest ih =>
    rw [List.foldl_cons]
    have hstep : ∀ y, y ∈ (s.Add hash id).m.map (fun e => e.2)
        ↔ y ∈ s.m.map (fun e => e.2) ∨ y = id :=
      fun y => mem_items_Add hash s id y hinv
        (fun a ha hcode => hinj a (Or.inl ha) id (Or.inr (List.mem_cons_self _ _)) hcode)
    have hcover : ∀ a, (a ∈ (s.Add hash id).m.map (fun e => e.2) ∨ a ∈ rest) →
        (a ∈ s.m.map (fun e => e.2) ∨ a ∈ id :: rest) := by
      intro a ha
      rcases ha with ha | ha
      · rcases (hstep a).mp ha with h | h
        · exact Or.inl h
        · exact Or.inr (h ▸ List.mem_cons_self _ _)
      · exact Or.inr (List.mem_cons_of_mem _ ha)
    rw [ih (s.Add hash id) (inv_Add hash s id hinv)
      (fun a ha b hb hcode => hinj a (hcover a ha) b (hcover b hb) hcode), hstep]
    simp only [List.mem_cons]
    tauto

end managementgroup

namespace managementgroup

open pluginsdk

set_option maxRecDepth 20000

/-- C22, as stated, fails: the subscription ids
`422ee47c-447d-4787-8d4c-745296d03025` and `41e633a7-4413-49e4-914f-996e4db08cd9`
have the same `pluginsdk.HashString` code, 2849764778.  On the list of the two
subscriptions the flattener and the differ both succeed; the flattened set
holds the first id only, the differ with an empty desired list returns both
ids, and the differ with the flattened ids as desired list returns the second
id, not the empty list. -/
theorem flatten_loses_colliding_subscription :
    HashString "422ee47c-447d-4787-8d4c-745296d03025" = 2849764778
    ∧ HashString "41e633a7-4413-49e4-914f-996e4db08cd9" = 2849764778
    ∧ flattenManagementGroupSubscriptionIds HashString (some collidingChildren)
      = (some { m := [(2849764778, "422ee47c-447d-4787-8d4c-745296d03025")] }, none)
    ∧ determineManagementGroupSubscriptionsIdsToRemove (some collidingChildren) []
      = (some ["422ee47c-447d-4787-8d4c-745296d03025",
               "41e633a7-4413-49e4-914f-996e4db08cd9"], none)
    ∧ ¬ (∀ s, s ∈ ({ m := [(2849764778, "422ee47c-447d-4787-8d4c-745296d03025")] }
                    : StringSet).m.map (fun e => e.2)
            ↔ s ∈ ["422ee47c-447d-4787-8d4c-745296d03025",
                   "41e633a7-4413-49e4-914f-996e4db08cd9"])
    ∧ determineManagementGroupSubscriptionsIdsToRemove (some collidingChildren)
        (({ m := [(2849764778, "422ee47c-447d-4787-8d4c-745296d03025")] }
            : StringSet).m.map (fun e => e.2))
      = (some ["41e633a7-4413-49e4-914f-996e4db08cd9"], none) := by
  refine ⟨by decide, by decide, by decide, by decide, ?_, by decide⟩
  intro h
  exact absurd ((h "41e633a7-4413-49e4-914f-996e4db08cd9").2 (by decide)) (by decide)

/-- C22, amended: `flattenManagementGroupSubscriptionIds` returns an error exactly
when `determineManagementGroupSubscriptionsIdsToRemove` does, whatever the
desired list is.  When both succeed and no two distinct parsed subscription
ids have the same hash code in the set, for the hash function `hash` of the
set, `pluginsdk.HashString` included, the strings in the set are exactly the
strings the differ returns for an empty desired list, and the differ called
with the strings of the set as desired list returns the empty list. -/
theorem flatten_agrees_with_differ (hash : String → Int) (input : Option (List ChildInfo))
    (updated : List String) :
    ((∃ e, (flattenManagementGroupSubscriptionIds hash input).2 = some e)
      ↔ (∃ e, (determineManagementGroupSubscriptionsIdsToRemove input updated).2 = some e))
    ∧ (∀ (set : StringSet) (r : List String),
        (∀ a ∈ parsedSubscriptionIds (input.getD []),
          ∀ b ∈ parsedSubscriptionIds (input.getD []), |hash a| = |hash b| → a = b) →
        flattenManagementGroupSubscriptionIds hash input = (some set, none) →
        determineManagementGroupSubscriptionsIdsToRemove input [] = (some r, none) →
        (∀ s, s ∈ set.m.map (fun e => e.2) ↔ s ∈ r)
        ∧ determineManagementGroupSubscriptionsIdsToRemove input (set.m.map (fun e => e.2))
          = (some [], none)) := by
  cases input with
  | none =>
    refine ⟨by simp [flattenManagementGroupSubscriptionIds,
      determineManagementGroupSubscriptionsIdsToRemove], ?_⟩
    intro set r _ hf hd
    simp only [flattenManagementGroupSubscriptionIds, Prod.mk.injEq, Option.some.injEq,
      and_true] at hf
    simp only [determineManagementGroupSubscriptionsIdsToRemove, Prod.mk.injEq,
      Option.some.injEq, and_true] at hd
    subst hf
    subst hd
    exact ⟨fun s => by simp, rfl⟩
  | some l =>
    simp only [flattenManagementGroupSubscriptionIds,
      determineManagementGroupSubscriptionsIdsToRemove, Option.getD_some]
    rcases rejected_or_not l with hex | hall
    · obtain ⟨e1, he1⟩ := flattenLoop_err hash l hex { m := [] }
      obtain ⟨e2, he2⟩ := determineLoop_err updated l hex []
      refine ⟨⟨fun _ => ⟨e2, by rw [he2]⟩, fun _ => ⟨e1, by rw [he1]⟩⟩, ?_⟩
      intro set r _ hf _
      rw [he1] at hf
      simp at hf
    · have hf0 := flattenLoop_ok hash l hall { m := [] }
      have hd0 := determineLoop_ok updated l hall []
      refine ⟨⟨fun h => ?_, fun h => ?_⟩, ?_⟩
      · obtain ⟨e, he⟩ := h
        rw [hf0] at he
        simp at he
      · obtain ⟨e, he⟩ := h
        rw [hd0] at he
        simp at he
      · intro set r hinj hf hd
        rw [hf0] at hf
        simp only [Prod.mk.injEq, Option.some.injEq, and_true] at hf
        rw [determineLoop_ok [] l hall []] at hd
        simp only [List.nil_append, Prod.mk.injEq, Option.some.injEq, and_true] at hd
        have hmem : ∀ x, x ∈ set.m.map (fun e => e.2) ↔ x ∈ parsedSubscriptionIds l := by
          intro x
          rw [← hf, mem_items_foldl_Add hash (parsedSubscriptionIds l) { m := [] }
            (by simp)
            (fun a ha b hb hcode => hinj a (by simpa using ha) b (by simpa using hb) hcode) x]
          simp
        have hr : r = parsedSubscriptionIds l := by
          rw [← hd]
          exact List.filter_eq_self.mpr (fun a _ => by simp [foundIn])
        refine ⟨fun s => by rw [hmem s, hr], ?_⟩
        rw [determineLoop_ok _ l hall []]
        have hnil : (parsedSubscriptionIds l).filter
            (fun s => !foundIn s (set.m.map (fun e => e.2))) = [] := by
          refine List.filter_eq_nil_iff.mpr (fun a ha => ?_)
          have := (foundIn_iff a (set.m.map (fun e => e.2))).mpr ((hmem a).mpr ha)
          simp [this]
        rw [hnil]
        rfl

/-- C22, amended, on the two subscriptions and the nested group of the scenario of
the specification, with `pluginsdk.HashString` as the hash of the set: the two
ids have distinct codes, the set holds both and the differ called with them
returns the empty list. -/
theorem flatten_agrees_with_differ_witness :
    (∀ s, s ∈ ({ m := [(4132891167, "00000000-0000-0000-0000-000000000001"),
                       (1868544933, "00000000-0000-0000-0000-000000000002")] }
                : StringSet).m.map (fun e => e.2)
        ↔ s ∈ ["00000000-0000-0000-0000-000000000001",
               "00000000-0000-0000-0000-000000000002"])
    ∧ determineManagementGroupSubscriptionsIdsToRemove (some scenarioChildren)
        (({ m := [(4132891167, "00000000-0000-0000-0000-000000000001"),
                  (1868544933, "00000000-0000-0000-0000-000000000002")] }
            : StringSet).m.map (fun e => e.2))
      = (some [], none) :=
  (flatten_agrees_with_differ HashString (some scenarioChildren) []).2
    { m := [(4132891167, "00000000-0000-0000-0000-000000000001"),
            (1868544933, "00000000-0000-0000-0000-000000000002")] }
    ["00000000-0000-0000-0000-000000000001", "00000000-0000-0000-0000-000000000002"]
    (by decide) (by decide) (by decide)

end managementgroup

/-! ## Panics of `expandFeatures` and of `flattenVirtualNetworkSubnets` -/

namespace provider

open features

theorem assignBoolIfPresent_of_bools {α : Type} (raw : List (String × Value)) (key : String)
    (assign : α → Bool → α) (get : α → Bool) (hget : ∀ a, assign a (get a) = a) (current : α)
    (hall : ∀ k v, raw.lookup k = some v → ∃ b, v = Value.bool b) :
    assignBoolIfPresent raw key assign current
      = Except.ok (assign current (lookupBoolD raw key (get current))) := by
  unfold assignBoolIfPresent lookupBoolD
  cases hl : raw.lookup key with
  | none => simp [hget]
  | some v =>
    obtain ⟨b, hb⟩ := hall key v hl
    subst hb
    rfl

theorem expandFeaturesKeyVault_of_bools (val kv : List (String × Value)) (rest : List Value)
    (f0 : UserFeatures)
    (hl : val.lookup "key_vault" = some (Value.list (Value.map kv :: rest)))
    (hall : ∀ k v, kv.lookup k = some v → ∃ b, v = Value.bool b) :
    ∃ f1, expandFeaturesKeyVault val f0 = Except.ok f1 := by
  unfold expandFeaturesKeyVault
  rw [hl]
  simp only [Value.assertList, Value.assertMap, Value.isNil, ok_bind, Bool.false_eq_true,
    if_false]
  rw [assignBoolIfPresent_of_bools kv _ _ (fun f => f.KeyVault.PurgeSoftDeleteOnDestroy)
    (fun _ => rfl) _ hall, ok_bind]
  rw [assignBoolIfPresent_of_bools kv _ _ (fun f => f.KeyVault.PurgeSoftDeletedCertsOnDestroy)
    (fun _ => rfl) _ hall, ok_bind]
  rw [assignBoolIfPresent_of_bools kv _ _ (fun f => f.KeyVault.PurgeSoftDeletedKeysOnDestroy)
    (fun _ => rfl) _ hall, ok_bind]
  rw [assignBoolIfPresent_of_bools kv _ _ (fun f => f.KeyVault.PurgeSoftDeletedSecretsOnDestroy)
    (fun _ => rfl) _ hall, ok_bind]
  rw [assignBoolIfPresent_of_bools kv _ _ (fun f => f.KeyVault.PurgeSoftDeletedHSMsOnDestroy)
    (fun _ => rfl) _ hall, ok_bind]
  rw [assignBoolIfPresent_of_bools kv _ _ (fun f => f.KeyVault.RecoverSoftDeletedCerts)
    (fun _ => rfl) _ hall, ok_bind]
  rw [assignBoolIfPresent_of_bools kv _ _ (fun f => f.KeyVault.RecoverSoftDeletedKeyVaults)
    (fun _ => rfl) _ hall, ok_bind]
  rw [assignBoolIfPresent_of_bools kv _ _ (fun f => f.KeyVault.RecoverSoftDeletedKeys)
    (fun _ => rfl) _ hall, ok_bind]
  rw [assignBoolIfPresent_of_bools kv _ _ (fun f => f.KeyVault.RecoverSoftDeletedSecrets)
    (fun _ => rfl) _ hall]
  exact ⟨_, rfl⟩

end provider

namespace provider

open features

theorem error_bind {α β : Type} (p : Panic) (g : α → Except Panic β) :
    ((Except.error p : Except Panic α) >>= g) = Except.error p := rfl

theorem bool_of_isBoolMap (m : List (String × Value)) (h : isBoolMap m = true) :
    ∀ k v, m.lookup k = some v → ∃ b, v = Value.bool b := by
  induction m with
  | nil => intro k v hl; simp [List.lookup] at hl
  | cons e rest ih =>
    obtain ⟨a, w⟩ := e
    simp only [isBoolMap, List.all_cons, Bool.and_eq_true] at h
    intro k v hl
    by_cases hk : k = a
    · have hk2 : (k == a) = true := by simpa using hk
      simp only [List.lookup, hk2, Option.some.injEq] at hl
      subst hl
      cases w with
      | bool b => exact ⟨b, rfl⟩
      | nil => simp at h
      | string s => simp at h
      | strings ss => simp at h
      | list l => simp at h
      | map entries => simp at h
    · have hk2 : (k == a) = false := by simpa using hk
      simp only [List.lookup, hk2] at hl
      exact ih h.2 k v hl

theorem isNilSubBlock_iff (raw : Option Value) :
    isNilSubBlock raw = true ↔ raw = some (Value.list [Value.nil]) := by
  unfold isNilSubBlock
  split <;> simp_all

theorem isSubBlockOfBools_cases (raw : Option Value) (h : isSubBlockOfBools raw = true) :
    raw = none ∨ raw = some (Value.list [])
      ∨ ∃ m, raw = some (Value.list [Value.map m]) ∧ isBoolMap m = true := by
  unfold isSubBlockOfBools at h
  split at h
  · exact Or.inl rfl
  · exact Or.inr (Or.inl rfl)
  · exact Or.inr (Or.inr ⟨_, rfl, h⟩)
  · simp at h

theorem expandFeaturesKeyVault_total (val : List (String × Value)) (f0 : UserFeatures)
    (h : (isSubBlockOfBools (val.lookup "key_vault")
      || isNilSubBlock (val.lookup "key_vault")) = true) :
    ∃ f1, expandFeaturesKeyVault val f0 = Except.ok f1 := by
  rcases Bool.or_eq_true _ _ ▸ h with h1 | h1
  · rcases isSubBlockOfBools_cases _ h1 with hl | hl | ⟨m, hl, hm⟩
    · exact ⟨f0, by simp [expandFeaturesKeyVault, hl]⟩
    · exact ⟨f0, by simp [expandFeaturesKeyVault, hl, Value.assertList, ok_bind]⟩
    · exact expandFeaturesKeyVault_of_bools val m [] f0 hl (bool_of_isBoolMap m hm)
  · have hl := (isNilSubBlock_iff _).mp h1
    exact ⟨f0, by simp [expandFeaturesKeyVault, hl, Value.assertList, Value.isNil, ok_bind]⟩

theorem expandFeaturesTemplateDeployment_total (val : List (String × Value))
    (f0 : UserFeatures) (h : isSubBlockOfBools (val.lookup "template_deployment") = true) :
    ∃ f1, expandFeaturesTemplateDeployment val f0 = Except.ok f1 := by
  rcases isSubBlockOfBools_cases _ h with hl | hl | ⟨m, hl, hm⟩
  · exact ⟨f0, by simp [expandFeaturesTemplateDeployment, hl]⟩
  · exact ⟨f0, by simp [expandFeaturesTemplateDeployment, hl, Value.assertList, ok_bind]⟩
  · have hstep := assignBoolIfPresent_of_bools m "delete_nested_items_during_deletion"
      (fun (f : UserFeatures) b =>
        { f with TemplateDeployment := { DeleteNestedItemsDuringDeletion := b } })
      (fun f => f.TemplateDeployment.DeleteNestedItemsDuringDeletion) (fun _ => rfl) f0
      (bool_of_isBoolMap m hm)
    have hdef : expandFeaturesTemplateDeployment val f0
        = assignBoolIfPresent m "delete_nested_items_during_deletion"
            (fun (f : UserFeatures) b =>
              { f with TemplateDeployment := { DeleteNestedItemsDuringDeletion := b } }) f0 := by
      simp only [expandFeaturesTemplateDeployment, hl, Value.assertList, Value.assertMap,
        ok_bind]
    exact ⟨_, hdef.trans hstep⟩

theorem expandFeaturesResourceGroup_total (val : List (String × Value))
    (f0 : UserFeatures) (h : isSubBlockOfBools (val.lookup "resource_group") = true) :
    ∃ f1, expandFeaturesResourceGroup val f0 = Except.ok f1 := by
  rcases isSubBlockOfBools_cases _ h with hl | hl | ⟨m, hl, hm⟩
  · exact ⟨f0, by simp [expandFeaturesResourceGroup, hl]⟩
  · exact ⟨f0, by simp [expandFeaturesResourceGroup, hl, Value.assertList, ok_bind]⟩
  · have hstep := assignBoolIfPresent_of_bools m "prevent_deletion_if_contains_resources"
      (fun (f : UserFeatures) b =>
        { f with ResourceGroup := { PreventDeletionIfContainsResources := b } })
      (fun f => f.ResourceGroup.PreventDeletionIfContainsResources) (fun _ => rfl) f0
      (bool_of_isBoolMap m hm)
    have hdef : expandFeaturesResourceGroup val f0
        = assignBoolIfPresent m "prevent_deletion_if_contains_resources"
            (fun (f : UserFeatures) b =>
              { f with ResourceGroup := { PreventDeletionIfContainsResources := b } }) f0 := by
      simp only [expandFeaturesResourceGroup, hl, Value.assertList, Value.assertMap, ok_bind]
    exact ⟨_, hdef.trans hstep⟩

theorem expandFeatures_unfold (val : List (String × Value)) (rest : List Value) :
    expandFeatures (Value.map val :: rest)
      = (expandFeaturesKeyVault val features.Default >>= fun f1 =>
          expandFeaturesTemplateDeployment val f1 >>= fun f2 =>
            expandFeaturesResourceGroup val f2) := rfl

/-- C24: on a features block whose `template_deployment` or `resource_group`
sub-block is a list holding one nil item, `expandFeatures` panics, whatever the
rest of the block holds, whereas a nil item of `key_vault` is treated like an
empty block.  `expandFeatures` returns without panic on every features block
whose `key_vault` sub-block is absent, empty, a single nil item or a single map
of booleans and whose other two sub-blocks are absent, empty or a single map of
booleans. -/
theorem expandFeatures_nil_item :
    expandFeatures [Value.map [("resource_group", Value.list [Value.nil])]]
      = Except.error Panic.interfaceConversion
    ∧ expandFeatures [Value.map [("template_deployment", Value.list [Value.nil])]]
      = Except.error Panic.interfaceConversion
    ∧ expandFeatures [Value.map [("key_vault", Value.list [Value.nil])]]
      = Except.ok features.Default
    ∧ (∀ (val : List (String × Value)) (rest : List Value),
        (isNilSubBlock (val.lookup "template_deployment")
          || isNilSubBlock (val.lookup "resource_group")) = true →
        ∃ p, expandFeatures (Value.map val :: rest) = Except.error p)
    ∧ (∀ (val : List (String × Value)) (rest : List Value),
        (isSubBlockOfBools (val.lookup "key_vault")
          || isNilSubBlock (val.lookup "key_vault")) = true →
        isSubBlockOfBools (val.lookup "template_deployment") = true →
        isSubBlockOfBools (val.lookup "resource_group") = true →
        ∃ f, expandFeatures (Value.map val :: rest) = Except.ok f) := by
  refine ⟨rfl, rfl, rfl, ?_, ?_⟩
  · intro val rest h
    rw [expandFeatures_unfold]
    cases h1 : expandFeaturesKeyVault val features.Default with
    | error p => exact ⟨p, rfl⟩
    | ok f1 =>
      rw [ok_bind]
      rcases Bool.or_eq_true _ _ ▸ h with hn | hn
      · have hl := (isNilSubBlock_iff _).mp hn
        refine ⟨Panic.interfaceConversion, ?_⟩
        simp [expandFeaturesTemplateDeployment, hl, Value.assertList, Value.assertMap, ok_bind,
          error_bind]
      · have hl := (isNilSubBlock_iff _).mp hn
        cases h2 : expandFeaturesTemplateDeployment val f1 with
        | error p => exact ⟨p, rfl⟩
        | ok f2 =>
          rw [ok_bind]
          refine ⟨Panic.interfaceConversion, ?_⟩
          simp [expandFeaturesResourceGroup, hl, Value.assertList, Value.assertMap, ok_bind,
            error_bind]
  · intro val rest hkv htd hrg
    rw [expandFeatures_unfold]
    obtain ⟨f1, h1⟩ := expandFeaturesKeyVault_total val features.Default hkv
    obtain ⟨f2, h2⟩ := expandFeaturesTemplateDeployment_total val f1 htd
    obtain ⟨f3, h3⟩ := expandFeaturesResourceGroup_total val f2 hrg
    exact ⟨f3, by rw [h1, ok_bind, h2, ok_bind, h3]⟩

end provider

namespace network

open provider pluginsdk

theorem resourceAzureSubnetHash_item_of_name (hash : String → Int) (subnet : Subnet)
    (name : String) (h : subnet.Name = some name) :
    ∃ code, resourceAzureSubnetHash hash (flattenVirtualNetworkSubnetsItem subnet)
      = Except.ok code := by
  obtain ⟨resp, props, sname, sid⟩ := subnet
  simp only at h
  subst h
  cases sid <;> cases props with
  | none =>
    exact ⟨_, by simp [resourceAzureSubnetHash, flattenVirtualNetworkSubnetsItem, mapAssign,
      mapIndex, List.lookup, Value.assertString, ok_bind]; rfl⟩
  | some p =>
    obtain ⟨ap, aps, nsg, se, sep, dels, pe, pl, ps⟩ := p
    cases ap <;> cases nsg with
    | none =>
      exact ⟨_, by simp [resourceAzureSubnetHash, flattenVirtualNetworkSubnetsItem, mapAssign,
        mapIndex, List.lookup, Value.assertString, ok_bind]; rfl⟩
    | some g =>
      obtain ⟨gid⟩ := g
      cases gid <;>
      exact ⟨_, by simp [resourceAzureSubnetHash, flattenVirtualNetworkSubnetsItem, mapAssign,
        mapIndex, List.lookup, Value.assertString, ok_bind]; rfl⟩

end network

namespace network

open provider pluginsdk

theorem resourceAzureSubnetHash_item_of_no_name (hash : String → Int) (subnet : Subnet)
    (h : subnet.Name = none) :
    resourceAzureSubnetHash hash (flattenVirtualNetworkSubnetsItem subnet)
      = Except.error Panic.interfaceConversion := by
  obtain ⟨resp, props, sname, sid⟩ := subnet
  simp only at h
  subst h
  cases sid <;> cases props with
  | none =>
    simp [resourceAzureSubnetHash, flattenVirtualNetworkSubnetsItem, mapAssign,
      mapIndex, List.lookup, Value.assertString, error_bind]
  | some p =>
    obtain ⟨ap, aps, nsg, se, sep, dels, pe, pl, ps⟩ := p
    cases ap <;> cases nsg with
    | none =>
      simp [resourceAzureSubnetHash, flattenVirtualNetworkSubnetsItem, mapAssign,
        mapIndex, List.lookup, Value.assertString, error_bind]
    | some g =>
      obtain ⟨gid⟩ := g
      cases gid <;>
      simp [resourceAzureSubnetHash, flattenVirtualNetworkSubnetsItem, mapAssign,
        mapIndex, List.lookup, Value.assertString, error_bind]

theorem valueSet_Add_ok (F : Value → Except Panic Int) (s : ValueSet) (item : Value) (code : Int)
    (h : F item = Except.ok code) : ∃ s1, s.Add F item = Except.ok s1 := by
  unfold ValueSet.Add
  rw [h, ok_bind]
  split
  · exact ⟨_, rfl⟩
  · exact ⟨_, rfl⟩

theorem valueSet_Add_error (F : Value → Except Panic Int) (s : ValueSet) (item : Value)
    (p : Panic) (h : F item = Except.error p) : s.Add F item = Except.error p := by
  unfold ValueSet.Add
  rw [h, error_bind]

theorem flattenVirtualNetworkSubnetsLoop_total (hash : String → Int) (l : List Subnet)
    (hall : ∀ subnet ∈ l, ∃ name, subnet.Name = some name) (results : ValueSet) :
    ∃ s, flattenVirtualNetworkSubnetsLoop hash l results = Except.ok s := by
  induction l generalizing results with
  | nil => exact ⟨results, rfl⟩
  | cons subnet rest ih =>
    obtain ⟨name, hname⟩ := hall subnet (List.mem_cons_self _ _)
    obtain ⟨code, hcode⟩ := resourceAzureSubnetHash_item_of_name hash subnet name hname
    obtain ⟨s1, hs1⟩ := valueSet_Add_ok (resourceAzureSubnetHash hash) results _ code hcode
    obtain ⟨s2, hs2⟩ := ih (fun w hw => hall w (List.mem_cons_of_mem _ hw)) s1
    exact ⟨s2, by simp only [flattenVirtualNetworkSubnetsLoop, hs1, ok_bind, hs2]⟩

theorem flattenVirtualNetworkSubnetsLoop_panics (hash : String → Int) (l : List Subnet)
    (hex : ∃ subnet ∈ l, subnet.Name = none) (results : ValueSet) :
    flattenVirtualNetworkSubnetsLoop hash l results = Except.error Panic.interfaceConversion := by
  induction l generalizing results with
  | nil => simp at hex
  | cons subnet rest ih =>
    cases hn : subnet.Name with
    | none =>
      have herr := valueSet_Add_error (resourceAzureSubnetHash hash) results _ _
        (resourceAzureSubnetHash_item_of_no_name hash subnet hn)
      simp only [flattenVirtualNetworkSubnetsLoop, herr, error_bind]
    | some name =>
      obtain ⟨code, hcode⟩ := resourceAzureSubnetHash_item_of_name hash subnet name hn
      obtain ⟨s1, hs1⟩ := valueSet_Add_ok (resourceAzureSubnetHash hash) results _ code hcode
      have hrest : ∃ w ∈ rest, w.Name = none := by
        obtain ⟨w, hw, hwn⟩ := hex
        rcases List.mem_cons.mp hw with e | hw1
        · subst e
          rw [hn] at hwn
          simp at hwn
        · exact ⟨w, hw1, hwn⟩
      simp only [flattenVirtualNetworkSubnetsLoop, hs1, ok_bind]
      exact ih hrest s1

/-- C25: `flattenVirtualNetworkSubnets` panics on every list that holds a subnet
whose `Name` is nil: the map it builds for that subnet has no `name`, and
`resourceAzureSubnetHash`, called when the map is added to the set, asserts
`m["name"]` to be a string.  On a nil list, and on every list in which each
subnet has a name, with or without properties, it returns a set. -/
theorem flattenVirtualNetworkSubnets_nil_name (hash : String → Int) :
    flattenVirtualNetworkSubnets hash
        (some [{ Response := none, SubnetPropertiesFormat := none, Name := none,
                 ID := some "subnet-id" }])
      = Except.error Panic.interfaceConversion
    ∧ resourceAzureSubnetHash hash (Value.map [("id", Value.string "subnet-id")])
      = Except.error Panic.interfaceConversion
    ∧ (∀ l : List Subnet, (∃ subnet ∈ l, subnet.Name = none) →
        flattenVirtualNetworkSubnets hash (some l) = Except.error Panic.interfaceConversion)
    ∧ (∀ l : List Subnet, (∀ subnet ∈ l, ∃ name, subnet.Name = some name) →
        ∃ s, flattenVirtualNetworkSubnets hash (some l) = Except.ok s)
    ∧ (∃ s, flattenVirtualNetworkSubnets hash none = Except.ok s) := by
  refine ⟨rfl, rfl, ?_, ?_, ⟨_, rfl⟩⟩
  · intro l hex
    exact flattenVirtualNetworkSubnetsLoop_panics hash l hex { m := [] }
  · intro l hall
    exact flattenVirtualNetworkSubnetsLoop_total hash l hall { m := [] }

end network
